import Mathlib

/-!
# gst-dsosdcoord: batching and dispatch core

A shallow embedding of `src/gst-dsosdcoord/gstdsosdcoord.c` and the properties
of its per-frame batching algorithm (`gst_ds_osdcoord_transform_ip`) and of its
colour-attribute parser (`gst_ds_osdcoord_parse_hw_blend_color_attrs`).

Modelling conventions

* The external drawing backend (`nvll_osd_*`), `gst_buffer_map` and
  `cudaSetDevice` are not part of the file; their outcomes are inputs (`Env`).
* Every array write, every assignment to one of the six running counters and
  every backend draw call is recorded, in program order, in a trace of
  `Event`s, so that properties of the form "throughout" or "no call is made"
  are statements about that trace.
* The seven accumulator arrays are indexed by `Nat`; the trace records each
  written index, and the bound `index < MAX_OSD_ELEMS` is a theorem.
* Payload fields that the element only copies are kept as opaque numbers.
* `double` channel values are kept as exact rationals (the decimal value of
  the text); rounding to the nearest `double` is not modelled.
-/

namespace DsOsdCoord

/-! ## Data model -/

/-- Capacity of every accumulator array: `#define MAX_OSD_ELEMS 1024`. -/
def MAX_OSD_ELEMS : Nat := 1024

/-- The process mode of the element (`NvOSD_Mode`). -/
inductive NvOSD_Mode where
  | MODE_CPU
  | MODE_GPU
  | MODE_HW
  deriving DecidableEq, Repr

/-- The two flow results `gst_ds_osdcoord_transform_ip` returns. -/
inductive GstFlowReturn where
  | GST_FLOW_OK
  | GST_FLOW_ERROR
  deriving DecidableEq, Repr

/-- An RGBA colour (`NvOSD_ColorParams`). -/
structure NvOSD_ColorParams where
  red : ℚ
  green : ℚ
  blue : ℚ
  alpha : ℚ
  deriving DecidableEq

/-- One class colour entry (`NvOSD_Color_info`). -/
structure NvOSD_Color_info where
  id : Int
  color : NvOSD_ColorParams
  deriving DecidableEq

/-- Rectangle parameters. `geometry` stands for the fields the element only
copies (left, top, width, height, border). -/
structure NvOSD_RectParams where
  geometry : Nat
  has_bg_color : Bool
  bg_color : NvOSD_ColorParams
  color_id : Int
  deriving DecidableEq

/-- Mask parameters: `data` is `none` for a NULL pointer. -/
structure NvOSD_MaskParams where
  data : Option Nat
  size : Nat
  deriving DecidableEq

/-- Text parameters: `display_text` is `none` for a NULL pointer; `style`
stands for the fields the element only copies. -/
structure NvOSD_TextParams where
  display_text : Option String
  style : Nat
  deriving DecidableEq

/-- Line parameters (only copied). -/
structure NvOSD_LineParams where
  payload : Nat
  deriving DecidableEq

/-- Arrow parameters (only copied). -/
structure NvOSD_ArrowParams where
  payload : Nat
  deriving DecidableEq

/-- Circle parameters (only copied). -/
structure NvOSD_CircleParams where
  payload : Nat
  deriving DecidableEq

/-- The content of one cell of an accumulator array; `zero` is the content
left by `g_new0`. -/
inductive Prim where
  | zero
  | rect (p : NvOSD_RectParams)
  | mask (p : NvOSD_MaskParams)
  | text (p : NvOSD_TextParams)
  | line (p : NvOSD_LineParams)
  | arrow (p : NvOSD_ArrowParams)
  | circle (p : NvOSD_CircleParams)
  deriving DecidableEq

/-- The six primitive kinds. Each has a running counter in
`gst_ds_osdcoord_transform_ip` (`rect_cnt`, `segment_cnt`, `text_cnt`,
`line_cnt`, `arrow_cnt`, `circle_cnt`) and a backend draw entry point
(`nvll_osd_draw_rectangles`, `nvll_osd_draw_segment_masks`,
`nvll_osd_put_text`, `nvll_osd_draw_lines`, `nvll_osd_draw_arrows`,
`nvll_osd_draw_circles`). -/
inductive Kind where
  | rect
  | segment
  | text
  | line
  | arrow
  | circle
  deriving DecidableEq, Repr

/-- The seven accumulator arrays of the instance. -/
inductive Buf where
  | rect_params
  | mask_rect_params
  | mask_params
  | text_params
  | line_params
  | arrow_params
  | circle_params
  deriving DecidableEq, Repr

/-- The array a kind's counter indexes and whose address goes into the first
list field of the kind's request. -/
def paramsBuf : Kind → Buf
  | .rect => .rect_params
  | .segment => .mask_rect_params
  | .text => .text_params
  | .line => .line_params
  | .arrow => .arrow_params
  | .circle => .circle_params

/-- An object annotation (`NvDsObjectMeta`). -/
structure NvDsObjectMeta where
  class_id : Int
  rect_params : NvOSD_RectParams
  mask_params : NvOSD_MaskParams
  text_params : NvOSD_TextParams
  deriving DecidableEq

/-- A display-annotation group (`NvDsDisplayMeta`). Each list holds the first
`num_rects`, `num_labels`, `num_lines`, `num_arrows`, `num_circles` entries of
the corresponding array. -/
structure NvDsDisplayMeta where
  rect_params : List NvOSD_RectParams
  text_params : List NvOSD_TextParams
  line_params : List NvOSD_LineParams
  arrow_params : List NvOSD_ArrowParams
  circle_params : List NvOSD_CircleParams
  deriving DecidableEq

/-- The batch-metadata container: the full lists of its object and display
pools. -/
structure NvDsBatchMeta where
  obj_meta_list : List NvDsObjectMeta
  display_meta_list : List NvDsDisplayMeta
  deriving DecidableEq

/-- One meta attached to a buffer: whether its API type carries the
`_dsmeta_quark` tag, whether its `meta_type` is `NVDS_BATCH_GST_META`, and
its `meta_data`. -/
structure GstMeta where
  has_tag : Bool
  is_batch_gst_meta : Bool
  meta_data : NvDsBatchMeta
  deriving DecidableEq

/-- The input buffer, as far as the element reads it: its attached metas in
iteration order. -/
structure GstBuffer where
  metas : List GstMeta
  deriving DecidableEq

/-- The request passed to a backend draw entry point: which entry point, the
count field, the first `num` cells of the array(s) whose address the request
carries, and the mode. `mask_params_list` is used by segment masks only. -/
structure DrawCall where
  entry : Kind
  num : Nat
  params_list : List Prim
  mask_params_list : List Prim
  mode : NvOSD_Mode
  deriving DecidableEq

/-- Observable steps of one run of `gst_ds_osdcoord_transform_ip`. -/
inductive Event where
  | write (b : Buf) (idx : Nat)
  | count (k : Kind) (v : Nat)
  | draw (c : DrawCall)
  deriving DecidableEq

/-- The clock text parameters, as far as the element sets them. -/
structure ClockTextParams where
  font_name : String
  font_size : Nat
  font_color : NvOSD_ColorParams
  x_offset : Nat
  y_offset : Nat
  deriving DecidableEq

/-- The instance state (`GstDsOsdCoord`). `bufs` holds the seven accumulator
arrays; `dsosdcoord_context` is `none` for NULL. -/
structure GstDsOsdCoord where
  show_clock : Bool
  draw_text : Bool
  draw_bbox : Bool
  draw_mask : Bool
  display_coord : Bool
  clock_text_params : ClockTextParams
  dsosdcoord_mode : NvOSD_Mode
  border_width : Nat
  hw_blend : Bool
  color_info : Nat → NvOSD_Color_info
  num_class_entries : Nat
  bufs : Buf → Nat → Prim
  num_rect : Nat
  num_segments : Nat
  num_strings : Nat
  num_lines : Nat
  num_arrows : Nat
  num_circles : Nat
  frame_num : Nat
  width : Int
  height : Int
  gpu_id : Nat
  dsosdcoord_context : Option Nat
  conv_buf : Option Nat

/-- What the environment answers during one call of
`gst_ds_osdcoord_transform_ip`: the build flag `PLATFORM_TEGRA`, whether
`gst_buffer_map` and `cudaSetDevice` succeed, and whether a backend draw call
succeeds (`false` stands for the return value -1) given the draw calls issued
before it in this frame. -/
structure Env where
  PLATFORM_TEGRA : Bool
  gst_buffer_map : Bool
  cudaSetDevice : Bool
  draw_ok : List DrawCall → DrawCall → Bool

/-- The state of a running `gst_ds_osdcoord_transform_ip`: the instance, the
six local counters and the events so far. -/
structure Exec where
  self : GstDsOsdCoord
  cnt : Kind → Nat
  trace : List Event

/-- Control flow inside `gst_ds_osdcoord_transform_ip`: execution goes on, or
`return GST_FLOW_ERROR` was reached. -/
inductive Flow where
  | next (m : Exec)
  | ret (m : Exec)

/-- Sequencing: what follows runs only if no `return` was reached. -/
def Flow.bind : Flow → (Exec → Flow) → Flow
  | .next m, f => f m
  | .ret m, _ => .ret m

/-- What one call of `gst_ds_osdcoord_transform_ip` leaves behind. -/
structure Result where
  ret : GstFlowReturn
  self : GstDsOsdCoord
  trace : List Event

/-! ## Trace projections -/

/-- The draw calls of a trace, in order. -/
def draws : List Event → List DrawCall
  | [] => []
  | .draw c :: t => c :: draws t
  | _ :: t => draws t

/-- The draw calls of a trace that go to the entry point of kind `k`. -/
def drawsOf (k : Kind) (t : List Event) : List DrawCall :=
  (draws t).filter (fun c => c.entry = k)

/-- Whether an event concerns kind `k`: a write into one of its arrays, an
assignment to its counter, or a call of its draw entry point. -/
def Event.touches (k : Kind) : Event → Bool
  | .write b _ => b = paramsBuf k || (k = .segment && b = .mask_params)
  | .count k2 _ => k2 = k
  | .draw c => c.entry = k

/-! ## The frame processor -/

/-- An array write `arr[idx] = v`. -/
def Exec.write (m : Exec) (b : Buf) (idx : Nat) (v : Prim) : Exec :=
  { m with
    self := { m.self with
      bufs := fun b2 j => if b2 = b ∧ j = idx then v else m.self.bufs b2 j },
    trace := m.trace ++ [Event.write b idx] }

/-- An assignment to a running counter. -/
def Exec.setCnt (m : Exec) (k : Kind) (v : Nat) : Exec :=
  { m with
    cnt := fun k2 => if k2 = k then v else m.cnt k2,
    trace := m.trace ++ [Event.count k v] }

/-- The first `num` cells of an array. -/
def readFirst (arr : Nat → Prim) (num : Nat) : List Prim :=
  (List.range num).map arr

/-- The request record filled in before a draw call of kind `k` with count
`num`: count, array address(es), `buf_ptr` (constant, left out) and mode. -/
def request (m : Exec) (k : Kind) (num : Nat) : DrawCall :=
  { entry := k
    num := num
    params_list := readFirst (m.self.bufs (paramsBuf k)) num
    mask_params_list :=
      if k = Kind.segment then readFirst (m.self.bufs Buf.mask_params) num else []
    mode := m.self.dsosdcoord_mode }

/-- Fill the request and call the backend entry point of kind `k`; on -1
`return GST_FLOW_ERROR`. -/
def dispatch (env : Env) (m : Exec) (k : Kind) (num : Nat) : Flow :=
  let c := request m k num
  let m1 : Exec := { m with trace := m.trace ++ [Event.draw c] }
  if env.draw_ok (draws m.trace) c then Flow.next m1 else Flow.ret m1

/-- The capacity check `if (cnt == MAX_OSD_ELEMS) { draw; cnt = 0; }`. -/
def flushIfFull (env : Env) (m : Exec) (k : Kind) : Flow :=
  if m.cnt k = MAX_OSD_ELEMS then
    (dispatch env m k (m.cnt k)).bind (fun m1 => Flow.next (m1.setCnt k 0))
  else Flow.next m

/-- The statement `arr[cnt++] = v` followed by the capacity check. -/
def pushFlush (env : Env) (k : Kind) (m : Exec) (v : Prim) : Flow :=
  flushIfFull env ((m.write (paramsBuf k) (m.cnt k) v).setCnt k (m.cnt k + 1)) k

/-- A `for` loop over a list whose body may `return`. -/
def forEach {α : Type} (f : Exec → α → Flow) : Exec → List α → Flow
  | m, [] => Flow.next m
  | m, x :: xs => (f m x).bind (fun m1 => forEach f m1 xs)

/-- The linear search of the `PLATFORM_TEGRA` block: the first index
`idx < num_class_entries`, starting at `idx`, whose entry has the class id;
`n` is the number of indices left. -/
def findColor (color_info : Nat → NvOSD_Color_info) (class_id : Int) :
    Nat → Nat → Option Nat
  | _, 0 => none
  | idx, n + 1 =>
    if (color_info idx).id = class_id then some idx
    else findColor color_info class_id (idx + 1) n

/-- The rect an object's cell holds after the `PLATFORM_TEGRA` block: the
object's rect with, on the first match, `color_id`, `has_bg_color` and the
four channels of `bg_color` overwritten. -/
def hwBlendRect (self : GstDsOsdCoord) (o : NvDsObjectMeta) : NvOSD_RectParams :=
  match findColor self.color_info o.class_id 0 self.num_class_entries with
  | some idx =>
    { o.rect_params with
      color_id := idx
      has_bg_color := true
      bg_color :=
        { red := (self.color_info idx).color.red
          blue := (self.color_info idx).color.blue
          green := (self.color_info idx).color.green
          alpha := (self.color_info idx).color.alpha } }
  | none => o.rect_params

/-- Whether the `PLATFORM_TEGRA` colour resolution runs. -/
def hwBlendActive (env : Env) (self : GstDsOsdCoord) : Bool :=
  env.PLATFORM_TEGRA && (self.dsosdcoord_mode = NvOSD_Mode.MODE_HW) && self.hw_blend

/-- The `PLATFORM_TEGRA` block for one object: on the first match of the
class id, `color_id`, `has_bg_color` and `bg_color` of the cell just written
(which holds the object's rect) are overwritten; without a match nothing is
written. -/
def hwBlendResolve (m : Exec) (o : NvDsObjectMeta) : Exec :=
  if (findColor m.self.color_info o.class_id 0 m.self.num_class_entries).isSome then
    m.write Buf.rect_params (m.cnt Kind.rect) (Prim.rect (hwBlendRect m.self o))
  else m

/-- Object scan, rect part: the `if (draw_bbox)` block (copy of the object's
rect, colour resolution under `PLATFORM_TEGRA`, increment) and the capacity
check after it (the check is outside the block). The `display_coord` block
between them only prints. -/
def objRect (env : Env) (m : Exec) (o : NvDsObjectMeta) : Flow :=
  let m1 :=
    if m.self.draw_bbox then
      let m2 := m.write Buf.rect_params (m.cnt Kind.rect) (Prim.rect o.rect_params)
      let m3 := if hwBlendActive env m2.self then hwBlendResolve m2 o else m2
      m3.setCnt Kind.rect (m3.cnt Kind.rect + 1)
    else m
  flushIfFull env m1 Kind.rect

/-- Object scan, mask part: both writes, the increment and the capacity check
are inside `if (draw_mask && mask_params.data && mask_params.size > 0)`. -/
def objMask (env : Env) (m : Exec) (o : NvDsObjectMeta) : Flow :=
  if m.self.draw_mask ∧ o.mask_params.data.isSome ∧ 0 < o.mask_params.size then
    let m1 := m.write Buf.mask_rect_params (m.cnt Kind.segment) (Prim.rect o.rect_params)
    let m2 := m1.write Buf.mask_params (m1.cnt Kind.segment) (Prim.mask o.mask_params)
    flushIfFull env (m2.setCnt Kind.segment (m2.cnt Kind.segment + 1)) Kind.segment
  else Flow.next m

/-- Object scan, text part: the append is under `if (display_text)`, the
capacity check is not. -/
def objText (env : Env) (m : Exec) (o : NvDsObjectMeta) : Flow :=
  let m1 :=
    if o.text_params.display_text.isSome then
      (m.write Buf.text_params (m.cnt Kind.text) (Prim.text o.text_params)).setCnt Kind.text
        (m.cnt Kind.text + 1)
    else m
  flushIfFull env m1 Kind.text

/-- The body of the loop over the object annotations. -/
def objectStep (env : Env) (m : Exec) (o : NvDsObjectMeta) : Flow :=
  (objRect env m o).bind (fun m1 =>
    (objMask env m1 o).bind (fun m2 => objText env m2 o))

/-- The body of the label loop of a display group. -/
def labelStep (env : Env) (m : Exec) (t : NvOSD_TextParams) : Flow :=
  if t.display_text.isSome then pushFlush env Kind.text m (Prim.text t) else Flow.next m

/-- The body of the loop over the display-annotation groups: five inner
loops, in the order rects, labels, lines, arrows, circles. The local `i` that
the body increments is never read. -/
def displayStep (env : Env) (m : Exec) (d : NvDsDisplayMeta) : Flow :=
  (forEach (fun m r => pushFlush env Kind.rect m (Prim.rect r)) m d.rect_params).bind
    (fun m1 =>
  (forEach (labelStep env) m1 d.text_params).bind (fun m2 =>
  (forEach (fun m l => pushFlush env Kind.line m (Prim.line l)) m2 d.line_params).bind
    (fun m3 =>
  (forEach (fun m a => pushFlush env Kind.arrow m (Prim.arrow a)) m3 d.arrow_params).bind
    (fun m4 =>
  forEach (fun m c => pushFlush env Kind.circle m (Prim.circle c)) m4 d.circle_params))))

/-- The six assignments `num_rect = rect_cnt; ...` before the tail flush. -/
def storeCounts (m : Exec) : Exec :=
  { m with
    self := { m.self with
      num_rect := m.cnt Kind.rect
      num_segments := m.cnt Kind.segment
      num_strings := m.cnt Kind.text
      num_lines := m.cnt Kind.line
      num_arrows := m.cnt Kind.arrow
      num_circles := m.cnt Kind.circle } }

/-- Tail flush, rectangles: `if (rect_cnt != 0 && draw_bbox)`. -/
def tailRect (env : Env) (m : Exec) : Flow :=
  if m.cnt Kind.rect ≠ 0 ∧ m.self.draw_bbox then dispatch env m Kind.rect m.self.num_rect
  else Flow.next m

/-- Tail flush, masks: `if (segment_cnt != 0 && draw_mask)`. -/
def tailMask (env : Env) (m : Exec) : Flow :=
  if m.cnt Kind.segment ≠ 0 ∧ m.self.draw_mask then
    dispatch env m Kind.segment m.self.num_segments
  else Flow.next m

/-- Tail flush, text: `if ((show_clock || text_cnt) && draw_text)`. -/
def tailText (env : Env) (m : Exec) : Flow :=
  if (m.self.show_clock ∨ m.cnt Kind.text ≠ 0) ∧ m.self.draw_text then
    dispatch env m Kind.text m.self.num_strings
  else Flow.next m

/-- Tail flush, lines: `if (line_cnt != 0)`. -/
def tailLine (env : Env) (m : Exec) : Flow :=
  if m.cnt Kind.line ≠ 0 then dispatch env m Kind.line m.self.num_lines else Flow.next m

/-- Tail flush, arrows: `if (arrow_cnt != 0)`. -/
def tailArrow (env : Env) (m : Exec) : Flow :=
  if m.cnt Kind.arrow ≠ 0 then dispatch env m Kind.arrow m.self.num_arrows else Flow.next m

/-- Tail flush, circles: `if (circle_cnt != 0)`. -/
def tailCircle (env : Env) (m : Exec) : Flow :=
  if m.cnt Kind.circle ≠ 0 then dispatch env m Kind.circle m.self.num_circles
  else Flow.next m

/-- The code after both scans: store the counts, then the six tail blocks. -/
def tailFlush (env : Env) (m : Exec) : Flow :=
  (tailRect env (storeCounts m)).bind (fun m1 =>
  (tailMask env m1).bind (fun m2 =>
  (tailText env m2).bind (fun m3 =>
  (tailLine env m3).bind (fun m4 =>
  (tailArrow env m4).bind (fun m5 => tailCircle env m5)))))

/-- The meta lookup loop: the `meta_data` of the first attached meta that has
the tag and whose type is `NVDS_BATCH_GST_META`, or NULL. -/
def findBatchMeta : List GstMeta → Option NvDsBatchMeta
  | [] => none
  | g :: rest =>
    if g.has_tag && g.is_batch_gst_meta then some g.meta_data else findBatchMeta rest

/-- The list the object loop walks: `full_obj_meta_list`, empty when there is
no batch meta. -/
def objList (buf : GstBuffer) : List NvDsObjectMeta :=
  match findBatchMeta buf.metas with
  | some b => b.obj_meta_list
  | none => []

/-- The list the display loop walks: `display_meta_list`, empty when there is
no batch meta. -/
def displayList (buf : GstBuffer) : List NvDsDisplayMeta :=
  match findBatchMeta buf.metas with
  | some b => b.display_meta_list
  | none => []

/-- The state at the first loop: all six counters 0, no event yet. -/
def startExec (self : GstDsOsdCoord) : Exec :=
  { self := self, cnt := fun _ => 0, trace := [] }

/-- The two scans: the object loop, then the display loop. -/
def scans (env : Env) (self : GstDsOsdCoord) (buf : GstBuffer) : Flow :=
  (forEach (objectStep env) (startExec self) (objList buf)).bind (fun m =>
    forEach (displayStep env) m (displayList buf))

/-- One call of `gst_ds_osdcoord_transform_ip`. -/
def gst_ds_osdcoord_transform_ip (env : Env) (self : GstDsOsdCoord) (buf : GstBuffer) :
    Result :=
  if env.gst_buffer_map = false then
    { ret := GstFlowReturn.GST_FLOW_ERROR, self := self, trace := [] }
  else if env.cudaSetDevice = false then
    { ret := GstFlowReturn.GST_FLOW_ERROR, self := self, trace := [] }
  else
    match (scans env self buf).bind (tailFlush env) with
    | Flow.ret m => { ret := GstFlowReturn.GST_FLOW_ERROR, self := m.self, trace := m.trace }
    | Flow.next m =>
      { ret := GstFlowReturn.GST_FLOW_OK
        self := { m.self with frame_num := (m.self.frame_num + 1) % 2 ^ 32 }
        trace := m.trace }

/-! ## Instance creation -/

/-- The instance as `gst_ds_osdcoord_init` leaves it: the listed defaults, the
arrays zero-filled by `g_new0`, every other field zero as GObject allocates
it. The default mode is `MODE_HW` under `PLATFORM_TEGRA`, else `MODE_GPU`. -/
def gst_ds_osdcoord_init (tegra : Bool) : GstDsOsdCoord :=
  { show_clock := false
    draw_text := true
    draw_bbox := true
    draw_mask := false
    display_coord := true
    clock_text_params :=
      { font_name := "Serif"
        font_size := 12
        font_color := { red := 1, green := 0, blue := 0, alpha := 1 }
        x_offset := 0
        y_offset := 0 }
    dsosdcoord_mode := if tegra then NvOSD_Mode.MODE_HW else NvOSD_Mode.MODE_GPU
    border_width := 4
    hw_blend := false
    color_info := fun _ => { id := 0, color := { red := 0, green := 0, blue := 0, alpha := 0 } }
    num_class_entries := 0
    bufs := fun _ _ => Prim.zero
    num_rect := 0
    num_segments := 0
    num_strings := 0
    num_lines := 0
    num_arrows := 0
    num_circles := 0
    frame_num := 0
    width := 0
    height := 0
    gpu_id := 0
    dsosdcoord_context := none
    conv_buf := none }

/-! ## The colour-attribute parser -/

/-- C `isspace` in the C locale. -/
def isspace (c : Char) : Bool :=
  c = ' ' || c = '\t' || c = '\n' || c = '\r' || c.toNat = 11 || c.toNat = 12

/-- C `isdigit`. -/
def isdigit (c : Char) : Bool :=
  decide (48 ≤ c.toNat) && decide (c.toNat ≤ 57)

/-- The value of a decimal digit character. -/
def digitVal (c : Char) : Nat := c.toNat - 48

/-- Read the leading decimal digits of a string into the accumulator `acc`,
counting them from `n`: the value, the count and the rest of the string. -/
def scanDigits : List Char → Nat → Nat → Nat × Nat × List Char
  | [], acc, n => (acc, n, [])
  | c :: cs, acc, n =>
    if isdigit c then scanDigits cs (acc * 10 + digitVal c) (n + 1) else (acc, n, c :: cs)

/-- Skip leading white space. -/
def skipSpace : List Char → List Char
  | [] => []
  | c :: cs => if isspace c then skipSpace cs else c :: cs

/-- C `atoi`: white space, an optional sign, decimal digits. The result is
exact; values outside the range of `int` are not modelled. -/
def atoi (s : List Char) : Int :=
  match skipSpace s with
  | '-' :: r => - ((scanDigits r 0 0).1 : Int)
  | '+' :: r => ((scanDigits r 0 0).1 : Int)
  | r => ((scanDigits r 0 0).1 : Int)

/-- The unsigned part of a plain decimal number: digits, then optionally a
point and more digits. -/
def atofUnsigned (s : List Char) : ℚ :=
  match scanDigits s 0 0 with
  | (ip, _, '.' :: r) =>
    ((scanDigits r ip 0).1 : ℚ) / (10 : ℚ) ^ (scanDigits r ip 0).2.1
  | (ip, _, _) => (ip : ℚ)

/-- C `atof` on plain decimal notation: white space, an optional sign, digits,
optionally a point and digits. The result is the exact decimal value;
exponents, hexadecimal notation, infinities and NaN are not modelled. -/
def atof (s : List Char) : ℚ :=
  match skipSpace s with
  | '-' :: r => - atofUnsigned r
  | '+' :: r => atofUnsigned r
  | r => atofUnsigned r

/-- The call `g_strstr_len (str, -1, s)` for a one-character string `s`: the
suffix that starts at the first occurrence of `c`, or NULL. -/
def strstrChar (c : Char) : List Char → Option (List Char)
  | [] => none
  | x :: xs => if x = c then some (x :: xs) else strstrChar c xs

/-- The statement `str = g_strstr_len (str, -1, ",") + 1`: the text after the
first comma; `none` stands for the invalid pointer NULL + 1. -/
def afterComma (s : List Char) : Option (List Char) :=
  (strstrChar ',' s).map List.tail

/-- How a call of `gst_ds_osdcoord_parse_hw_blend_color_attrs` ends: it
returns with the instance updated; it calls `exit (-1)` on a class id that is
too large; it dereferences NULL + 1 (no comma left where one is expected); or
the model ran out of fuel. -/
inductive ParseResult where
  | returned (self : GstDsOsdCoord)
  | exited (class_id : Int)
  | crashed
  | outOfFuel

/-- An update of `color_info[idx]`. -/
def setColorInfo (self : GstDsOsdCoord) (idx : Nat)
    (f : NvOSD_Color_info → NvOSD_Color_info) : GstDsOsdCoord :=
  { self with
    color_info := fun j => if j = idx then f (self.color_info j) else self.color_info j }

/-- The `while` loop of the parser, with `fuel` bounding the iterations;
`str = none` is NULL. `MAX_BG_CLR` comes from a header that is not part of
the sources and is a parameter. -/
def parseLoop (MAX_BG_CLR : Nat) :
    Nat → Option (List Char) → Nat → GstDsOsdCoord → ParseResult
  | _, none, idx, self => ParseResult.returned { self with num_class_entries := idx }
  | _, some [], idx, self => ParseResult.returned { self with num_class_entries := idx }
  | 0, some (_ :: _), _, _ => ParseResult.outOfFuel
  | fuel + 1, some (c :: cs), idx, self =>
    let class_id := atoi (c :: cs)
    if (MAX_BG_CLR : Int) ≤ class_id then ParseResult.exited class_id
    else
      let self1 := setColorInfo self idx (fun e => { e with id := class_id })
      match afterComma (c :: cs) with
      | none => ParseResult.crashed
      | some s1 =>
        let self2 := setColorInfo self1 idx
          (fun e => { e with color := { e.color with red := atof s1 } })
        match afterComma s1 with
        | none => ParseResult.crashed
        | some s2 =>
          let self3 := setColorInfo self2 idx
            (fun e => { e with color := { e.color with green := atof s2 } })
          match afterComma s2 with
          | none => ParseResult.crashed
          | some s3 =>
            let self4 := setColorInfo self3 idx
              (fun e => { e with color := { e.color with blue := atof s3 } })
            match afterComma s3 with
            | none => ParseResult.crashed
            | some s4 =>
              let self5 := setColorInfo self4 idx
                (fun e => { e with color := { e.color with alpha := atof s4 } })
              let str := (strstrChar ':' s4).map List.tail
              if MAX_BG_CLR ≤ idx + 1 then
                ParseResult.returned { self5 with num_class_entries := idx + 1 }
              else parseLoop MAX_BG_CLR fuel str (idx + 1) self5

/-- The parser `gst_ds_osdcoord_parse_hw_blend_color_attrs`; `arr = none` is a
NULL string. Every iteration consumes at least one character, so the length
of the string is enough fuel. -/
def gst_ds_osdcoord_parse_hw_blend_color_attrs (MAX_BG_CLR : Nat) (self : GstDsOsdCoord)
    (arr : Option (List Char)) : ParseResult :=
  parseLoop MAX_BG_CLR (arr.getD []).length arr 0 self

/-- The compiled-in default attribute string. -/
def DEFAULT_CLR : List Char :=
  "0,0.0,1.0,0.0,0.3:1,0.0,1.0,1.0,0.3:2,0.0,0.0,1.0,0.3:3,1.0,1.0,0.0,0.3".toList

/-- The class colour table of an instance: the first `num_class_entries`
entries of `color_info`. -/
def tableOf (self : GstDsOsdCoord) : List NvOSD_Color_info :=
  (List.range self.num_class_entries).map self.color_info

/-- The table a parser call leaves when it returns. -/
def ParseResult.table : ParseResult → Option (List NvOSD_Color_info)
  | .returned self => some (tableOf self)
  | _ => none

/-! ## Life cycle, properties and the serializer -/

/-- Calls that `gst_ds_osdcoord_start` and `gst_ds_osdcoord_set_caps` make to
the device layer and to the drawing backend, with the arguments they pass.
The colour table passed to `nvll_osd_init_colors_for_hw_blend` is the first
`num_class_entries` entries of `color_info`. -/
inductive LifeCall where
  | cudaSetDevice (gpu_id : Nat)
  | nvll_osd_create_context
  | cudaDeviceGetAttribute (gpu_id : Nat)
  | nvll_osd_init_colors_for_hw_blend (context : Option Nat) (table : List NvOSD_Color_info)
  | nvll_osd_set_clock_params (context : Option Nat) (params : ClockTextParams)
  | nvll_osd_set_params (context : Option Nat) (width : Int) (height : Int)
  deriving DecidableEq

/-- What the environment answers during `gst_ds_osdcoord_start`: whether
`cudaSetDevice` succeeds, what `nvll_osd_create_context` returns (`none` for
NULL) and the value of the local `flag_integrated` after
`cudaDeviceGetAttribute`: the attribute the device reports (0 for a device
that is not integrated), or still -1 when the call fails. -/
structure StartEnv where
  cudaSetDevice : Bool
  nvll_osd_create_context : Option Nat
  flag_integrated : Int

/-- How `gst_ds_osdcoord_start` ends: it returns TRUE or FALSE, or the parser
it calls on the default string does not return. -/
inductive StartResult where
  | returned (ret : Bool) (self : GstDsOsdCoord) (calls : List LifeCall)
  | exited (class_id : Int)
  | crashed
  | outOfFuel

/-- The function `gst_ds_osdcoord_start`. -/
def gst_ds_osdcoord_start (MAX_BG_CLR : Nat) (env : StartEnv) (self : GstDsOsdCoord) :
    StartResult :=
  if env.cudaSetDevice = false then
    StartResult.returned false self [LifeCall.cudaSetDevice self.gpu_id]
  else
    let self1 : GstDsOsdCoord := { self with dsosdcoord_context := env.nvll_osd_create_context }
    match env.nvll_osd_create_context with
    | none =>
      StartResult.returned false self1
        [LifeCall.cudaSetDevice self.gpu_id, LifeCall.nvll_osd_create_context]
    | some _ =>
      let self2 : GstDsOsdCoord :=
        if env.flag_integrated = 0 ∧ self1.dsosdcoord_mode = NvOSD_Mode.MODE_HW then
          { self1 with dsosdcoord_mode := NvOSD_Mode.MODE_GPU }
        else self1
      let parsed :=
        if self2.num_class_entries = 0 then
          gst_ds_osdcoord_parse_hw_blend_color_attrs MAX_BG_CLR self2 (some DEFAULT_CLR)
        else ParseResult.returned self2
      match parsed with
      | ParseResult.returned self3 =>
        StartResult.returned true self3
          ([LifeCall.cudaSetDevice self.gpu_id, LifeCall.nvll_osd_create_context,
            LifeCall.cudaDeviceGetAttribute self.gpu_id,
            LifeCall.nvll_osd_init_colors_for_hw_blend self3.dsosdcoord_context
              (tableOf self3)]
            ++ (if self3.show_clock then
                  [LifeCall.nvll_osd_set_clock_params self3.dsosdcoord_context
                    self3.clock_text_params]
                else []))
      | ParseResult.exited class_id => StartResult.exited class_id
      | ParseResult.crashed => StartResult.crashed
      | ParseResult.outOfFuel => StartResult.outOfFuel

/-- The negotiated caps, as far as `gst_ds_osdcoord_set_caps` reads them:
the integers `gst_structure_get_int` finds for "width" and "height", `none`
when the field is missing. -/
structure GstCaps where
  width : Option Int
  height : Option Int
  deriving DecidableEq

/-- What the environment answers during `gst_ds_osdcoord_set_caps`: whether
`cudaSetDevice` succeeds and the conversion buffer `nvll_osd_set_params`
returns. -/
structure CapsEnv where
  cudaSetDevice : Bool
  nvll_osd_set_params : Option Nat

/-- What `gst_ds_osdcoord_set_caps` leaves: its return value, the instance and
the calls it made. -/
structure CapsResult where
  ret : Bool
  self : GstDsOsdCoord
  calls : List LifeCall

/-- The function `gst_ds_osdcoord_set_caps`. The assignment `frame_num = 0`
comes first, before the caps are read. -/
def gst_ds_osdcoord_set_caps (env : CapsEnv) (self : GstDsOsdCoord) (incaps : GstCaps) :
    CapsResult :=
  let self0 : GstDsOsdCoord := { self with frame_num := 0 }
  match incaps.width, incaps.height with
  | some width, some height =>
    if self0.dsosdcoord_context.isSome ∧ self0.width = width ∧ self0.height = height then
      { ret := true, self := self0, calls := [] }
    else if env.cudaSetDevice = false then
      { ret := false, self := self0, calls := [LifeCall.cudaSetDevice self0.gpu_id] }
    else
      let self1 : GstDsOsdCoord := { self0 with width := width, height := height }
      { ret := true
        self := { self1 with conv_buf := env.nvll_osd_set_params }
        calls :=
          [LifeCall.cudaSetDevice self0.gpu_id]
          ++ (if self1.show_clock then
                [LifeCall.nvll_osd_set_clock_params self1.dsosdcoord_context
                  self1.clock_text_params]
              else [])
          ++ [LifeCall.nvll_osd_set_params self1.dsosdcoord_context self1.width
                self1.height] }
  | _, _ => { ret := false, self := self0, calls := [] }

/-- Rounding to the nearest integer, ties to even. -/
def roundHalfEven (q : ℚ) : Int :=
  let f := Rat.floor q
  let r := q - (f : ℚ)
  if r < 1 / 2 then f
  else if 1 / 2 < r then f + 1
  else if f % 2 = 0 then f else f + 1

/-- The number of doublings, at most `fuel`, that bring a positive value up to
at least 1. -/
def scaleUp : Nat → ℚ → Nat → Nat
  | 0, _, k => k
  | fuel + 1, a, k => if 1 ≤ a then k else scaleUp fuel (a * 2) (k + 1)

/-- The number of halvings, at most `fuel`, that bring a value below 2. -/
def scaleDown : Nat → ℚ → Nat → Nat
  | 0, _, k => k
  | fuel + 1, a, k => if a < 2 then k else scaleDown fuel (a / 2) (k + 1)

/-- The value of type `gfloat` (IEEE binary32) nearest to a real number, ties
to even: 24 significant bits, the spacing of the subnormal numbers (2^-149)
below 2^-126; zero stays zero. Overflow to infinity (magnitudes of 2^128 and
above) is not modelled. -/
def gfloatRound (q : ℚ) : ℚ :=
  let a := |q|
  let up := scaleUp 126 a 0
  let down := scaleDown 127 a 0
  let r : ℚ :=
    if a = 0 then 0
    else if down = 0 then (roundHalfEven (a * 2 ^ (up + 23)) : ℚ) / 2 ^ (up + 23)
    else (roundHalfEven (a / 2 ^ down * 2 ^ 23) : ℚ) * 2 ^ down / 2 ^ 23
  if q < 0 then -r else r

/-- The expression `(gfloat) n / 255` for an unsigned `n` below 2^24: the
conversion of `n` to `gfloat` is exact, `255` is converted to `gfloat`, and the
quotient is the `gfloat` nearest to `n / 255`. -/
def gfloatDiv255 (n : Nat) : ℚ := gfloatRound ((n : ℚ) / 255)

/-- The function `gst_ds_osdcoord_parse_color`: the four bytes of the 32-bit
`clock_color`, each converted to `gfloat` and divided by 255 in `gfloat`; the
`gfloat` quotient is stored in the colour field without further rounding. It
returns TRUE. -/
def gst_ds_osdcoord_parse_color (self : GstDsOsdCoord) (clock_color : Nat) :
    Bool × GstDsOsdCoord :=
  (true,
   { self with
     clock_text_params :=
       { self.clock_text_params with
         font_color :=
           { red := gfloatDiv255 ((clock_color &&& 0xff000000) >>> 24)
             green := gfloatDiv255 ((clock_color &&& 0x00ff0000) >>> 16)
             blue := gfloatDiv255 ((clock_color &&& 0x0000ff00) >>> 8)
             alpha := gfloatDiv255 (clock_color &&& 0x000000ff) } } })

/-- The character of a decimal digit. -/
def digitChar (n : Nat) : Char := Char.ofNat (48 + n)

/-- The decimal digits of a number, most significant first, in front of
`acc`; `fuel` bounds the number of digits. -/
def natDigitsAux : Nat → Nat → List Char → List Char
  | 0, _, acc => acc
  | fuel + 1, n, acc =>
    if n < 10 then digitChar n :: acc
    else natDigitsAux fuel (n / 10) (digitChar (n % 10) :: acc)

/-- The decimal digits of a number. -/
def natDigits (n : Nat) : List Char := natDigitsAux (n + 1) n []

/-- The conversion `%d` of `sprintf`. -/
def fmt_d (i : Int) : List Char :=
  if i < 0 then '-' :: natDigits i.natAbs else natDigits i.natAbs

/-- The conversion `%f` of `sprintf` for a finite value: a sign when negative,
the integer digits, a point and six fraction digits, rounded. The value
printed is that of the exact rational. -/
def fmt_f (v : ℚ) : List Char :=
  let n := (roundHalfEven (|v| * 1000000)).natAbs
  let digits := natDigits (n / 1000000) ++ '.' ::
    (List.replicate (6 - (natDigits (n % 1000000)).length) '0' ++ natDigits (n % 1000000))
  if v < 0 then '-' :: digits else digits

/-- The text `sprintf (arr, "%d,%f,%f,%f,%f:", ...)` writes for one entry. -/
def entryString (e : NvOSD_Color_info) : List Char :=
  fmt_d e.id ++ ',' :: (fmt_f e.color.red ++ ',' :: (fmt_f e.color.green ++ ',' ::
    (fmt_f e.color.blue ++ ',' :: (fmt_f e.color.alpha ++ [':']))))

/-- The `while (idx < num_class_entries - 1)` loop of the serializer, by the
number `n` of iterations left: each iteration writes the text of entry `idx`
to the start of `arr`, replacing what `arr` held, and increments `idx`. -/
def getLoop (self : GstDsOsdCoord) : Nat → Nat → List Char → Nat × List Char
  | 0, idx, arr => (idx, arr)
  | n + 1, idx, _ => getLoop self n (idx + 1) (entryString (self.color_info idx))

/-- The function `gst_ds_osdcoord_get_hw_blend_color_attrs`: the string it
stores in `value`. After the loop one more `sprintf` writes the text of entry
`idx` to the start of `arr`. The size of `arr` (100 bytes) is not modelled. -/
def gst_ds_osdcoord_get_hw_blend_color_attrs (self : GstDsOsdCoord) : List Char :=
  let idx := (getLoop self (self.num_class_entries - 1) 0 []).1
  entryString (self.color_info idx)

/-- A property and the value it is set to. -/
inductive Property where
  | PROP_SHOW_CLOCK (v : Bool)
  | PROP_SHOW_TEXT (v : Bool)
  | PROP_SHOW_BBOX (v : Bool)
  | PROP_SHOW_MASK (v : Bool)
  | PROP_SHOW_COORD (v : Bool)
  | PROP_CLOCK_FONT (v : String)
  | PROP_CLOCK_FONT_SIZE (v : Nat)
  | PROP_CLOCK_X_OFFSET (v : Nat)
  | PROP_CLOCK_Y_OFFSET (v : Nat)
  | PROP_CLOCK_COLOR (v : Nat)
  | PROP_PROCESS_MODE (v : NvOSD_Mode)
  | PROP_HW_BLEND_COLOR_ATTRS (v : Option (List Char))
  | PROP_GPU_DEVICE_ID (v : Nat)

/-- The function `gst_ds_osdcoord_set_property`. -/
def gst_ds_osdcoord_set_property (MAX_BG_CLR : Nat) (self : GstDsOsdCoord) :
    Property → ParseResult
  | .PROP_SHOW_CLOCK v => ParseResult.returned { self with show_clock := v }
  | .PROP_SHOW_TEXT v => ParseResult.returned { self with draw_text := v }
  | .PROP_SHOW_BBOX v => ParseResult.returned { self with draw_bbox := v }
  | .PROP_SHOW_MASK v => ParseResult.returned { self with draw_mask := v }
  | .PROP_SHOW_COORD v => ParseResult.returned { self with display_coord := v }
  | .PROP_CLOCK_FONT v =>
    ParseResult.returned
      { self with clock_text_params := { self.clock_text_params with font_name := v } }
  | .PROP_CLOCK_FONT_SIZE v =>
    ParseResult.returned
      { self with clock_text_params := { self.clock_text_params with font_size := v } }
  | .PROP_CLOCK_X_OFFSET v =>
    ParseResult.returned
      { self with clock_text_params := { self.clock_text_params with x_offset := v } }
  | .PROP_CLOCK_Y_OFFSET v =>
    ParseResult.returned
      { self with clock_text_params := { self.clock_text_params with y_offset := v } }
  | .PROP_CLOCK_COLOR v => ParseResult.returned (gst_ds_osdcoord_parse_color self v).2
  | .PROP_PROCESS_MODE v => ParseResult.returned { self with dsosdcoord_mode := v }
  | .PROP_HW_BLEND_COLOR_ATTRS v =>
    gst_ds_osdcoord_parse_hw_blend_color_attrs MAX_BG_CLR { self with hw_blend := true } v
  | .PROP_GPU_DEVICE_ID v => ParseResult.returned { self with gpu_id := v }

/-- The instance a returning call leaves. -/
def ParseResult.self? : ParseResult → Option GstDsOsdCoord
  | .returned self => some self
  | _ => none

/-- Parse a string, serialize the table, parse the serialized string again:
the table of the second parse, when both parses return. -/
def roundTrip (MAX_BG_CLR : Nat) (self : GstDsOsdCoord) (s : List Char) :
    Option (List NvOSD_Color_info) :=
  match gst_ds_osdcoord_parse_hw_blend_color_attrs MAX_BG_CLR self (some s) with
  | ParseResult.returned st =>
    (gst_ds_osdcoord_parse_hw_blend_color_attrs MAX_BG_CLR st
      (some (gst_ds_osdcoord_get_hw_blend_color_attrs st))).table
  | _ => none

/-! ## Specification vocabulary -/

/-- Whether every backend draw call succeeds. -/
def AllOk (env : Env) : Prop := ∀ hist c, env.draw_ok hist c = true

/-- The bounds of an event: a written index is below the capacity, a counter
value is at most the capacity. -/
def Event.inBounds : Event → Prop
  | .write _ i => i < MAX_OSD_ELEMS
  | .count _ v => v ≤ MAX_OSD_ELEMS
  | .draw _ => True

/-- Every draw call of the trace succeeded. -/
def okTrace (env : Env) (t : List Event) : Prop :=
  ∀ pre c post, t = pre ++ Event.draw c :: post → env.draw_ok (draws pre) c = true

/-- The concatenation, in call order, of the cells handed to the draw calls of
kind `k`. -/
def payload (k : Kind) (t : List Event) : List Prim :=
  ((drawsOf k t).map DrawCall.params_list).flatten

/-- The primitives appended so far to each accumulator. -/
abbrev Items := Kind → List Prim

/-- One more primitive for kind `k`. -/
def Items.add (it : Items) (k : Kind) (v : Prim) : Items :=
  fun k2 => if k2 = k then it k2 ++ [v] else it k2

/-- The rect an object contributes when `draw_bbox` is set. -/
def objRectValue (env : Env) (self : GstDsOsdCoord) (o : NvDsObjectMeta) : NvOSD_RectParams :=
  if hwBlendActive env self then hwBlendRect self o else o.rect_params

/-- Whether an object contributes a mask. -/
def hasMask (o : NvDsObjectMeta) : Bool :=
  o.mask_params.data.isSome && decide (0 < o.mask_params.size)

/-- What one object appends. -/
def objItems (env : Env) (self : GstDsOsdCoord) (it : Items) (o : NvDsObjectMeta) : Items :=
  let it1 := if self.draw_bbox then it.add Kind.rect (Prim.rect (objRectValue env self o)) else it
  let it2 :=
    if self.draw_mask ∧ hasMask o then it1.add Kind.segment (Prim.rect o.rect_params) else it1
  if o.text_params.display_text.isSome then it2.add Kind.text (Prim.text o.text_params) else it2

/-- The labels of a display group that carry text. -/
def labelsOf (d : NvDsDisplayMeta) : List NvOSD_TextParams :=
  d.text_params.filter (fun t => t.display_text.isSome)

/-- What one label appends. -/
def labelItems (it : Items) (t : NvOSD_TextParams) : Items :=
  if t.display_text.isSome then it.add Kind.text (Prim.text t) else it

/-- What one element of a display list of kind `k` appends. -/
def addPrim {α : Type} (k : Kind) (g : α → Prim) (it : Items) (x : α) : Items :=
  it.add k (g x)

/-- What one display group appends, loop by loop. -/
def dispItems (it : Items) (d : NvDsDisplayMeta) : Items :=
  d.circle_params.foldl (addPrim Kind.circle Prim.circle)
    (d.arrow_params.foldl (addPrim Kind.arrow Prim.arrow)
      (d.line_params.foldl (addPrim Kind.line Prim.line)
        (d.text_params.foldl labelItems
          (d.rect_params.foldl (addPrim Kind.rect Prim.rect) it))))

/-- What the two scans of a frame append to each accumulator. -/
def scanItems (env : Env) (self : GstDsOsdCoord) (buf : GstBuffer) : Items :=
  (displayList buf).foldl dispItems ((objList buf).foldl (objItems env self) (fun _ => []))

/-- The rects of all display groups, in list order. -/
def displayRects (ds : List NvDsDisplayMeta) : List NvOSD_RectParams :=
  ds.flatMap (fun d => d.rect_params)

/-- The text-carrying labels of all display groups, in list order. -/
def displayLabels (ds : List NvDsDisplayMeta) : List NvOSD_TextParams :=
  ds.flatMap labelsOf

/-- The objects that carry display text. -/
def textObjects (os : List NvDsObjectMeta) : List NvDsObjectMeta :=
  os.filter (fun o => o.text_params.display_text.isSome)

/-- Pointwise growth of the appended primitives. -/
def Items.le (a b : Items) : Prop := ∀ k, (a k).length ≤ (b k).length

/-- A predicate on the end state of a flow: one for normal continuation, one
for `return GST_FLOW_ERROR`. -/
def Flow.sat (P Q : Exec → Prop) : Flow → Prop
  | .next m => P m
  | .ret m => Q m

/-- The condition of the tail block of kind `k`. -/
def tailGate (m : Exec) : Kind → Bool
  | .rect => decide (m.cnt Kind.rect ≠ 0) && m.self.draw_bbox
  | .segment => decide (m.cnt Kind.segment ≠ 0) && m.self.draw_mask
  | .text => (m.self.show_clock || decide (m.cnt Kind.text ≠ 0)) && m.self.draw_text
  | .line => decide (m.cnt Kind.line ≠ 0)
  | .arrow => decide (m.cnt Kind.arrow ≠ 0)
  | .circle => decide (m.cnt Kind.circle ≠ 0)

/-- The fixed order of the tail blocks. -/
def tailOrder : List Kind :=
  [Kind.rect, Kind.segment, Kind.text, Kind.line, Kind.arrow, Kind.circle]

/-- The requests of the tail flush when every call succeeds: one per kind
whose condition holds, in the fixed order, each with the remaining count. -/
def tailCalls (m : Exec) : List DrawCall :=
  (tailOrder.filter (tailGate m)).map (fun k => request m k (m.cnt k))

/-- Issue a list of prepared requests in order, stopping at the first
failure. -/
def issueAll (env : Env) : Exec → List DrawCall → Flow
  | m, [] => Flow.next m
  | m, c :: cs =>
    if env.draw_ok (draws m.trace) c then
      issueAll env { m with trace := m.trace ++ [Event.draw c] } cs
    else Flow.ret { m with trace := m.trace ++ [Event.draw c] }

/-- Every draw call of the trace is immediately followed by the assignment of
0 to the counter of its kind. -/
def followed : List Event → Prop
  | [] => True
  | Event.draw c :: rest => (∃ p, rest = Event.count c.entry 0 :: p) ∧ followed rest
  | _ :: rest => followed rest

/-- The invariant between two statements of the scans, when no call has
failed: counters, buffered cells, issued calls and trace agree with the
primitives `it` appended so far; `self0` is the instance at entry. -/
structure Good (env : Env) (self0 : GstDsOsdCoord) (it : Items) (m : Exec) : Prop where
  cnt_eq : ∀ k, m.cnt k = (it k).length % MAX_OSD_ELEMS
  payload_eq : ∀ k,
    payload k m.trace ++ readFirst (m.self.bufs (paramsBuf k)) (m.cnt k) = it k
  nums_eq : ∀ k, (drawsOf k m.trace).map DrawCall.num
    = List.replicate ((it k).length / MAX_OSD_ELEMS) MAX_OSD_ELEMS
  untouched : ∀ k, it k = [] → ∀ e ∈ m.trace, e.touches k = false
  bounded : ∀ e ∈ m.trace, e.inBounds
  allok : okTrace env m.trace
  resets : followed m.trace
  modes : ∀ c ∈ draws m.trace, c.mode = self0.dsosdcoord_mode
  cfg : ∃ f, m.self = { self0 with bufs := f }

/-- What holds when a capacity-triggered call has failed during the scans. -/
structure Bad (env : Env) (self0 : GstDsOsdCoord) (it : Items) (m : Exec) : Prop where
  few : ∀ k, (drawsOf k m.trace).length * MAX_OSD_ELEMS ≤ (it k).length
  untouched : ∀ k, it k = [] → ∀ e ∈ m.trace, e.touches k = false
  bounded : ∀ e ∈ m.trace, e.inBounds
  failed : ∃ pre c, m.trace = pre ++ [Event.draw c] ∧ okTrace env pre
    ∧ env.draw_ok (draws pre) c = false ∧ followed pre
  modes : ∀ c ∈ draws m.trace, c.mode = self0.dsosdcoord_mode
  cfg : ∃ f, m.self = { self0 with bufs := f }

/-- The state `m1` is `m` after one primitive `v` was appended to the
accumulator of kind `k` (cell written, counter incremented) and before the
capacity check. -/
structure Pushed (m m1 : Exec) (k : Kind) (v : Prim) (evs : List Event) : Prop where
  cnt_eq : ∀ k2, m1.cnt k2 = if k2 = k then m.cnt k + 1 else m.cnt k2
  cell : m1.self.bufs (paramsBuf k) (m.cnt k) = v
  others : ∀ k2 j, j < m.cnt k2 →
    m1.self.bufs (paramsBuf k2) j = m.self.bufs (paramsBuf k2) j
  cfg : ∃ f, m1.self = { m.self with bufs := f }
  trace_eq : m1.trace = m.trace ++ evs
  nodraw : draws evs = []
  local_ : ∀ k2, k2 ≠ k → ∀ e ∈ evs, e.touches k2 = false
  bounded : m.cnt k < MAX_OSD_ELEMS → ∀ e ∈ evs, e.inBounds

/-- One tail block in uniform shape: under the block's condition, a draw call
of kind `k` with the count of kind `k`. -/
def gated (env : Env) (m : Exec) (k : Kind) : Flow :=
  if tailGate m k then dispatch env m k (m.cnt k) else Flow.next m

/-- The six stored counts equal the six running counters. -/
def Stored (m : Exec) : Prop :=
  m.self.num_rect = m.cnt Kind.rect ∧ m.self.num_segments = m.cnt Kind.segment ∧
  m.self.num_strings = m.cnt Kind.text ∧ m.self.num_lines = m.cnt Kind.line ∧
  m.self.num_arrows = m.cnt Kind.arrow ∧ m.self.num_circles = m.cnt Kind.circle

/-- The three ways a call of `gst_ds_osdcoord_transform_ip` that got past
`gst_buffer_map` and `cudaSetDevice` can end: a capacity-triggered call failed
during the scans; a tail call failed; every call succeeded. -/
inductive RunShape (env : Env) (self : GstDsOsdCoord) (buf : GstBuffer) (r : Result) : Prop
  | scanFail (m : Exec) (hs : scans env self buf = Flow.ret m)
      (hb : Bad env self (scanItems env self buf) m)
      (hret : r.ret = GstFlowReturn.GST_FLOW_ERROR) (hself : r.self = m.self)
      (htr : r.trace = m.trace)
  | tailFail (m : Exec) (pre : List DrawCall) (c : DrawCall) (rest : List DrawCall)
      (hs : scans env self buf = Flow.next m)
      (hg : Good env self (scanItems env self buf) m)
      (hcalls : tailCalls m = pre ++ c :: rest)
      (hret : r.ret = GstFlowReturn.GST_FLOW_ERROR) (hself : r.self = (storeCounts m).self)
      (htr : r.trace = (m.trace ++ pre.map Event.draw) ++ [Event.draw c])
      (hok : okTrace env (m.trace ++ pre.map Event.draw))
      (hfail : env.draw_ok (draws (m.trace ++ pre.map Event.draw)) c = false)
  | done (m : Exec) (hs : scans env self buf = Flow.next m)
      (hg : Good env self (scanItems env self buf) m)
      (hret : r.ret = GstFlowReturn.GST_FLOW_OK)
      (hself : r.self =
        { (storeCounts m).self with frame_num := ((storeCounts m).self.frame_num + 1) % 2 ^ 32 })
      (htr : r.trace = m.trace ++ (tailCalls m).map Event.draw)
      (hok : okTrace env r.trace)

/-! ## Well-formed attribute strings -/

/-- The value of a string of decimal digits. -/
def natValue (ds : List Char) : Nat :=
  ds.foldl (fun acc c => acc * 10 + digitVal c) 0

/-- The text of one channel value in plain decimal notation: the integer
digits and, when there is a decimal point, the digits after it. -/
structure ChannelText where
  ip : List Char
  fp : Option (List Char)
  deriving DecidableEq

/-- A channel text is well formed: at least one integer digit, digits only. -/
def ChannelText.wf (t : ChannelText) : Bool :=
  !t.ip.isEmpty && t.ip.all isdigit &&
    (match t.fp with
     | none => true
     | some f => f.all isdigit)

/-- The characters of a channel text. -/
def ChannelText.text (t : ChannelText) : List Char :=
  match t.fp with
  | none => t.ip
  | some f => t.ip ++ '.' :: f

/-- The number a channel text denotes. -/
def ChannelText.value (t : ChannelText) : ℚ :=
  match t.fp with
  | none => (natValue t.ip : ℚ)
  | some f => (natValue (t.ip ++ f) : ℚ) / (10 : ℚ) ^ f.length

/-- One quintuple `id,r,g,b,a` of an attribute string, field by field. -/
structure Quintuple where
  id : List Char
  r : ChannelText
  g : ChannelText
  b : ChannelText
  a : ChannelText
  deriving DecidableEq

/-- A quintuple is well formed: the id is a non-empty string of digits and the
four channels are well formed. -/
def Quintuple.wf (q : Quintuple) : Bool :=
  !q.id.isEmpty && q.id.all isdigit && q.r.wf && q.g.wf && q.b.wf && q.a.wf

/-- The characters of a quintuple: the five fields separated by commas. -/
def Quintuple.text (q : Quintuple) : List Char :=
  q.id ++ ',' :: (q.r.text ++ ',' :: (q.g.text ++ ',' :: (q.b.text ++ ',' :: q.a.text)))

/-- The class colour entry a quintuple denotes. -/
def Quintuple.entry (q : Quintuple) : NvOSD_Color_info :=
  { id := (natValue q.id : Int)
    color := { red := q.r.value, green := q.g.value, blue := q.b.value, alpha := q.a.value } }

/-- The attribute string made of the given quintuples separated by colons. -/
def attrString : List Quintuple → List Char
  | [] => []
  | [q] => q.text
  | q :: q2 :: qs => q.text ++ ':' :: attrString (q2 :: qs)

/-- The instance after one quintuple was stored at `idx`. -/
def storeEntry (self : GstDsOsdCoord) (idx : Nat) (q : Quintuple) : GstDsOsdCoord :=
  setColorInfo (setColorInfo (setColorInfo (setColorInfo (setColorInfo self idx
    (fun e => { e with id := (natValue q.id : Int) })) idx
    (fun e => { e with color := { e.color with red := q.r.value } })) idx
    (fun e => { e with color := { e.color with green := q.g.value } })) idx
    (fun e => { e with color := { e.color with blue := q.b.value } })) idx
    (fun e => { e with color := { e.color with alpha := q.a.value } })

/-- What the loop continues with after a quintuple followed by `tl`: NULL
when the string ends there, else the text after the separator. -/
def restAfter : List Char → Option (List Char)
  | [] => none
  | _ :: r => some r

/-- What follows the first quintuple of an attribute string: nothing, or the
separator and the string of the remaining quintuples. -/
def sepTail : List Quintuple → List Char
  | [] => []
  | q :: qs => ':' :: attrString (q :: qs)

/-! ## More vocabulary for attribute strings and colour tables -/

/-- What follows a quintuple inside an attribute string: for each further
quintuple a colon and its text, then `tl`. -/
def contWith : List Quintuple → List Char → List Char
  | [], tl => tl
  | q :: qs, tl => ':' :: (q.text ++ contWith qs tl)

/-- The instance after the quintuples `qs` were stored from index `idx` on. -/
def storeAll : GstDsOsdCoord → Nat → List Quintuple → GstDsOsdCoord
  | self, _, [] => self
  | self, idx, q :: qs => storeAll (storeEntry self idx q) (idx + 1) qs

/-- The smallest index of the colour table whose entry has the class id of the
object. -/
def IsFirstMatch (self : GstDsOsdCoord) (o : NvDsObjectMeta) (idx : Nat) : Prop :=
  idx < self.num_class_entries ∧ (self.color_info idx).id = o.class_id ∧
    ∀ j, j < idx → (self.color_info j).id ≠ o.class_id

/-- No entry of the colour table has the class id of the object. -/
def NoMatch (self : GstDsOsdCoord) (o : NvDsObjectMeta) : Prop :=
  ∀ j, j < self.num_class_entries → (self.color_info j).id ≠ o.class_id

/-- The four entries of the compiled-in default attribute string. -/
def defaultEntries : List NvOSD_Color_info :=
  [ { id := 0, color := { red := 0, green := 1, blue := 0, alpha := 3 / 10 } },
    { id := 1, color := { red := 0, green := 1, blue := 1, alpha := 3 / 10 } },
    { id := 2, color := { red := 0, green := 0, blue := 1, alpha := 3 / 10 } },
    { id := 3, color := { red := 1, green := 1, blue := 0, alpha := 3 / 10 } } ]

/-- The text `id,r,g,b,a` of one entry, without a separator. -/
def entryText (e : NvOSD_Color_info) : List Char :=
  fmt_d e.id ++ ',' :: (fmt_f e.color.red ++ ',' :: (fmt_f e.color.green ++ ',' ::
    (fmt_f e.color.blue ++ ',' :: fmt_f e.color.alpha)))

/-- The serialized form the specification describes: every entry once, in
table order, formatted as `id,r,g,b,a`, consecutive entries separated by one
colon, no separator after the last entry. -/
def serializeSpec : List NvOSD_Color_info → List Char
  | [] => []
  | [e] => entryText e
  | e :: e2 :: es => entryText e ++ ':' :: serializeSpec (e2 :: es)

/-- Whether a call asks the backend to configure for a frame geometry. -/
def LifeCall.isSetParams : LifeCall → Bool
  | .nvll_osd_set_params _ _ _ => true
  | _ => false

/-- Whether a call binds the device. -/
def LifeCall.isSetDevice : LifeCall → Bool
  | .cudaSetDevice _ => true
  | _ => false

/-- The text draw call of a frame without annotations: zero strings, issued
for the clock overlay. -/
def clockTextCall (self : GstDsOsdCoord) : DrawCall :=
  { entry := Kind.text, num := 0, params_list := [], mask_params_list := [],
    mode := self.dsosdcoord_mode }

/-- The instance `st` differs from `self` in the colour table at most: in
`color_info` and `num_class_entries`. -/
def SameButTable (self st : GstDsOsdCoord) : Prop :=
  ∃ ci n, st = { self with color_info := ci, num_class_entries := n }

/-! ## Concrete inputs -/

/-- An environment in which the buffer maps, the device binds and every draw
call succeeds (non-Tegra build). -/
def envOk : Env :=
  { PLATFORM_TEGRA := false
    gst_buffer_map := true
    cudaSetDevice := true
    draw_ok := fun _ _ => true }

/-- An environment in which `gst_buffer_map` fails. -/
def envNoMap : Env :=
  { PLATFORM_TEGRA := false
    gst_buffer_map := false
    cudaSetDevice := true
    draw_ok := fun _ _ => true }

/-- A rect without background colour. -/
def rectA : NvOSD_RectParams :=
  { geometry := 7
    has_bg_color := false
    bg_color := { red := 0, green := 0, blue := 0, alpha := 0 }
    color_id := 0 }

/-- An object annotation with a box, no mask and no display text. -/
def objBox : NvDsObjectMeta :=
  { class_id := 2
    rect_params := rectA
    mask_params := { data := none, size := 0 }
    text_params := { display_text := none, style := 0 } }

/-- An object annotation with a box and mask data, no display text. -/
def objMasked : NvDsObjectMeta :=
  { class_id := 2
    rect_params := rectA
    mask_params := { data := some 1, size := 16 }
    text_params := { display_text := none, style := 0 } }

/-- An object annotation with a box and display text. -/
def objLabelled : NvDsObjectMeta :=
  { class_id := 2
    rect_params := rectA
    mask_params := { data := none, size := 0 }
    text_params := { display_text := some "car", style := 0 } }

/-- A display group with one rect and nothing else. -/
def groupOneRect : NvDsDisplayMeta :=
  { rect_params := [rectA]
    text_params := []
    line_params := []
    arrow_params := []
    circle_params := [] }

/-- A buffer carrying one batch meta with the given lists. -/
def frameOf (os : List NvDsObjectMeta) (ds : List NvDsDisplayMeta) : GstBuffer :=
  { metas := [{ has_tag := true, is_batch_gst_meta := true,
                meta_data := { obj_meta_list := os, display_meta_list := ds } }] }

/-- The instance after one successful frame with one masked object processed
with `draw_mask` enabled, and `display-mask` then set to false. -/
def selfAfterMaskFrame : GstDsOsdCoord :=
  { (gst_ds_osdcoord_transform_ip envOk { gst_ds_osdcoord_init false with draw_mask := true }
      (frameOf [objMasked] [])).self with draw_mask := false }

/-- The default instance with `display-bbox` set to false. -/
def selfNoBbox : GstDsOsdCoord :=
  { gst_ds_osdcoord_init false with draw_bbox := false }

/-- The default instance with `display-text` set to false. -/
def selfNoText : GstDsOsdCoord :=
  { gst_ds_osdcoord_init false with draw_text := false }

/-- A channel text with one integer digit and one fraction digit. -/
def ch (i f : Char) : ChannelText := { ip := [i], fp := some [f] }

/-- The four quintuples of the compiled-in default attribute string. -/
def defaultQuintuples : List Quintuple :=
  [ { id := ['0'], r := ch '0' '0', g := ch '1' '0', b := ch '0' '0', a := ch '0' '3' },
    { id := ['1'], r := ch '0' '0', g := ch '1' '0', b := ch '1' '0', a := ch '0' '3' },
    { id := ['2'], r := ch '0' '0', g := ch '0' '0', b := ch '1' '0', a := ch '0' '3' },
    { id := ['3'], r := ch '1' '0', g := ch '1' '0', b := ch '0' '0', a := ch '0' '3' } ]

/-! ## More concrete inputs -/

/-- A quintuple with class id 0 and all channels 0.0. -/
def qZero : Quintuple :=
  { id := ['0'], r := ch '0' '0', g := ch '0' '0', b := ch '0' '0', a := ch '0' '0' }

/-- A quintuple with class id 99. -/
def qBad : Quintuple :=
  { id := ['9', '9'], r := ch '0' '0', g := ch '0' '0', b := ch '0' '0', a := ch '0' '0' }

/-- Twenty quintuples with id 0 followed by one with id 99. -/
def overlongQuintuples : List Quintuple := List.replicate 20 qZero ++ [qBad]

/-- The two quintuples of the string "0,0.0,1.0,0.0,0.3:2,0.0,0.0,1.0,0.3". -/
def twoQuintuples : List Quintuple :=
  [ { id := ['0'], r := ch '0' '0', g := ch '1' '0', b := ch '0' '0', a := ch '0' '3' },
    { id := ['2'], r := ch '0' '0', g := ch '0' '0', b := ch '1' '0', a := ch '0' '3' } ]

/-- The attribute string with two entries, for class ids 0 and 2. -/
def twoEntryString : List Char := "0,0.0,1.0,0.0,0.3:2,0.0,0.0,1.0,0.3".toList

/-- The entry for class id 0 of the two-entry string. -/
def entryGreen : NvOSD_Color_info :=
  { id := 0, color := { red := 0, green := 1, blue := 0, alpha := 3 / 10 } }

/-- The entry for class id 2 of the two-entry string. -/
def entryBlue : NvOSD_Color_info :=
  { id := 2, color := { red := 0, green := 0, blue := 1, alpha := 3 / 10 } }

/-- A fresh instance whose colour table holds the two entries of the two-entry
string. -/
def selfTwoEntries : GstDsOsdCoord :=
  { gst_ds_osdcoord_init false with
    color_info := fun i =>
      if i = 0 then entryGreen else if i = 1 then entryBlue
      else (gst_ds_osdcoord_init false).color_info i
    num_class_entries := 2 }

/-- A fresh instance whose colour table holds one entry, for class id 2. -/
def selfOneEntry : GstDsOsdCoord :=
  { gst_ds_osdcoord_init false with
    color_info := fun i =>
      if i = 0 then entryBlue else (gst_ds_osdcoord_init false).color_info i
    num_class_entries := 1 }

/-- An instance with a drawing context, negotiated for 1920x1080. -/
def selfNegotiated : GstDsOsdCoord :=
  { gst_ds_osdcoord_init false with
    dsosdcoord_context := some 1, width := 1920, height := 1080 }

/-- The negotiated instance after it processed one frame without annotations. -/
def selfAfterOneFrame : GstDsOsdCoord :=
  (gst_ds_osdcoord_transform_ip envOk selfNegotiated (frameOf [] [])).self

/-- Caps of 1920x1080. -/
def caps1080 : GstCaps := { width := some 1920, height := some 1080 }

/-- Caps of 1280x720. -/
def caps720 : GstCaps := { width := some 1280, height := some 720 }

/-- The device binds and the backend returns a conversion buffer. -/
def capsEnvOk : CapsEnv := { cudaSetDevice := true, nvll_osd_set_params := some 2 }

/-- A buffer with no attached meta, hence no batch metadata. -/
def noMetaBuffer : GstBuffer := { metas := [] }

/-- An environment in which the buffer maps and the device binds but every
backend draw call reports failure. -/
def envDrawFails : Env :=
  { PLATFORM_TEGRA := false
    gst_buffer_map := true
    cudaSetDevice := true
    draw_ok := fun _ _ => false }

/-- The default instance with the clock overlay enabled. -/
def selfClock : GstDsOsdCoord := { gst_ds_osdcoord_init false with show_clock := true }

/-- A start environment with a discrete device: the device binds, the context
is created and the device reports that it is not integrated. -/
def startEnvDiscrete : StartEnv :=
  { cudaSetDevice := true, nvll_osd_create_context := some 1, flag_integrated := 0 }

/-- A `PLATFORM_TEGRA` build in which every call succeeds. -/
def envTegra : Env :=
  { PLATFORM_TEGRA := true
    gst_buffer_map := true
    cudaSetDevice := true
    draw_ok := fun _ _ => true }

/-- The instance of a `PLATFORM_TEGRA` build (mode `MODE_HW`) with `hw_blend`
set and the table of the two-entry string. -/
def selfHwBlend : GstDsOsdCoord :=
  { gst_ds_osdcoord_init true with
    hw_blend := true
    color_info := selfTwoEntries.color_info
    num_class_entries := 2 }

/-- A rect that carries a background colour of its own. -/
def rectBg : NvOSD_RectParams :=
  { geometry := 9
    has_bg_color := true
    bg_color := { red := 1, green := 0, blue := 0, alpha := 1 }
    color_id := 0 }

/-- An object annotation of class id 5, which is in no table used here, whose
rect carries a background colour. -/
def objClass5 : NvDsObjectMeta :=
  { class_id := 5
    rect_params := rectBg
    mask_params := { data := none, size := 0 }
    text_params := { display_text := none, style := 0 } }

/-! ## Basic facts about traces and flows -/

theorem draws_append (a b : List Event) : draws (a ++ b) = draws a ++ draws b := by
  induction a with
  | nil => rfl
  | cons e t ih => cases e <;> simp [draws, ih]

theorem okTrace_nil (env : Env) : okTrace env [] := by
  intro pre c post h
  simp at h

theorem okTrace_snoc_draw {env : Env} {t : List Event} {c : DrawCall}
    (h : okTrace env t) (hc : env.draw_ok (draws t) c = true) :
    okTrace env (t ++ [Event.draw c]) := by
  intro pre c2 post hsplit
  rcases List.eq_nil_or_concat post with hp | ⟨post2, x, hp⟩
  · subst hp
    have := List.append_inj' hsplit (by simp)
    obtain ⟨h1, h2⟩ := this
    simp at h2
    subst h1; subst h2
    exact hc
  · subst hp
    have heq : t ++ [Event.draw c] = (pre ++ Event.draw c2 :: post2) ++ [x] := by
      simp [hsplit]
    have := (List.append_inj' heq (by simp)).1
    exact h pre c2 post2 this

theorem okTrace_append_nodraw {env : Env} {t evs : List Event}
    (h : okTrace env t) (hn : draws evs = []) : okTrace env (t ++ evs) := by
  induction evs using List.reverseRecOn with
  | nil => simpa using h
  | append_singleton es e ih =>
    rw [draws_append] at hn
    have hes : draws es = [] := (List.append_eq_nil.mp hn).1
    have he : draws [e] = [] := (List.append_eq_nil.mp hn).2
    have ih2 := ih hes
    intro pre c post hsplit
    rcases List.eq_nil_or_concat post with hp | ⟨post2, x, hp⟩
    · subst hp
      have h1 := List.append_inj' (show (t ++ es) ++ [e] = pre ++ [Event.draw c] by
        simpa using hsplit) (by simp)
      have h2 : e = Event.draw c := by simpa using h1.2
      subst h2
      simp [draws] at he
    · subst hp
      have heq : (t ++ es) ++ [e] = (pre ++ Event.draw c :: post2) ++ [x] := by
        simpa using hsplit
      exact ih2 pre c post2 (List.append_inj' heq (by simp)).1

theorem followed_append {t u : List Event} (ht : followed t) (hu : followed u) :
    followed (t ++ u) := by
  induction t with
  | nil => exact hu
  | cons e t ih =>
    cases e with
    | write b i => exact ih ht
    | count k v => exact ih ht
    | draw c =>
      obtain ⟨⟨p, hp⟩, hrest⟩ := ht
      refine ⟨⟨p ++ u, ?_⟩, ih hrest⟩
      rw [hp]; rfl

theorem followed_nodraw {evs : List Event} (h : draws evs = []) : followed evs := by
  induction evs with
  | nil => trivial
  | cons e t ih =>
    cases e with
    | write b i => exact ih h
    | count k v => exact ih h
    | draw c => simp [draws] at h

theorem followed_flush (c : DrawCall) :
    followed [Event.draw c, Event.count c.entry 0] :=
  ⟨⟨[], rfl⟩, trivial⟩

theorem Items.add_same (it : Items) (k : Kind) (v : Prim) : it.add k v k = it k ++ [v] := by
  simp [Items.add]

theorem Items.add_other (it : Items) {k k2 : Kind} (v : Prim) (h : k2 ≠ k) :
    it.add k v k2 = it k2 := by
  simp [Items.add, h]

theorem readFirst_succ (arr : Nat → Prim) (n : Nat) :
    readFirst arr (n + 1) = readFirst arr n ++ [arr n] := by
  simp [readFirst, List.range_succ]

theorem readFirst_congr {a b : Nat → Prim} {n : Nat} (h : ∀ j, j < n → a j = b j) :
    readFirst a n = readFirst b n := by
  unfold readFirst
  apply List.map_congr_left
  intro j hj
  exact h j (List.mem_range.mp hj)

theorem drawsOf_nodraw (k : Kind) {t evs : List Event} (h : draws evs = []) :
    drawsOf k (t ++ evs) = drawsOf k t := by
  simp [drawsOf, draws_append, h]

theorem payload_nodraw (k : Kind) {t evs : List Event} (h : draws evs = []) :
    payload k (t ++ evs) = payload k t := by
  simp [payload, drawsOf_nodraw k h]

theorem Good.cnt_lt {env : Env} {self0 : GstDsOsdCoord} {it : Items} {m : Exec}
    (hg : Good env self0 it m) (k : Kind) : m.cnt k < MAX_OSD_ELEMS := by
  rw [hg.cnt_eq k]
  exact Nat.mod_lt _ (by decide)

theorem flushIfFull_idle (env : Env) {m : Exec} {k : Kind} (h : m.cnt k < MAX_OSD_ELEMS) :
    flushIfFull env m k = Flow.next m := by
  have : m.cnt k ≠ MAX_OSD_ELEMS := by omega
  simp [flushIfFull, this]

theorem cfg_trans {a b c : GstDsOsdCoord} (h1 : ∃ f, b = { a with bufs := f })
    (h2 : ∃ f, c = { b with bufs := f }) : ∃ f, c = { a with bufs := f } := by
  obtain ⟨f, hf⟩ := h1
  obtain ⟨g, hg⟩ := h2
  exact ⟨g, by rw [hg, hf]⟩

theorem drawsOf_snoc_draw (k : Kind) (t : List Event) (c : DrawCall) :
    drawsOf k (t ++ [Event.draw c]) = drawsOf k t ++ (if c.entry = k then [c] else []) := by
  by_cases h : c.entry = k <;> simp [drawsOf, draws_append, draws, h]

theorem drawsOf_snoc_count (k : Kind) (t : List Event) (k2 : Kind) (v : Nat) :
    drawsOf k (t ++ [Event.count k2 v]) = drawsOf k t := by
  simp [drawsOf, draws_append, draws]

theorem flush_pushed {env : Env} {self0 : GstDsOsdCoord} {it : Items} {m m1 : Exec}
    {k : Kind} {v : Prim} {evs : List Event}
    (hg : Good env self0 it m) (hp : Pushed m m1 k v evs) :
    (flushIfFull env m1 k).sat (Good env self0 (it.add k v)) (Bad env self0 (it.add k v)) := by
  have hck : m.cnt k < MAX_OSD_ELEMS := hg.cnt_lt k
  have h1 : m1.cnt k = m.cnt k + 1 := by simpa using hp.cnt_eq k
  have hother : ∀ k2, k2 ≠ k → m1.cnt k2 = m.cnt k2 := by
    intro k2 hk; simpa [hk] using hp.cnt_eq k2
  have hread : ∀ k2, readFirst (m1.self.bufs (paramsBuf k2)) (m.cnt k2)
      = readFirst (m.self.bufs (paramsBuf k2)) (m.cnt k2) :=
    fun k2 => readFirst_congr (fun j hj => hp.others k2 j hj)
  have hlen : (it k).length % MAX_OSD_ELEMS = m.cnt k := (hg.cnt_eq k).symm
  have hcfg : ∃ f, m1.self = { self0 with bufs := f } := cfg_trans hg.cfg hp.cfg
  have hbnd1 : ∀ e ∈ m1.trace, e.inBounds := by
    intro e he
    rw [hp.trace_eq, List.mem_append] at he
    rcases he with he | he
    · exact hg.bounded e he
    · exact hp.bounded hck e he
  have hunt1 : ∀ k2, it.add k v k2 = [] → ∀ e ∈ m1.trace, e.touches k2 = false := by
    intro k2 hnil e he
    have hk : k2 ≠ k := by
      intro h; subst h; simp [Items.add_same] at hnil
    rw [Items.add_other it v hk] at hnil
    rw [hp.trace_eq, List.mem_append] at he
    rcases he with he | he
    · exact hg.untouched k2 hnil e he
    · exact hp.local_ k2 hk e he
  have hpay1 : payload k m1.trace ++ readFirst (m1.self.bufs (paramsBuf k)) (m1.cnt k)
      = it k ++ [v] := by
    rw [h1, readFirst_succ, hp.cell, hp.trace_eq, payload_nodraw k hp.nodraw, hread k,
      ← List.append_assoc, hg.payload_eq k]
  have hpayo : ∀ k2, k2 ≠ k →
      payload k2 m1.trace ++ readFirst (m1.self.bufs (paramsBuf k2)) (m1.cnt k2) = it k2 := by
    intro k2 hk
    rw [hother k2 hk, hp.trace_eq, payload_nodraw k2 hp.nodraw, hread k2, hg.payload_eq k2]
  have hok1 : okTrace env m1.trace := by
    rw [hp.trace_eq]; exact okTrace_append_nodraw hg.allok hp.nodraw
  have hmode1 : ∀ c ∈ draws m1.trace, c.mode = self0.dsosdcoord_mode := by
    intro c hc
    rw [hp.trace_eq, draws_append, hp.nodraw, List.append_nil] at hc
    exact hg.modes c hc
  have hreq : (request m1 k (m1.cnt k)).mode = self0.dsosdcoord_mode := by
    obtain ⟨f, hf⟩ := hcfg
    simp only [request, hf]
  have hmode2 : ∀ c ∈ draws (m1.trace ++ [Event.draw (request m1 k (m1.cnt k))]),
      c.mode = self0.dsosdcoord_mode := by
    intro c hc
    rw [draws_append] at hc
    rcases List.mem_append.mp hc with hc | hc
    · exact hmode1 c hc
    · simp only [draws, List.mem_singleton] at hc
      rw [hc]; exact hreq
  have hfol1 : followed m1.trace := by
    rw [hp.trace_eq]; exact followed_append hg.resets (followed_nodraw hp.nodraw)
  have hnum1 : ∀ k2, (drawsOf k2 m1.trace).map DrawCall.num
      = List.replicate ((it k2).length / MAX_OSD_ELEMS) MAX_OSD_ELEMS := by
    intro k2
    rw [hp.trace_eq, drawsOf_nodraw k2 hp.nodraw, hg.nums_eq k2]
  unfold flushIfFull
  by_cases hfull : m1.cnt k = MAX_OSD_ELEMS
  · rw [if_pos hfull]
    have hdiv : ((it k).length + 1) / MAX_OSD_ELEMS = (it k).length / MAX_OSD_ELEMS + 1 := by
      simp only [MAX_OSD_ELEMS] at *; omega
    have hmod : ((it k).length + 1) % MAX_OSD_ELEMS = 0 := by
      simp only [MAX_OSD_ELEMS] at *; omega
    unfold dispatch
    simp only
    by_cases hok : env.draw_ok (draws m1.trace) (request m1 k (m1.cnt k)) = true
    · rw [if_pos hok]
      simp only [Flow.bind, Flow.sat, Exec.setCnt]
      refine ⟨?_, ?_, ?_, ?_, ?_, ?_, ?_, ?_, hcfg⟩
      · intro k2
        by_cases hk : k2 = k
        · subst hk; simp [Items.add_same, hmod]
        · simp [hk, Items.add_other it v hk, hother k2 hk, hg.cnt_eq k2]
      · intro k2
        by_cases hk : k2 = k
        · subst hk
          simp only [if_true, Items.add_same]
          rw [payload_nodraw k2 (by simp [draws]), payload, drawsOf_snoc_draw]
          simp only [request, if_true, List.map_append, List.map_cons, List.map_nil,
            List.flatten_append]
          have : readFirst (m1.self.bufs (paramsBuf k2)) 0 = [] := by simp [readFirst]
          rw [this]
          simpa [payload] using hpay1
        · simp only [if_neg hk, Items.add_other it v hk]
          rw [payload_nodraw k2 (by simp [draws]), payload, drawsOf_snoc_draw]
          have hne : ¬ (request m1 k (m1.cnt k)).entry = k2 := by
            simp only [request]; exact fun h => hk h.symm
          rw [if_neg hne, List.append_nil]
          simpa [payload] using hpayo k2 hk
      · intro k2
        rw [drawsOf_snoc_count, drawsOf_snoc_draw]
        by_cases hk : k2 = k
        · subst hk
          simp only [request, if_true, List.map_append, List.map_cons, List.map_nil,
            Items.add_same, List.length_append, List.length_singleton]
          rw [hnum1 k2, hdiv, List.replicate_succ', hfull]
        · have hne : ¬ (request m1 k (m1.cnt k)).entry = k2 := by
            simp only [request]; exact fun h => hk h.symm
          rw [if_neg hne, List.append_nil, Items.add_other it v hk, hnum1 k2]
      · intro k2 hnil e he
        have hk : k2 ≠ k := by
          intro h; subst h; simp [Items.add_same] at hnil
        simp only [List.mem_append, List.mem_singleton] at he
        rcases he with (he | he) | he
        · exact hunt1 k2 hnil e he
        · subst he
          simp only [Event.touches, request]
          simpa using fun h => hk h.symm
        · subst he
          simp only [Event.touches]
          simpa using fun h => hk h.symm
      · intro e he
        simp only [List.mem_append, List.mem_singleton] at he
        rcases he with (he | he) | he
        · exact hbnd1 e he
        · subst he; trivial
        · subst he; simp [Event.inBounds]
      · exact okTrace_append_nodraw (okTrace_snoc_draw hok1 hok) (by simp [draws])
      · rw [List.append_assoc]
        exact followed_append hfol1 (followed_flush (request m1 k (m1.cnt k)))
      · intro c hc
        rw [draws_append] at hc
        simp only [draws, List.append_nil] at hc
        exact hmode2 c hc
    · rw [if_neg hok]
      simp only [Flow.bind, Flow.sat]
      refine ⟨?_, ?_, ?_, ?_, hmode2, hcfg⟩
      · intro k2
        rw [drawsOf_snoc_draw]
        have hl := congrArg List.length (hnum1 k2)
        simp only [List.length_map, List.length_replicate] at hl
        by_cases hk : k2 = k
        · subst hk
          simp only [request, if_true, List.length_append, List.length_singleton,
            Items.add_same]
          rw [hl]
          simp only [MAX_OSD_ELEMS] at *; omega
        · have hne : ¬ (request m1 k (m1.cnt k)).entry = k2 := by
            simp only [request]; exact fun h => hk h.symm
          rw [if_neg hne, List.append_nil, Items.add_other it v hk, hl]
          exact Nat.div_mul_le_self _ _
      · intro k2 hnil e he
        have hk : k2 ≠ k := by
          intro h; subst h; simp [Items.add_same] at hnil
        simp only [List.mem_append, List.mem_singleton] at he
        rcases he with he | he
        · exact hunt1 k2 hnil e he
        · subst he
          simp only [Event.touches, request]
          simpa using fun h => hk h.symm
      · intro e he
        simp only [List.mem_append, List.mem_singleton] at he
        rcases he with he | he
        · exact hbnd1 e he
        · subst he; trivial
      · exact ⟨m1.trace, request m1 k (m1.cnt k), rfl, hok1, by simpa using hok, hfol1⟩
  · rw [if_neg hfull]
    simp only [Flow.sat]
    refine ⟨?_, ?_, ?_, hunt1, hbnd1, hok1, hfol1, hmode1, hcfg⟩
    · intro k2
      by_cases hk : k2 = k
      · subst hk
        rw [h1, Items.add_same]
        simp only [List.length_append, List.length_singleton]
        simp only [MAX_OSD_ELEMS] at *; omega
      · rw [hother k2 hk, Items.add_other it v hk, hg.cnt_eq k2]
    · intro k2
      by_cases hk : k2 = k
      · subst hk; rw [Items.add_same]; exact hpay1
      · rw [Items.add_other it v hk]; exact hpayo k2 hk
    · intro k2
      rw [hnum1 k2]
      by_cases hk : k2 = k
      · subst hk
        rw [Items.add_same]
        simp only [List.length_append, List.length_singleton]
        have : ((it k2).length + 1) / MAX_OSD_ELEMS = (it k2).length / MAX_OSD_ELEMS := by
          simp only [MAX_OSD_ELEMS] at *; omega
        rw [this]
      · rw [Items.add_other it v hk]

/-! ## The scans keep the invariant -/

theorem paramsBuf_inj {k k2 : Kind} (h : paramsBuf k2 = paramsBuf k) : k2 = k := by
  cases k <;> cases k2 <;> simp [paramsBuf] at h <;> rfl

theorem paramsBuf_ne_mask (k : Kind) : paramsBuf k ≠ Buf.mask_params := by
  cases k <;> simp [paramsBuf]

theorem pushed_std (m : Exec) (k : Kind) (v : Prim) :
    Pushed m ((m.write (paramsBuf k) (m.cnt k) v).setCnt k (m.cnt k + 1)) k v
      [Event.write (paramsBuf k) (m.cnt k), Event.count k (m.cnt k + 1)] where
  cnt_eq := by intro k2; simp [Exec.setCnt, Exec.write]
  cell := by simp [Exec.setCnt, Exec.write]
  others := by
    intro k2 j hj
    simp only [Exec.setCnt, Exec.write]
    have : ¬ (paramsBuf k2 = paramsBuf k ∧ j = m.cnt k) := by
      rintro ⟨h1, h2⟩
      have := paramsBuf_inj h1
      subst this
      omega
    rw [if_neg this]
  cfg := ⟨_, rfl⟩
  trace_eq := by simp [Exec.setCnt, Exec.write]
  nodraw := by simp [draws]
  local_ := by
    intro k2 hk e he
    simp only [List.mem_cons, List.mem_singleton, List.not_mem_nil, or_false] at he
    rcases he with he | he
    · subst he
      have h1 : paramsBuf k ≠ paramsBuf k2 := fun h => hk (paramsBuf_inj h.symm)
      simp [Event.touches, h1, paramsBuf_ne_mask]
    · subst he
      simp only [Event.touches]
      simpa using fun h => hk h.symm
  bounded := by
    intro hlt e he
    simp only [List.mem_cons, List.mem_singleton, List.not_mem_nil, or_false] at he
    rcases he with he | he
    · subst he; exact hlt
    · subst he; exact hlt

theorem pushed_twice (m : Exec) (k : Kind) (v0 v : Prim) :
    Pushed m
      (((m.write (paramsBuf k) (m.cnt k) v0).write (paramsBuf k) (m.cnt k) v).setCnt k
        (m.cnt k + 1)) k v
      [Event.write (paramsBuf k) (m.cnt k), Event.write (paramsBuf k) (m.cnt k),
        Event.count k (m.cnt k + 1)] where
  cnt_eq := by intro k2; simp [Exec.setCnt, Exec.write]
  cell := by simp [Exec.setCnt, Exec.write]
  others := by
    intro k2 j hj
    simp only [Exec.setCnt, Exec.write]
    have : ¬ (paramsBuf k2 = paramsBuf k ∧ j = m.cnt k) := by
      rintro ⟨h1, h2⟩
      have := paramsBuf_inj h1
      subst this
      omega
    rw [if_neg this, if_neg this]
  cfg := ⟨_, rfl⟩
  trace_eq := by simp [Exec.setCnt, Exec.write]
  nodraw := by simp [draws]
  local_ := by
    intro k2 hk e he
    have h1 : paramsBuf k ≠ paramsBuf k2 := fun h => hk (paramsBuf_inj h.symm)
    simp only [List.mem_cons, List.mem_singleton, List.not_mem_nil, or_false] at he
    rcases he with he | he | he
    · subst he
      simp [Event.touches, h1, paramsBuf_ne_mask]
    · subst he
      simp [Event.touches, h1, paramsBuf_ne_mask]
    · subst he
      simp only [Event.touches]
      simpa using fun h => hk h.symm
  bounded := by
    intro hlt e he
    simp only [List.mem_cons, List.mem_singleton, List.not_mem_nil, or_false] at he
    rcases he with he | he | he
    · subst he; exact hlt
    · subst he; exact hlt
    · subst he; exact hlt

theorem pushed_mask (m : Exec) (r v : Prim) :
    Pushed m
      (((m.write Buf.mask_rect_params (m.cnt Kind.segment) r).write Buf.mask_params
        (m.cnt Kind.segment) v).setCnt Kind.segment (m.cnt Kind.segment + 1))
      Kind.segment r
      [Event.write Buf.mask_rect_params (m.cnt Kind.segment),
        Event.write Buf.mask_params (m.cnt Kind.segment),
        Event.count Kind.segment (m.cnt Kind.segment + 1)] where
  cnt_eq := by intro k2; simp [Exec.setCnt, Exec.write]
  cell := by simp [Exec.setCnt, Exec.write, paramsBuf]
  others := by
    intro k2 j hj
    simp only [Exec.setCnt, Exec.write]
    have h1 : ¬ (paramsBuf k2 = Buf.mask_params ∧ j = m.cnt Kind.segment) :=
      fun h => paramsBuf_ne_mask k2 h.1
    have h2 : ¬ (paramsBuf k2 = Buf.mask_rect_params ∧ j = m.cnt Kind.segment) := by
      rintro ⟨h1, h2⟩
      have : k2 = Kind.segment := @paramsBuf_inj Kind.segment k2 h1
      subst this
      omega
    rw [if_neg h1, if_neg h2]
  cfg := ⟨_, rfl⟩
  trace_eq := by simp [Exec.setCnt, Exec.write]
  nodraw := by simp [draws]
  local_ := by
    intro k2 hk e he
    simp only [List.mem_cons, List.mem_singleton, List.not_mem_nil, or_false] at he
    rcases he with he | he | he
    · subst he
      cases k2 <;> simp [Event.touches, paramsBuf] at hk ⊢
    · subst he
      cases k2 <;> simp [Event.touches, paramsBuf] at hk ⊢
    · subst he
      simp only [Event.touches]
      simpa using fun h => hk h.symm
  bounded := by
    intro hlt e he
    simp only [List.mem_cons, List.mem_singleton, List.not_mem_nil, or_false] at he
    rcases he with he | he | he
    · subst he; exact hlt
    · subst he; exact hlt
    · subst he; exact hlt

theorem Items.le_refl (a : Items) : Items.le a a := fun _ => Nat.le_refl _

theorem Items.le_trans {a b c : Items} (h1 : Items.le a b) (h2 : Items.le b c) :
    Items.le a c := fun k => Nat.le_trans (h1 k) (h2 k)

theorem Items.le_add (a : Items) (k : Kind) (v : Prim) : Items.le a (a.add k v) := by
  intro k2
  by_cases h : k2 = k
  · subst h; simp [Items.add_same]
  · simp [Items.add_other a v h]

theorem Bad.mono {env : Env} {self0 : GstDsOsdCoord} {a b : Items} {m : Exec}
    (h : Bad env self0 a m) (hle : Items.le a b) : Bad env self0 b m where
  few := fun k => Nat.le_trans (h.few k) (hle k)
  untouched := by
    intro k hnil e he
    have : (a k).length ≤ 0 := by simpa [hnil] using hle k
    exact h.untouched k (List.length_eq_zero.mp (Nat.le_zero.mp this)) e he
  bounded := h.bounded
  failed := h.failed
  modes := h.modes
  cfg := h.cfg

theorem sat_bind {P Q P2 Q2 : Exec → Prop} {fl : Flow} {f : Exec → Flow}
    (h : fl.sat P Q) (hf : ∀ m, P m → (f m).sat P2 Q2) (hq : ∀ m, Q m → Q2 m) :
    (fl.bind f).sat P2 Q2 := by
  cases fl with
  | next m => exact hf m h
  | ret m => exact hq m h

theorem sat_mono {P Q P2 Q2 : Exec → Prop} {fl : Flow}
    (h : fl.sat P Q) (hp : ∀ m, P m → P2 m) (hq : ∀ m, Q m → Q2 m) : fl.sat P2 Q2 := by
  cases fl with
  | next m => exact hp m h
  | ret m => exact hq m h

theorem pushFlush_sat {env : Env} {self0 : GstDsOsdCoord} {it : Items} {m : Exec}
    (k : Kind) (v : Prim) (hg : Good env self0 it m) :
    (pushFlush env k m v).sat (Good env self0 (it.add k v)) (Bad env self0 (it.add k v)) :=
  flush_pushed hg (pushed_std m k v)

theorem hwBlendRect_none {s : GstDsOsdCoord} {o : NvDsObjectMeta}
    (h : (findColor s.color_info o.class_id 0 s.num_class_entries).isSome = false) :
    hwBlendRect s o = o.rect_params := by
  unfold hwBlendRect
  cases hf : findColor s.color_info o.class_id 0 s.num_class_entries with
  | none => rfl
  | some i => rw [hf] at h; simp at h

theorem objRect_sat {env : Env} {self0 : GstDsOsdCoord} {it : Items} {m : Exec}
    (o : NvDsObjectMeta) (hg : Good env self0 it m) :
    (objRect env m o).sat
      (Good env self0
        (if self0.draw_bbox then it.add Kind.rect (Prim.rect (objRectValue env self0 o))
          else it))
      (Bad env self0
        (if self0.draw_bbox then it.add Kind.rect (Prim.rect (objRectValue env self0 o))
          else it)) := by
  obtain ⟨f, hf⟩ := hg.cfg
  have hb : m.self.draw_bbox = self0.draw_bbox := by rw [hf]
  unfold objRect
  by_cases hd : self0.draw_bbox = true
  · simp only [hb, hd, if_true]
    have ha : hwBlendActive env (m.write Buf.rect_params (m.cnt Kind.rect)
        (Prim.rect o.rect_params)).self = hwBlendActive env self0 := by
      simp only [Exec.write, hf]; rfl
    rw [ha]
    by_cases hact : hwBlendActive env self0 = true
    · simp only [hact, if_true, objRectValue]
      unfold hwBlendResolve
      have hfc : findColor (m.write Buf.rect_params (m.cnt Kind.rect)
            (Prim.rect o.rect_params)).self.color_info o.class_id 0
            (m.write Buf.rect_params (m.cnt Kind.rect)
              (Prim.rect o.rect_params)).self.num_class_entries
          = findColor self0.color_info o.class_id 0 self0.num_class_entries := by
        simp only [Exec.write, hf]
      have hrect : hwBlendRect (m.write Buf.rect_params (m.cnt Kind.rect)
          (Prim.rect o.rect_params)).self o = hwBlendRect self0 o := by
        simp only [Exec.write, hf]; rfl
      rw [hfc, hrect]
      by_cases hsome : (findColor self0.color_info o.class_id 0
          self0.num_class_entries).isSome = true
      · simp only [hsome, if_true]
        exact flush_pushed hg (pushed_twice m Kind.rect _ _)
      · simp only [hsome, Bool.false_eq_true, if_false]
        rw [hwBlendRect_none (by simpa using hsome)]
        exact flush_pushed hg (pushed_std m Kind.rect _)
    · simp only [hact, Bool.false_eq_true, if_false, objRectValue]
      exact flush_pushed hg (pushed_std m Kind.rect _)
  · simp only [hb, hd, Bool.false_eq_true, if_false]
    rw [flushIfFull_idle env (hg.cnt_lt Kind.rect)]
    exact hg

theorem objMask_sat {env : Env} {self0 : GstDsOsdCoord} {it : Items} {m : Exec}
    (o : NvDsObjectMeta) (hg : Good env self0 it m) :
    (objMask env m o).sat
      (Good env self0
        (if self0.draw_mask ∧ hasMask o then it.add Kind.segment (Prim.rect o.rect_params)
          else it))
      (Bad env self0
        (if self0.draw_mask ∧ hasMask o then it.add Kind.segment (Prim.rect o.rect_params)
          else it)) := by
  obtain ⟨f, hf⟩ := hg.cfg
  have hb : m.self.draw_mask = self0.draw_mask := by rw [hf]
  unfold objMask
  by_cases hc : self0.draw_mask = true ∧ hasMask o = true
  · have hc2 : m.self.draw_mask = true ∧ o.mask_params.data.isSome = true
        ∧ 0 < o.mask_params.size := by
      rw [hb]
      simpa [hasMask, and_assoc] using hc
    rw [if_pos hc2, if_pos hc]
    exact flush_pushed hg (pushed_mask m _ _)
  · have hc2 : ¬ (m.self.draw_mask = true ∧ o.mask_params.data.isSome = true
        ∧ 0 < o.mask_params.size) := by
      rw [hb]
      simpa [hasMask, and_assoc] using hc
    rw [if_neg hc2, if_neg hc]
    exact hg

theorem objText_sat {env : Env} {self0 : GstDsOsdCoord} {it : Items} {m : Exec}
    (o : NvDsObjectMeta) (hg : Good env self0 it m) :
    (objText env m o).sat
      (Good env self0
        (if o.text_params.display_text.isSome then it.add Kind.text (Prim.text o.text_params)
          else it))
      (Bad env self0
        (if o.text_params.display_text.isSome then it.add Kind.text (Prim.text o.text_params)
          else it)) := by
  unfold objText
  by_cases hd : o.text_params.display_text.isSome = true
  · simp only [hd, if_true]
    exact flush_pushed hg (pushed_std m Kind.text _)
  · simp only [hd, Bool.false_eq_true, if_false]
    rw [flushIfFull_idle env (hg.cnt_lt Kind.text)]
    exact hg

theorem le_ite_add (c : Prop) [Decidable c] (a : Items) (k : Kind) (v : Prim) :
    Items.le a (if c then a.add k v else a) := by
  by_cases h : c
  · rw [if_pos h]; exact Items.le_add a k v
  · rw [if_neg h]; exact Items.le_refl a

theorem objectStep_sat {env : Env} {self0 : GstDsOsdCoord} {it : Items} {m : Exec}
    (o : NvDsObjectMeta) (hg : Good env self0 it m) :
    (objectStep env m o).sat (Good env self0 (objItems env self0 it o))
      (Bad env self0 (objItems env self0 it o)) := by
  unfold objectStep objItems
  refine sat_bind (objRect_sat o hg) ?_ ?_
  · intro m1 h1
    refine sat_bind (objMask_sat o h1) ?_ ?_
    · intro m2 h2
      exact objText_sat o h2
    · intro m2 h2
      exact h2.mono (le_ite_add _ _ _ _)
  · intro m1 h1
    exact h1.mono (Items.le_trans (le_ite_add _ _ _ _) (le_ite_add _ _ _ _))

theorem objItems_le (env : Env) (self0 : GstDsOsdCoord) (it : Items) (o : NvDsObjectMeta) :
    Items.le it (objItems env self0 it o) :=
  Items.le_trans (le_ite_add _ _ _ _)
    (Items.le_trans (le_ite_add _ _ _ _) (le_ite_add _ _ _ _))

theorem foldl_le {α : Type} (step : Items → α → Items)
    (hmono : ∀ it x, Items.le it (step it x)) (xs : List α) (it : Items) :
    Items.le it (xs.foldl step it) := by
  induction xs generalizing it with
  | nil => exact Items.le_refl it
  | cons x xs ih => exact Items.le_trans (hmono it x) (ih (step it x))

theorem forEach_sat {α : Type} {env : Env} {self0 : GstDsOsdCoord}
    (f : Exec → α → Flow) (step : Items → α → Items)
    (hstep : ∀ it m x, Good env self0 it m →
      (f m x).sat (Good env self0 (step it x)) (Bad env self0 (step it x)))
    (hmono : ∀ it x, Items.le it (step it x)) (xs : List α) (it : Items) (m : Exec)
    (hg : Good env self0 it m) :
    (forEach f m xs).sat (Good env self0 (xs.foldl step it))
      (Bad env self0 (xs.foldl step it)) := by
  induction xs generalizing it m with
  | nil => exact hg
  | cons x xs ih =>
    simp only [forEach, List.foldl_cons]
    refine sat_bind (hstep it m x hg) ?_ ?_
    · intro m1 h1
      exact ih (step it x) m1 h1
    · intro m1 h1
      exact h1.mono (foldl_le step hmono xs (step it x))

theorem labelStep_sat {env : Env} {self0 : GstDsOsdCoord} {it : Items} {m : Exec}
    (t : NvOSD_TextParams) (hg : Good env self0 it m) :
    (labelStep env m t).sat (Good env self0 (labelItems it t))
      (Bad env self0 (labelItems it t)) := by
  unfold labelStep labelItems
  by_cases hd : t.display_text.isSome = true
  · simp only [hd, if_true]
    exact pushFlush_sat _ _ hg
  · simp only [hd, Bool.false_eq_true, if_false]
    exact hg

theorem addPrim_le {α : Type} (k : Kind) (g : α → Prim) (it : Items) (x : α) :
    Items.le it (addPrim k g it x) := Items.le_add it k (g x)

theorem labelItems_le (it : Items) (t : NvOSD_TextParams) : Items.le it (labelItems it t) :=
  le_ite_add _ _ _ _

theorem addPrim_sat {α : Type} {env : Env} {self0 : GstDsOsdCoord} (k : Kind) (g : α → Prim)
    (it : Items) (m : Exec) (x : α) (hg : Good env self0 it m) :
    (pushFlush env k m (g x)).sat (Good env self0 (addPrim k g it x))
      (Bad env self0 (addPrim k g it x)) :=
  pushFlush_sat k (g x) hg

theorem circles_le (it : Items) (d : NvDsDisplayMeta) :
    Items.le it (d.circle_params.foldl (addPrim Kind.circle Prim.circle) it) :=
  foldl_le (addPrim Kind.circle Prim.circle) (addPrim_le _ _) _ _

theorem arrows_le (it : Items) (d : NvDsDisplayMeta) :
    Items.le it (d.circle_params.foldl (addPrim Kind.circle Prim.circle)
      (d.arrow_params.foldl (addPrim Kind.arrow Prim.arrow) it)) :=
  Items.le_trans (foldl_le (addPrim Kind.arrow Prim.arrow) (addPrim_le _ _) _ _)
    (circles_le _ d)

theorem lines_le (it : Items) (d : NvDsDisplayMeta) :
    Items.le it (d.circle_params.foldl (addPrim Kind.circle Prim.circle)
      (d.arrow_params.foldl (addPrim Kind.arrow Prim.arrow)
        (d.line_params.foldl (addPrim Kind.line Prim.line) it))) :=
  Items.le_trans (foldl_le (addPrim Kind.line Prim.line) (addPrim_le _ _) _ _)
    (arrows_le _ d)

theorem labels_le (it : Items) (d : NvDsDisplayMeta) :
    Items.le it (d.circle_params.foldl (addPrim Kind.circle Prim.circle)
      (d.arrow_params.foldl (addPrim Kind.arrow Prim.arrow)
        (d.line_params.foldl (addPrim Kind.line Prim.line)
          (d.text_params.foldl labelItems it)))) :=
  Items.le_trans (foldl_le labelItems labelItems_le _ _) (lines_le _ d)

theorem dispItems_le (it : Items) (d : NvDsDisplayMeta) : Items.le it (dispItems it d) :=
  Items.le_trans (foldl_le (addPrim Kind.rect Prim.rect) (addPrim_le _ _) _ _)
    (labels_le _ d)

theorem displayStep_sat {env : Env} {self0 : GstDsOsdCoord} {it : Items} {m : Exec}
    (d : NvDsDisplayMeta) (hg : Good env self0 it m) :
    (displayStep env m d).sat (Good env self0 (dispItems it d))
      (Bad env self0 (dispItems it d)) := by
  unfold displayStep dispItems
  refine sat_bind (forEach_sat _ (addPrim Kind.rect Prim.rect)
    (addPrim_sat Kind.rect Prim.rect) (addPrim_le _ _) _ _ _ hg) ?_ ?_
  · intro m1 h1
    refine sat_bind (forEach_sat _ labelItems
      (fun it m x h => labelStep_sat x h) labelItems_le _ _ _ h1) ?_ ?_
    · intro m2 h2
      refine sat_bind (forEach_sat _ (addPrim Kind.line Prim.line)
        (addPrim_sat Kind.line Prim.line) (addPrim_le _ _) _ _ _ h2) ?_ ?_
      · intro m3 h3
        refine sat_bind (forEach_sat _ (addPrim Kind.arrow Prim.arrow)
          (addPrim_sat Kind.arrow Prim.arrow) (addPrim_le _ _) _ _ _ h3) ?_ ?_
        · intro m4 h4
          exact forEach_sat _ (addPrim Kind.circle Prim.circle)
            (addPrim_sat Kind.circle Prim.circle) (addPrim_le _ _) _ _ _ h4
        · intro m4 h4
          exact h4.mono (circles_le _ d)
      · intro m3 h3
        exact h3.mono (arrows_le _ d)
    · intro m2 h2
      exact h2.mono (lines_le _ d)
  · intro m1 h1
    exact h1.mono (labels_le _ d)

theorem good_start (env : Env) (self : GstDsOsdCoord) :
    Good env self (fun _ => []) (startExec self) where
  cnt_eq := by intro k; simp [startExec]
  payload_eq := by intro k; simp [startExec, payload, drawsOf, draws, readFirst]
  nums_eq := by intro k; simp [startExec, drawsOf, draws]
  untouched := by intro k _ e he; simp [startExec] at he
  bounded := by intro e he; simp [startExec] at he
  allok := okTrace_nil env
  resets := trivial
  modes := by intro c hc; simp [startExec, draws] at hc
  cfg := ⟨self.bufs, rfl⟩

theorem scans_sat (env : Env) (self : GstDsOsdCoord) (buf : GstBuffer) :
    (scans env self buf).sat (Good env self (scanItems env self buf))
      (Bad env self (scanItems env self buf)) := by
  unfold scans scanItems
  refine sat_bind (forEach_sat _ (objItems env self)
    (fun it m x h => objectStep_sat x h) (objItems_le env self) _ _ _ (good_start env self))
    ?_ ?_
  · intro m h
    exact forEach_sat _ dispItems (fun it m x h => displayStep_sat x h)
      dispItems_le _ _ _ h
  · intro m h
    exact h.mono (foldl_le dispItems dispItems_le _ _)

/-! ## What the scans append, kind by kind -/

theorem foldl_addPrim_apply {α : Type} (k : Kind) (g : α → Prim) (xs : List α) (it : Items)
    (k2 : Kind) :
    (xs.foldl (addPrim k g) it) k2 = if k2 = k then it k2 ++ xs.map g else it k2 := by
  induction xs generalizing it with
  | nil => by_cases h : k2 = k <;> simp [h]
  | cons x xs ih =>
    rw [List.foldl_cons, ih]
    by_cases h : k2 = k
    · subst h; simp [addPrim, Items.add_same]
    · simp [h, addPrim, Items.add_other it (g x) h]

theorem foldl_labelItems_apply (ts : List NvOSD_TextParams) (it : Items) (k2 : Kind) :
    (ts.foldl labelItems it) k2
      = if k2 = Kind.text then
          it k2 ++ (ts.filter (fun t => t.display_text.isSome)).map Prim.text
        else it k2 := by
  induction ts generalizing it with
  | nil => by_cases h : k2 = Kind.text <;> simp [h]
  | cons t ts ih =>
    rw [List.foldl_cons, ih]
    by_cases h : k2 = Kind.text
    · subst h
      by_cases ht : t.display_text.isSome = true
      · simp [labelItems, ht, Items.add_same]
      · simp [labelItems, ht]
    · by_cases ht : t.display_text.isSome = true
      · simp [h, labelItems, ht, Items.add_other it (Prim.text t) h]
      · simp [h, labelItems, ht]

theorem dispItems_rect (it : Items) (d : NvDsDisplayMeta) :
    dispItems it d Kind.rect = it Kind.rect ++ d.rect_params.map Prim.rect := by
  simp [dispItems, foldl_addPrim_apply, foldl_labelItems_apply]

theorem dispItems_text (it : Items) (d : NvDsDisplayMeta) :
    dispItems it d Kind.text = it Kind.text ++ (labelsOf d).map Prim.text := by
  simp [dispItems, foldl_addPrim_apply, foldl_labelItems_apply, labelsOf]

theorem dispItems_segment (it : Items) (d : NvDsDisplayMeta) :
    dispItems it d Kind.segment = it Kind.segment := by
  simp [dispItems, foldl_addPrim_apply, foldl_labelItems_apply]

theorem foldl_dispItems_rect (ds : List NvDsDisplayMeta) (it : Items) :
    (ds.foldl dispItems it) Kind.rect = it Kind.rect ++ (displayRects ds).map Prim.rect := by
  induction ds generalizing it with
  | nil => simp [displayRects]
  | cons d ds ih =>
    rw [List.foldl_cons, ih, dispItems_rect]
    simp [displayRects]

theorem foldl_dispItems_text (ds : List NvDsDisplayMeta) (it : Items) :
    (ds.foldl dispItems it) Kind.text = it Kind.text ++ (displayLabels ds).map Prim.text := by
  induction ds generalizing it with
  | nil => simp [displayLabels]
  | cons d ds ih =>
    rw [List.foldl_cons, ih, dispItems_text]
    simp [displayLabels]

theorem foldl_dispItems_segment (ds : List NvDsDisplayMeta) (it : Items) :
    (ds.foldl dispItems it) Kind.segment = it Kind.segment := by
  induction ds generalizing it with
  | nil => rfl
  | cons d ds ih => rw [List.foldl_cons, ih, dispItems_segment]

theorem objItems_rect (env : Env) (s : GstDsOsdCoord) (it : Items) (o : NvDsObjectMeta) :
    objItems env s it o Kind.rect
      = if s.draw_bbox then it Kind.rect ++ [Prim.rect (objRectValue env s o)]
        else it Kind.rect := by
  unfold objItems
  by_cases h1 : s.draw_bbox = true <;> by_cases h2 : s.draw_mask = true ∧ hasMask o = true <;>
    by_cases h3 : o.text_params.display_text.isSome = true <;>
    simp [h1, h2, h3, Items.add]

theorem objItems_text (env : Env) (s : GstDsOsdCoord) (it : Items) (o : NvDsObjectMeta) :
    objItems env s it o Kind.text
      = if o.text_params.display_text.isSome then it Kind.text ++ [Prim.text o.text_params]
        else it Kind.text := by
  unfold objItems
  by_cases h1 : s.draw_bbox = true <;> by_cases h2 : s.draw_mask = true ∧ hasMask o = true <;>
    by_cases h3 : o.text_params.display_text.isSome = true <;>
    simp [h1, h2, h3, Items.add]

theorem objItems_segment (env : Env) (s : GstDsOsdCoord) (it : Items) (o : NvDsObjectMeta)
    (hm : s.draw_mask = false) : objItems env s it o Kind.segment = it Kind.segment := by
  unfold objItems
  by_cases h1 : s.draw_bbox = true <;>
    by_cases h3 : o.text_params.display_text.isSome = true <;>
    simp [h1, hm, h3, Items.add]

theorem foldl_objItems_rect (env : Env) (s : GstDsOsdCoord) (os : List NvDsObjectMeta)
    (it : Items) :
    (os.foldl (objItems env s) it) Kind.rect
      = it Kind.rect ++
        (if s.draw_bbox then os.map (fun o => Prim.rect (objRectValue env s o)) else []) := by
  induction os generalizing it with
  | nil => by_cases h : s.draw_bbox = true <;> simp [h]
  | cons o os ih =>
    rw [List.foldl_cons, ih, objItems_rect]
    by_cases h : s.draw_bbox = true <;> simp [h]

theorem foldl_objItems_text (env : Env) (s : GstDsOsdCoord) (os : List NvDsObjectMeta)
    (it : Items) :
    (os.foldl (objItems env s) it) Kind.text
      = it Kind.text ++ (textObjects os).map (fun o => Prim.text o.text_params) := by
  induction os generalizing it with
  | nil => simp [textObjects]
  | cons o os ih =>
    rw [List.foldl_cons, ih, objItems_text]
    by_cases h : o.text_params.display_text.isSome = true <;> simp [h, textObjects]

theorem foldl_objItems_segment (env : Env) (s : GstDsOsdCoord) (os : List NvDsObjectMeta)
    (it : Items) (hm : s.draw_mask = false) :
    (os.foldl (objItems env s) it) Kind.segment = it Kind.segment := by
  induction os generalizing it with
  | nil => rfl
  | cons o os ih => rw [List.foldl_cons, ih, objItems_segment env s it o hm]

theorem scanItems_rect (env : Env) (s : GstDsOsdCoord) (buf : GstBuffer) :
    scanItems env s buf Kind.rect
      = (if s.draw_bbox then (objList buf).map (fun o => Prim.rect (objRectValue env s o))
          else [])
        ++ (displayRects (displayList buf)).map Prim.rect := by
  simp [scanItems, foldl_dispItems_rect, foldl_objItems_rect]

theorem scanItems_text (env : Env) (s : GstDsOsdCoord) (buf : GstBuffer) :
    scanItems env s buf Kind.text
      = (textObjects (objList buf)).map (fun o => Prim.text o.text_params)
        ++ (displayLabels (displayList buf)).map Prim.text := by
  simp [scanItems, foldl_dispItems_text, foldl_objItems_text]

theorem scanItems_segment (env : Env) (s : GstDsOsdCoord) (buf : GstBuffer)
    (hm : s.draw_mask = false) : scanItems env s buf Kind.segment = [] := by
  simp [scanItems, foldl_dispItems_segment, foldl_objItems_segment env s _ _ hm]

/-! ## The tail flush -/

theorem tailGate_trace (m : Exec) (t : List Event) :
    tailGate { m with trace := t } = tailGate m := by
  funext k
  cases k <;> rfl

theorem gated_stored {env : Env} {m : Exec} (k : Kind) (h : Stored m) :
    (gated env m k).sat Stored Stored := by
  unfold gated dispatch
  by_cases hg : tailGate m k = true
  · simp only [hg, if_true]
    by_cases hok : env.draw_ok (draws m.trace) (request m k (m.cnt k)) = true
    · simp only [hok, if_true, Flow.sat]; exact h
    · simp only [hok, Bool.false_eq_true, if_false, Flow.sat]; exact h
  · simp only [hg, Bool.false_eq_true, if_false, Flow.sat]; exact h

theorem bind_congr_sat {P : Exec → Prop} {fl : Flow} {f g : Exec → Flow}
    (h : fl.sat P P) (hfg : ∀ m, P m → f m = g m) : fl.bind f = fl.bind g := by
  cases fl with
  | next m => exact hfg m h
  | ret m => rfl

theorem tailRect_eq (env : Env) {m : Exec} (h : Stored m) :
    tailRect env m = gated env m Kind.rect := by
  simp [tailRect, gated, tailGate, h.1]

theorem tailMask_eq (env : Env) {m : Exec} (h : Stored m) :
    tailMask env m = gated env m Kind.segment := by
  simp [tailMask, gated, tailGate, h.2.1]

theorem tailText_eq (env : Env) {m : Exec} (h : Stored m) :
    tailText env m = gated env m Kind.text := by
  simp [tailText, gated, tailGate, h.2.2.1]

theorem tailLine_eq (env : Env) {m : Exec} (h : Stored m) :
    tailLine env m = gated env m Kind.line := by
  simp [tailLine, gated, tailGate, h.2.2.2.1]

theorem tailArrow_eq (env : Env) {m : Exec} (h : Stored m) :
    tailArrow env m = gated env m Kind.arrow := by
  simp [tailArrow, gated, tailGate, h.2.2.2.2.1]

theorem tailCircle_eq (env : Env) {m : Exec} (h : Stored m) :
    tailCircle env m = gated env m Kind.circle := by
  simp [tailCircle, gated, tailGate, h.2.2.2.2.2]

theorem stored_storeCounts (m : Exec) : Stored (storeCounts m) := by
  simp [Stored, storeCounts]

theorem bind_next (fl : Flow) : fl.bind Flow.next = fl := by
  cases fl <;> rfl

theorem tailFlush_eq_forEach (env : Env) (m : Exec) :
    tailFlush env m = forEach (gated env) (storeCounts m) tailOrder := by
  have h0 := stored_storeCounts m
  unfold tailFlush tailOrder
  simp only [forEach]
  rw [tailRect_eq env h0]
  refine bind_congr_sat (gated_stored Kind.rect h0) ?_
  intro m1 h1
  rw [tailMask_eq env h1]
  refine bind_congr_sat (gated_stored Kind.segment h1) ?_
  intro m2 h2
  rw [tailText_eq env h2]
  refine bind_congr_sat (gated_stored Kind.text h2) ?_
  intro m3 h3
  rw [tailLine_eq env h3]
  refine bind_congr_sat (gated_stored Kind.line h3) ?_
  intro m4 h4
  rw [tailArrow_eq env h4]
  refine bind_congr_sat (gated_stored Kind.arrow h4) ?_
  intro m5 h5
  rw [tailCircle_eq env h5, bind_next]

theorem forEach_gated (env : Env) (ks : List Kind) (m : Exec) :
    forEach (gated env) m ks
      = issueAll env m ((ks.filter (tailGate m)).map (fun k => request m k (m.cnt k))) := by
  induction ks generalizing m with
  | nil => rfl
  | cons k ks ih =>
    simp only [forEach, gated, dispatch, List.filter_cons]
    by_cases hg : tailGate m k = true
    · simp only [hg, if_true, List.map_cons, issueAll]
      by_cases hok : env.draw_ok (draws m.trace) (request m k (m.cnt k)) = true
      · simp only [hok, if_true, Flow.bind]
        rw [ih, tailGate_trace]
        rfl
      · simp only [hok, Bool.false_eq_true, if_false, Flow.bind]
    · simp only [hg, Bool.false_eq_true, if_false, Flow.bind]
      exact ih m

theorem tailFlush_eq (env : Env) (m : Exec) :
    tailFlush env m = issueAll env (storeCounts m) (tailCalls (storeCounts m)) := by
  rw [tailFlush_eq_forEach, forEach_gated]
  rfl

theorem tailCalls_storeCounts (m : Exec) :
    tailCalls (storeCounts m) = tailCalls m := by
  have : tailGate (storeCounts m) = tailGate m := by
    funext k; cases k <;> rfl
  unfold tailCalls
  rw [this]
  rfl

/-- What a sequence of prepared calls leaves: on success all were issued; on
failure the issued ones are an initial part ending in the failed call. -/
theorem issueAll_sat (env : Env) (cs : List DrawCall) (m : Exec) :
    (issueAll env m cs).sat
      (fun m2 => m2 = { m with trace := m.trace ++ cs.map Event.draw } ∧
        (okTrace env m.trace → okTrace env m2.trace))
      (fun m2 => ∃ done c rest, cs = done ++ c :: rest ∧
        m2 = { m with trace := (m.trace ++ done.map Event.draw) ++ [Event.draw c] } ∧
        (okTrace env m.trace → okTrace env (m.trace ++ done.map Event.draw)) ∧
        env.draw_ok (draws (m.trace ++ done.map Event.draw)) c = false) := by
  induction cs generalizing m with
  | nil => simp [issueAll, Flow.sat]
  | cons c cs ih =>
    simp only [issueAll]
    by_cases hok : env.draw_ok (draws m.trace) c = true
    · simp only [hok, if_true]
      refine sat_mono (ih _) ?_ ?_
      · rintro m2 ⟨h1, h2⟩
        refine ⟨by simp [h1], fun h => h2 (okTrace_snoc_draw h hok)⟩
      · rintro m2 ⟨done, c2, rest, h1, h2, h3, h4⟩
        refine ⟨c :: done, c2, rest, by simp [h1], by simp [h2], ?_, by simpa using h4⟩
        intro h
        simpa using h3 (okTrace_snoc_draw h hok)
    · simp only [hok, Bool.false_eq_true, if_false, Flow.sat]
      exact ⟨[], c, cs, rfl, by simp, by simp, by simpa using hok⟩

theorem tailOrder_filter_eq (k : Kind) : tailOrder.filter (fun k2 => decide (k2 = k)) = [k] := by
  cases k <;> rfl

theorem tailCalls_of_kind (m : Exec) (k : Kind) :
    (tailCalls m).filter (fun c => decide (c.entry = k))
      = if tailGate m k then [request m k (m.cnt k)] else [] := by
  unfold tailCalls
  rw [List.filter_map]
  have h1 : ((fun c : DrawCall => decide (c.entry = k)) ∘ fun k2 => request m k2 (m.cnt k2))
      = fun k2 => decide (k2 = k) := by
    funext k2; simp [request]
  rw [h1, List.filter_filter]
  have h2 : (fun a => decide (a = k) && tailGate m a)
      = fun a => tailGate m k && decide (a = k) := by
    funext a
    by_cases h : a = k
    · subst h; simp
    · simp [h]
  rw [h2, ← List.filter_filter, tailOrder_filter_eq]
  by_cases hg : tailGate m k = true <;> simp [hg]

/-! ## The shape of a run -/

theorem transform_ip_unfold (env : Env) (self : GstDsOsdCoord) (buf : GstBuffer)
    (hmap : env.gst_buffer_map = true) (hbind : env.cudaSetDevice = true) :
    gst_ds_osdcoord_transform_ip env self buf
      = match (scans env self buf).bind (tailFlush env) with
        | Flow.ret m =>
          { ret := GstFlowReturn.GST_FLOW_ERROR, self := m.self, trace := m.trace }
        | Flow.next m =>
          { ret := GstFlowReturn.GST_FLOW_OK
            self := { m.self with frame_num := (m.self.frame_num + 1) % 2 ^ 32 }
            trace := m.trace } := by
  simp [gst_ds_osdcoord_transform_ip, hmap, hbind]

theorem run_shape (env : Env) (self : GstDsOsdCoord) (buf : GstBuffer)
    (hmap : env.gst_buffer_map = true) (hbind : env.cudaSetDevice = true) :
    RunShape env self buf (gst_ds_osdcoord_transform_ip env self buf) := by
  rw [transform_ip_unfold env self buf hmap hbind]
  have hscan := scans_sat env self buf
  cases hs : scans env self buf with
  | ret m =>
    rw [hs] at hscan
    exact RunShape.scanFail m hs hscan rfl rfl rfl
  | next m =>
    rw [hs] at hscan
    simp only [Flow.bind]
    have htail := issueAll_sat env (tailCalls (storeCounts m)) (storeCounts m)
    rw [← tailFlush_eq, tailCalls_storeCounts] at htail
    cases ht : tailFlush env m with
    | next m2 =>
      rw [ht] at htail
      obtain ⟨h1, h2⟩ := htail
      simp only
      have h3 : okTrace env m2.trace := h2 hscan.allok
      subst h1
      exact RunShape.done m hs hscan rfl rfl rfl h3
    | ret m2 =>
      rw [ht] at htail
      obtain ⟨pre, c, rest, h1, h2, h3, h4⟩ := htail
      simp only
      subst h2
      exact RunShape.tailFail m pre c rest hs hscan h1 rfl rfl rfl (h3 hscan.allok) h4

theorem draws_map_draw (cs : List DrawCall) : draws (cs.map Event.draw) = cs := by
  induction cs with
  | nil => rfl
  | cons c cs ih => simp [draws, ih]

theorem drawsOf_tail (k : Kind) (t : List Event) (cs : List DrawCall) :
    drawsOf k (t ++ cs.map Event.draw)
      = drawsOf k t ++ cs.filter (fun c => decide (c.entry = k)) := by
  simp [drawsOf, draws_append, draws_map_draw]

theorem filter_init_nil {α : Type} {p : α → Bool} {a b c : List α}
    (h : a = b ++ c) (hn : a.filter p = []) : b.filter p = [] := by
  subst h
  rw [List.filter_append] at hn
  exact (List.append_eq_nil.mp hn).1

theorem failed_is_last {env : Env} {t pre0 : List Event} {c0 : DrawCall}
    (ht : t = pre0 ++ [Event.draw c0]) (hok : okTrace env pre0)
    {pre post : List Event} {c : DrawCall}
    (hsplit : t = pre ++ Event.draw c :: post)
    (hfail : env.draw_ok (draws pre) c = false) : post = [] := by
  rcases List.eq_nil_or_concat post with hp | ⟨post2, x, hp⟩
  · exact hp
  · subst hp
    exfalso
    have heq : pre0 ++ [Event.draw c0] = (pre ++ Event.draw c :: post2) ++ [x] := by
      rw [← ht, hsplit]; simp
    have h1 := (List.append_inj' heq (by simp)).1
    have := hok pre c post2 h1
    rw [hfail] at this
    exact Bool.noConfusion this

theorem not_allOk_of_failed {env : Env} (h : AllOk env) {hist : List DrawCall} {c : DrawCall}
    (hf : env.draw_ok hist c = false) : False := by
  rw [h hist c] at hf
  exact Bool.noConfusion hf

/-- With every draw call succeeding, a run that got past `gst_buffer_map` and
`cudaSetDevice` completes both scans and the whole tail flush. -/
theorem run_allOk {env : Env} (self : GstDsOsdCoord) (buf : GstBuffer) (h : AllOk env)
    (hmap : env.gst_buffer_map = true) (hbind : env.cudaSetDevice = true) :
    ∃ m, scans env self buf = Flow.next m ∧ Good env self (scanItems env self buf) m ∧
      (gst_ds_osdcoord_transform_ip env self buf).ret = GstFlowReturn.GST_FLOW_OK ∧
      (gst_ds_osdcoord_transform_ip env self buf).self =
        { (storeCounts m).self with
          frame_num := ((storeCounts m).self.frame_num + 1) % 2 ^ 32 } ∧
      (gst_ds_osdcoord_transform_ip env self buf).trace
        = m.trace ++ (tailCalls m).map Event.draw := by
  cases run_shape env self buf hmap hbind with
  | scanFail m hs hb hret hself htr =>
    obtain ⟨pre, c, _, _, hf, _⟩ := hb.failed
    exact (not_allOk_of_failed h hf).elim
  | tailFail m pre c rest hs hg hcalls hret hself htr hok hfail =>
    exact (not_allOk_of_failed h hfail).elim
  | done m hs hg hret hself htr hok =>
    exact ⟨m, hs, hg, hret, hself, htr⟩

theorem run_early_or_shape (env : Env) (self : GstDsOsdCoord) (buf : GstBuffer) :
    ((gst_ds_osdcoord_transform_ip env self buf).trace = [] ∧
      (gst_ds_osdcoord_transform_ip env self buf).self = self ∧
      (gst_ds_osdcoord_transform_ip env self buf).ret = GstFlowReturn.GST_FLOW_ERROR ∧
      (env.gst_buffer_map = false ∨ env.cudaSetDevice = false)) ∨
    (env.gst_buffer_map = true ∧ env.cudaSetDevice = true ∧
      RunShape env self buf (gst_ds_osdcoord_transform_ip env self buf)) := by
  by_cases hmap : env.gst_buffer_map = true
  · by_cases hbind : env.cudaSetDevice = true
    · exact Or.inr ⟨hmap, hbind, run_shape env self buf hmap hbind⟩
    · left
      simp [gst_ds_osdcoord_transform_ip, hbind]
  · left
    simp [gst_ds_osdcoord_transform_ip, hmap]

theorem tailFail_trace {t m : List Event} {pre : List DrawCall} {c : DrawCall}
    (h : t = (m ++ pre.map Event.draw) ++ [Event.draw c]) :
    t = m ++ (pre ++ [c]).map Event.draw := by
  rw [h]; simp

theorem mem_tailCalls {m : Exec} {c : DrawCall} (h : c ∈ tailCalls m) :
    tailGate m c.entry = true := by
  unfold tailCalls at h
  obtain ⟨k, hk, rfl⟩ := List.mem_map.mp h
  exact (List.mem_filter.mp hk).2

theorem touches_draw_of_ne {k : Kind} {c : DrawCall} (h : c.entry ≠ k) :
    (Event.draw c).touches k = false := by
  simp [Event.touches, h]

/-- If the tail block of kind `k` is switched off for this instance, a frame
whose scans append fewer than `MAX_OSD_ELEMS` primitives of kind `k` causes no
draw call of kind `k`. -/
theorem no_draws_of_gate_off (env : Env) (self : GstDsOsdCoord) (buf : GstBuffer) (k : Kind)
    (hgate : ∀ m : Exec, (∃ f, m.self = { self with bufs := f }) → tailGate m k = false)
    (hlen : (scanItems env self buf k).length < MAX_OSD_ELEMS) :
    drawsOf k (gst_ds_osdcoord_transform_ip env self buf).trace = [] := by
  have hscan : ∀ m : Exec, (drawsOf k m.trace).length * MAX_OSD_ELEMS
      ≤ (scanItems env self buf k).length → drawsOf k m.trace = [] := by
    intro m h
    apply List.length_eq_zero.mp
    simp only [MAX_OSD_ELEMS] at *
    omega
  have hgood : ∀ m, Good env self (scanItems env self buf) m → drawsOf k m.trace = [] := by
    intro m hg
    apply hscan
    have := congrArg List.length (hg.nums_eq k)
    simp only [List.length_map, List.length_replicate] at this
    rw [this]
    exact Nat.div_mul_le_self _ _
  have htail : ∀ m, Good env self (scanItems env self buf) m →
      (tailCalls m).filter (fun c => decide (c.entry = k)) = [] := by
    intro m hg
    rw [tailCalls_of_kind, hgate m hg.cfg]
    simp
  rcases run_early_or_shape env self buf with ⟨h, _⟩ | ⟨_, _, hshape⟩
  · rw [h]; rfl
  cases hshape with
  | scanFail m hs hb hret hself htr =>
    rw [htr]
    exact hscan m (hb.few k)
  | tailFail m pre c rest hs hg hcalls hret hself htr hok hfail =>
    have h1 : (pre ++ [c]).filter (fun c => decide (c.entry = k)) = [] :=
      filter_init_nil (show tailCalls m = (pre ++ [c]) ++ rest by simp [hcalls]) (htail m hg)
    rw [tailFail_trace htr, drawsOf_tail, hgood m hg, h1]
    rfl
  | done m hs hg hret hself htr hok =>
    rw [htr, drawsOf_tail, hgood m hg, htail m hg]
    rfl

/-- If the tail block of kind `k` is switched off for this instance, a frame
whose scans append no primitive of kind `k` has no event that concerns kind
`k`: no write into its arrays, no assignment to its counter, no draw call. -/
theorem untouched_of_gate_off (env : Env) (self : GstDsOsdCoord) (buf : GstBuffer) (k : Kind)
    (hgate : ∀ m : Exec, (∃ f, m.self = { self with bufs := f }) → tailGate m k = false)
    (hnil : scanItems env self buf k = []) :
    ∀ e ∈ (gst_ds_osdcoord_transform_ip env self buf).trace, e.touches k = false := by
  have htail : ∀ m, Good env self (scanItems env self buf) m →
      ∀ c ∈ tailCalls m, (Event.draw c).touches k = false := by
    intro m hg c hc
    apply touches_draw_of_ne
    intro h
    have := mem_tailCalls hc
    rw [h, hgate m hg.cfg] at this
    exact Bool.noConfusion this
  rcases run_early_or_shape env self buf with ⟨h, _⟩ | ⟨_, _, hshape⟩
  · rw [h]; intro e he; simp at he
  cases hshape with
  | scanFail m hs hb hret hself htr =>
    rw [htr]
    exact hb.untouched k hnil
  | tailFail m pre c rest hs hg hcalls hret hself htr hok hfail =>
    rw [tailFail_trace htr]
    intro e he
    rcases List.mem_append.mp he with he | he
    · exact hg.untouched k hnil e he
    · obtain ⟨c2, hc2, rfl⟩ := List.mem_map.mp he
      apply htail m hg c2
      rw [hcalls]
      have : c2 ∈ pre ∨ c2 = c := by simpa using hc2
      rcases this with h | h
      · exact List.mem_append_left _ h
      · subst h; simp
  | done m hs hg hret hself htr hok =>
    rw [htr]
    intro e he
    rcases List.mem_append.mp he with he | he
    · exact hg.untouched k hnil e he
    · obtain ⟨c2, hc2, rfl⟩ := List.mem_map.mp he
      exact htail m hg c2 hc2

/-- The stored counts after a run whose scans completed. -/
theorem stored_of_scans (env : Env) (self : GstDsOsdCoord) (buf : GstBuffer) (m : Exec)
    (hmap : env.gst_buffer_map = true) (hbind : env.cudaSetDevice = true)
    (hs : scans env self buf = Flow.next m) :
    Good env self (scanItems env self buf) m ∧
    (gst_ds_osdcoord_transform_ip env self buf).self.num_rect = m.cnt Kind.rect ∧
    (gst_ds_osdcoord_transform_ip env self buf).self.num_segments = m.cnt Kind.segment ∧
    (gst_ds_osdcoord_transform_ip env self buf).self.num_strings = m.cnt Kind.text ∧
    (gst_ds_osdcoord_transform_ip env self buf).self.num_lines = m.cnt Kind.line ∧
    (gst_ds_osdcoord_transform_ip env self buf).self.num_arrows = m.cnt Kind.arrow ∧
    (gst_ds_osdcoord_transform_ip env self buf).self.num_circles = m.cnt Kind.circle := by
  cases run_shape env self buf hmap hbind with
  | scanFail m2 hs2 hb hret hself htr =>
    rw [hs] at hs2
    exact Flow.noConfusion hs2
  | tailFail m2 pre c rest hs2 hg hcalls hret hself htr hok hfail =>
    rw [hs] at hs2
    have : m = m2 := by injection hs2
    subst this
    rw [hself]
    exact ⟨hg, rfl, rfl, rfl, rfl, rfl, rfl⟩
  | done m2 hs2 hg hret hself htr hok =>
    rw [hs] at hs2
    have : m = m2 := by injection hs2
    subst this
    rw [hself]
    exact ⟨hg, rfl, rfl, rfl, rfl, rfl, rfl⟩

/-- A run that returns `GST_FLOW_OK` completed its scans. -/
theorem scans_of_ok (env : Env) (self : GstDsOsdCoord) (buf : GstBuffer)
    (hret : (gst_ds_osdcoord_transform_ip env self buf).ret = GstFlowReturn.GST_FLOW_OK) :
    env.gst_buffer_map = true ∧ env.cudaSetDevice = true ∧
      ∃ m, scans env self buf = Flow.next m := by
  rcases run_early_or_shape env self buf with ⟨_, _, h, _⟩ | ⟨hmap, hbind, hshape⟩
  · rw [h] at hret
    exact GstFlowReturn.noConfusion hret
  refine ⟨hmap, hbind, ?_⟩
  cases hshape with
  | scanFail m hs hb hret2 hself htr =>
    rw [hret2] at hret
    exact GstFlowReturn.noConfusion hret
  | tailFail m pre c rest hs hg hcalls hret2 hself htr hok hfail =>
    exact ⟨m, hs⟩
  | done m hs hg hret2 hself htr hok =>
    exact ⟨m, hs⟩

/-! ## Claims C1 to C3 -/

theorem nums_of_run {env : Env} {self0 : GstDsOsdCoord} {it : Items} {m : Exec}
    (hg : Good env self0 it m) (k : Kind) :
    (drawsOf k (m.trace ++ (tailCalls m).map Event.draw)).map DrawCall.num
      = List.replicate ((it k).length / MAX_OSD_ELEMS) MAX_OSD_ELEMS
        ++ (if tailGate m k then [m.cnt k] else []) := by
  rw [drawsOf_tail, List.map_append, hg.nums_eq k, tailCalls_of_kind]
  by_cases h : tailGate m k = true <;> simp [h, request]

theorem payload_of_run {env : Env} {self0 : GstDsOsdCoord} {it : Items} {m : Exec}
    (hg : Good env self0 it m) (k : Kind) (hgate : m.cnt k ≠ 0 → tailGate m k = true) :
    payload k (m.trace ++ (tailCalls m).map Event.draw) = it k := by
  have h1 : payload k (m.trace ++ (tailCalls m).map Event.draw)
      = payload k m.trace ++ (if tailGate m k then
          readFirst (m.self.bufs (paramsBuf k)) (m.cnt k) else []) := by
    unfold payload
    rw [drawsOf_tail, List.map_append, List.flatten_append, tailCalls_of_kind]
    by_cases h : tailGate m k = true <;> simp [h, request]
  rw [h1, ← hg.payload_eq k]
  by_cases h : tailGate m k = true
  · simp [h]
  · have h0 : m.cnt k = 0 := by
      by_contra hne
      exact h (hgate hne)
    simp [h, h0, readFirst]

theorem nums_shape (k : Nat) :
    List.replicate (k / 1024) 1024 ++ (if k % 1024 ≠ 0 then [k % 1024] else [])
      = List.replicate ((k + 1024 - 1) / 1024 - 1) 1024
        ++ (if k = 0 then [] else [if k % 1024 = 0 then 1024 else k % 1024]) := by
  by_cases h0 : k % 1024 = 0
  · by_cases hk : k = 0
    · subst hk; simp
    · have h1 : (k + 1024 - 1) / 1024 - 1 + 1 = k / 1024 := by omega
      rw [← h1, List.replicate_succ']
      simp [h0, hk]
  · have hk : k ≠ 0 := by
      intro h; subst h; simp at h0
    have h1 : (k + 1024 - 1) / 1024 - 1 = k / 1024 := by omega
    rw [h1]
    simp [h0, hk]

/-- Claim C1. For a frame whose metadata holds `k` object annotations and no
display-annotation rects, with `draw_bbox` enabled and every call succeeding
(buffer map, device bind and every draw call), the rectangle draw entry point
is called exactly `ceil (k / 1024)` times; every call but the last carries
`num_rects = 1024` and the last carries `k mod 1024`, or 1024 when `k` is a
positive multiple of 1024. With `k = 1500` the calls carry 1024 and then 476
rects. -/
theorem C1_rect_dispatch_count (env : Env) (self : GstDsOsdCoord) (buf : GstBuffer) (k : Nat)
    (hok : AllOk env) (hmap : env.gst_buffer_map = true) (hbind : env.cudaSetDevice = true)
    (hbbox : self.draw_bbox = true) (hk : (objList buf).length = k)
    (hnd : displayRects (displayList buf) = []) :
    ((drawsOf Kind.rect (gst_ds_osdcoord_transform_ip env self buf).trace).map
        DrawCall.num).length = (k + MAX_OSD_ELEMS - 1) / MAX_OSD_ELEMS ∧
    (drawsOf Kind.rect (gst_ds_osdcoord_transform_ip env self buf).trace).map DrawCall.num
      = List.replicate ((k + MAX_OSD_ELEMS - 1) / MAX_OSD_ELEMS - 1) MAX_OSD_ELEMS
        ++ (if k = 0 then []
            else [if k % MAX_OSD_ELEMS = 0 then MAX_OSD_ELEMS else k % MAX_OSD_ELEMS]) ∧
    (k = 1500 →
      (drawsOf Kind.rect (gst_ds_osdcoord_transform_ip env self buf).trace).map DrawCall.num
        = [1024, 476]) := by
  obtain ⟨m, hs, hg, hret, hself, htr⟩ := run_allOk self buf hok hmap hbind
  have hlen : (scanItems env self buf Kind.rect).length = k := by
    rw [scanItems_rect, hnd]
    simp [hbbox, hk]
  obtain ⟨f, hf⟩ := hg.cfg
  have hb : m.self.draw_bbox = true := by rw [hf]; exact hbbox
  have hgate : tailGate m Kind.rect = decide (k % 1024 ≠ 0) := by
    have hc := hg.cnt_eq Kind.rect
    rw [hlen] at hc
    simp only [tailGate, hb, hc, MAX_OSD_ELEMS, Bool.and_true]
  have hnums : (drawsOf Kind.rect (gst_ds_osdcoord_transform_ip env self buf).trace).map
      DrawCall.num
      = List.replicate ((k + MAX_OSD_ELEMS - 1) / MAX_OSD_ELEMS - 1) MAX_OSD_ELEMS
        ++ (if k = 0 then []
            else [if k % MAX_OSD_ELEMS = 0 then MAX_OSD_ELEMS else k % MAX_OSD_ELEMS]) := by
    rw [htr, nums_of_run hg Kind.rect, hlen, hgate, hg.cnt_eq Kind.rect, hlen]
    simp only [MAX_OSD_ELEMS]
    rw [← nums_shape k]
    by_cases h : k % 1024 = 0 <;> simp [h]
  refine ⟨?_, hnums, ?_⟩
  · rw [hnums]
    simp only [MAX_OSD_ELEMS, List.length_append, List.length_replicate]
    by_cases h : k = 0
    · subst h; simp
    · simp only [h, if_false, List.length_singleton]
      omega
  · intro h1500
    rw [hnums, h1500]
    decide

theorem findBatchMeta_first (pre : List GstMeta) (g : GstMeta) (post : List GstMeta)
    (hpre : ∀ x ∈ pre, (x.has_tag && x.is_batch_gst_meta) = false)
    (hg : (g.has_tag && g.is_batch_gst_meta) = true) :
    findBatchMeta (pre ++ g :: post) = some g.meta_data := by
  induction pre with
  | nil => simp [findBatchMeta, hg]
  | cons x xs ih =>
    have hx := hpre x (by simp)
    simp only [List.cons_append, findBatchMeta, hx]
    exact ih (fun y hy => hpre y (by simp [hy]))

theorem findBatchMeta_absent (metas : List GstMeta)
    (h : ∀ x ∈ metas, (x.has_tag && x.is_batch_gst_meta) = false) :
    findBatchMeta metas = none := by
  induction metas with
  | nil => rfl
  | cons x xs ih =>
    have hx := h x (by simp)
    simp only [findBatchMeta, hx]
    exact ih (fun y hy => h y (by simp [hy]))

/-- Claim C2. With `draw_bbox` enabled, hardware-blend colour resolution not
active and every call succeeding (buffer map, device bind and every draw
call), the concatenation, in call order, of the first `num_rects` buffered
rects of every rectangle dispatch equals the rects of the object annotations in
list order followed by the rects of every display group in list order. The
annotations are those of the buffer itself: when `g` is the first attached meta
that has the tag and the batch type, the dispatched rects are the rects of the
objects of `g.meta_data` followed by the rects of its display groups, none
lost, duplicated or reordered; when no attached meta has the tag and the batch
type, no rect is dispatched. -/
theorem C2_rect_payload_complete (env : Env) (self : GstDsOsdCoord) (buf : GstBuffer)
    (hok : AllOk env) (hmap : env.gst_buffer_map = true) (hbind : env.cudaSetDevice = true)
    (hbbox : self.draw_bbox = true) (hhw : hwBlendActive env self = false) :
    payload Kind.rect (gst_ds_osdcoord_transform_ip env self buf).trace
      = (objList buf).map (fun o => Prim.rect o.rect_params)
        ++ (displayRects (displayList buf)).map Prim.rect ∧
    (∀ (pre : List GstMeta) (g : GstMeta) (post : List GstMeta),
      buf.metas = pre ++ g :: post →
      (∀ x ∈ pre, (x.has_tag && x.is_batch_gst_meta) = false) →
      (g.has_tag && g.is_batch_gst_meta) = true →
      payload Kind.rect (gst_ds_osdcoord_transform_ip env self buf).trace
        = g.meta_data.obj_meta_list.map (fun o => Prim.rect o.rect_params)
          ++ (g.meta_data.display_meta_list.flatMap (fun d => d.rect_params)).map Prim.rect) ∧
    ((∀ x ∈ buf.metas, (x.has_tag && x.is_batch_gst_meta) = false) →
      payload Kind.rect (gst_ds_osdcoord_transform_ip env self buf).trace = []) := by
  obtain ⟨m, hs, hg, hret, hself, htr⟩ := run_allOk self buf hok hmap hbind
  obtain ⟨f, hf⟩ := hg.cfg
  have hb : m.self.draw_bbox = true := by rw [hf]; exact hbbox
  have hgate : m.cnt Kind.rect ≠ 0 → tailGate m Kind.rect = true := by
    intro h
    simp [tailGate, hb, h]
  have hmain : payload Kind.rect (gst_ds_osdcoord_transform_ip env self buf).trace
      = (objList buf).map (fun o => Prim.rect o.rect_params)
        ++ (displayRects (displayList buf)).map Prim.rect := by
    rw [htr, payload_of_run hg Kind.rect hgate, scanItems_rect]
    simp [hbbox, objRectValue, hhw]
  refine ⟨hmain, ?_, ?_⟩
  · intro pre g post hmetas hpre hgtag
    have hfind : findBatchMeta buf.metas = some g.meta_data := by
      rw [hmetas]
      exact findBatchMeta_first pre g post hpre hgtag
    rw [hmain]
    simp only [objList, displayList, hfind, displayRects]
  · intro hnone
    have hfind : findBatchMeta buf.metas = none := findBatchMeta_absent buf.metas hnone
    rw [hmain]
    simp [objList, displayList, hfind, displayRects]

/-- Claim C3. For every frame, every environment and every configuration of
the instance, each value assigned to one of the six running counters is at most
1024 (the counters start at 0), and every write into one of the seven
accumulator arrays uses an index strictly below `MAX_OSD_ELEMS` = 1024. -/
theorem C3_counts_and_indices_bounded (env : Env) (self : GstDsOsdCoord) (buf : GstBuffer) :
    (∀ k v, Event.count k v ∈ (gst_ds_osdcoord_transform_ip env self buf).trace →
      v ≤ MAX_OSD_ELEMS) ∧
    (∀ b i, Event.write b i ∈ (gst_ds_osdcoord_transform_ip env self buf).trace →
      i < MAX_OSD_ELEMS) ∧ MAX_OSD_ELEMS = 1024 := by
  have hall : ∀ e ∈ (gst_ds_osdcoord_transform_ip env self buf).trace, e.inBounds := by
    rcases run_early_or_shape env self buf with ⟨h, _⟩ | ⟨_, _, hshape⟩
    · rw [h]; intro e he; simp at he
    cases hshape with
    | scanFail m hs hb hret hself htr =>
      rw [htr]; exact hb.bounded
    | tailFail m pre c rest hs hg hcalls hret hself htr hok hfail =>
      rw [tailFail_trace htr]
      intro e he
      rcases List.mem_append.mp he with he | he
      · exact hg.bounded e he
      · obtain ⟨c2, _, rfl⟩ := List.mem_map.mp he
        trivial
    | done m hs hg hret hself htr hok =>
      rw [htr]
      intro e he
      rcases List.mem_append.mp he with he | he
      · exact hg.bounded e he
      · obtain ⟨c2, _, rfl⟩ := List.mem_map.mp he
        trivial
  exact ⟨fun k v h => hall _ h, fun b i h => hall _ h, rfl⟩

/-! ## Claims C4 to C6 -/

/-- Claim C5, counterexample. When `gst_buffer_map` fails, no backend draw call
is made, so none fails, and the frame still returns `GST_FLOW_ERROR`. -/
theorem C5_counterexample :
    draws (gst_ds_osdcoord_transform_ip envNoMap (gst_ds_osdcoord_init false)
        (frameOf [objBox] [])).trace = [] ∧
    (gst_ds_osdcoord_transform_ip envNoMap (gst_ds_osdcoord_init false)
        (frameOf [objBox] [])).ret = GstFlowReturn.GST_FLOW_ERROR := by
  decide

/-- Claim C5, amended. For a frame whose buffer maps and whose device bind
succeeds: if a backend draw call of any kind, capacity-triggered or tail
flush, reports failure, the frame returns `GST_FLOW_ERROR` and nothing follows
that call in the trace (no further draw call; the calls before it stay
issued); if no draw call fails, the frame returns `GST_FLOW_OK`. -/
theorem C5_draw_failure_aborts (env : Env) (self : GstDsOsdCoord) (buf : GstBuffer)
    (hmap : env.gst_buffer_map = true) (hbind : env.cudaSetDevice = true) :
    (∀ pre c post,
      (gst_ds_osdcoord_transform_ip env self buf).trace = pre ++ Event.draw c :: post →
      env.draw_ok (draws pre) c = false →
      (gst_ds_osdcoord_transform_ip env self buf).ret = GstFlowReturn.GST_FLOW_ERROR ∧
        post = []) ∧
    ((∀ pre c post,
      (gst_ds_osdcoord_transform_ip env self buf).trace = pre ++ Event.draw c :: post →
      env.draw_ok (draws pre) c = true) →
      (gst_ds_osdcoord_transform_ip env self buf).ret = GstFlowReturn.GST_FLOW_OK) := by
  cases run_shape env self buf hmap hbind with
  | scanFail m hs hb hret hself htr =>
    obtain ⟨pre0, c0, ht, hok0, hfail0, _⟩ := hb.failed
    constructor
    · intro pre c post hsplit hfail
      exact ⟨hret, failed_is_last (htr.trans ht) hok0 hsplit hfail⟩
    · intro hall
      have := hall pre0 c0 [] (htr.trans ht)
      rw [hfail0] at this
      exact Bool.noConfusion this
  | tailFail m pre0 c0 rest hs hg hcalls hret hself htr hok hfail0 =>
    constructor
    · intro pre c post hsplit hfail
      exact ⟨hret, failed_is_last htr hok hsplit hfail⟩
    · intro hall
      have := hall _ c0 [] htr
      rw [hfail0] at this
      exact Bool.noConfusion this
  | done m hs hg hret hself htr hok =>
    constructor
    · intro pre c post hsplit hfail
      have := hok pre c post hsplit
      rw [hfail] at this
      exact Bool.noConfusion this
    · intro _
      exact hret

theorem filter_map_cons {α β : Type} (p : α → Bool) (f : α → β) (a : α) (l : List α) :
    ((a :: l).filter p).map f = (if p a = true then [f a] else []) ++ (l.filter p).map f := by
  by_cases h : p a = true <;> simp [List.filter_cons, h]

/-- Claim C6. With every call succeeding (buffer map, device bind and every
draw call), both scans complete and the tail flush appends to the trace at most
one draw call per kind, in the order rect, mask, text, line, arrow, circle:
rect iff its count is non-zero and `draw_bbox` is set; mask iff its count is
non-zero and `draw_mask` is set; text iff `draw_text` is set and the clock is
shown or the text count is non-zero; line, arrow and circle iff the count is
non-zero. Each call carries the remaining count of its accumulator, and the
frame returns `GST_FLOW_OK`. -/
theorem C6_tail_flush_order (env : Env) (self : GstDsOsdCoord) (buf : GstBuffer)
    (hok : AllOk env) (hmap : env.gst_buffer_map = true) (hbind : env.cudaSetDevice = true) :
    ∃ m, scans env self buf = Flow.next m ∧
      (gst_ds_osdcoord_transform_ip env self buf).ret = GstFlowReturn.GST_FLOW_OK ∧
      (∀ k n, (request m k n).entry = k ∧ (request m k n).num = n) ∧
      (gst_ds_osdcoord_transform_ip env self buf).trace = m.trace ++
        ((if m.cnt Kind.rect ≠ 0 ∧ self.draw_bbox = true then
            [Event.draw (request m Kind.rect (m.cnt Kind.rect))] else []) ++
         (if m.cnt Kind.segment ≠ 0 ∧ self.draw_mask = true then
            [Event.draw (request m Kind.segment (m.cnt Kind.segment))] else []) ++
         (if self.draw_text = true ∧ (self.show_clock = true ∨ m.cnt Kind.text ≠ 0) then
            [Event.draw (request m Kind.text (m.cnt Kind.text))] else []) ++
         (if m.cnt Kind.line ≠ 0 then
            [Event.draw (request m Kind.line (m.cnt Kind.line))] else []) ++
         (if m.cnt Kind.arrow ≠ 0 then
            [Event.draw (request m Kind.arrow (m.cnt Kind.arrow))] else []) ++
         (if m.cnt Kind.circle ≠ 0 then
            [Event.draw (request m Kind.circle (m.cnt Kind.circle))] else [])) := by
  obtain ⟨m, hs, hg, hret, hself, htr⟩ := run_allOk self buf hok hmap hbind
  refine ⟨m, hs, hret, fun k n => ⟨rfl, rfl⟩, ?_⟩
  obtain ⟨f, hf⟩ := hg.cfg
  have h1 : m.self.draw_bbox = self.draw_bbox := by rw [hf]
  have h2 : m.self.draw_mask = self.draw_mask := by rw [hf]
  have h3 : m.self.draw_text = self.draw_text := by rw [hf]
  have h4 : m.self.show_clock = self.show_clock := by rw [hf]
  rw [htr]
  congr 1
  unfold tailCalls tailOrder
  rw [List.map_map]
  simp only [filter_map_cons, List.filter_nil, List.map_nil, List.append_nil, tailGate,
    Function.comp, h1, h2, h3, h4]
  have e1 : ((decide (m.cnt Kind.rect ≠ 0) && self.draw_bbox) = true)
      ↔ (m.cnt Kind.rect ≠ 0 ∧ self.draw_bbox = true) := by simp
  have e2 : ((decide (m.cnt Kind.segment ≠ 0) && self.draw_mask) = true)
      ↔ (m.cnt Kind.segment ≠ 0 ∧ self.draw_mask = true) := by simp
  have e3 : (((self.show_clock || decide (m.cnt Kind.text ≠ 0)) && self.draw_text) = true)
      ↔ (self.draw_text = true ∧ (self.show_clock = true ∨ m.cnt Kind.text ≠ 0)) := by
    simp [and_comm]
  have e4 : (decide (m.cnt Kind.line ≠ 0) = true) ↔ m.cnt Kind.line ≠ 0 := by simp
  have e5 : (decide (m.cnt Kind.arrow ≠ 0) = true) ↔ m.cnt Kind.arrow ≠ 0 := by simp
  have e6 : (decide (m.cnt Kind.circle ≠ 0) = true) ↔ m.cnt Kind.circle ≠ 0 := by simp
  simp only [e1, e2, e3, e4, e5, e6, List.append_assoc]

/-! ## Claims C7 to C9 -/

theorem gate_off_segment {self : GstDsOsdCoord} (hmask : self.draw_mask = false) (m : Exec)
    (h : ∃ f, m.self = { self with bufs := f }) : tailGate m Kind.segment = false := by
  obtain ⟨f, hf⟩ := h
  simp [tailGate, hf, hmask]

theorem gate_off_rect {self : GstDsOsdCoord} (hbbox : self.draw_bbox = false) (m : Exec)
    (h : ∃ f, m.self = { self with bufs := f }) : tailGate m Kind.rect = false := by
  obtain ⟨f, hf⟩ := h
  simp [tailGate, hf, hbbox]

theorem gate_off_text {self : GstDsOsdCoord} (htext : self.draw_text = false) (m : Exec)
    (h : ∃ f, m.self = { self with bufs := f }) : tailGate m Kind.text = false := by
  obtain ⟨f, hf⟩ := h
  simp [tailGate, hf, htext]

/-- Claim C7, counterexample. The instance has processed one frame with a
masked object while `draw_mask` was enabled (stored `num_segments` = 1), then
`draw_mask` is disabled; the next frame fails at `gst_buffer_map`. Afterwards
`num_segments` is still 1, not 0. -/
theorem C7_counterexample :
    selfAfterMaskFrame.draw_mask = false ∧
    (gst_ds_osdcoord_transform_ip envNoMap selfAfterMaskFrame
        (frameOf [objMasked] [])).self.num_segments = 1 := by
  decide

/-- Claim C7, amended. If `draw_mask` is disabled before the frame is
processed, then whatever mask data the object annotations carry: no call to
the segment-mask draw entry point is made, nothing is written to
`mask_rect_params` or `mask_params`, `segment_cnt` is never assigned (it stays
0), and, whenever the two scans complete (in particular whenever the frame
returns `GST_FLOW_OK`), `num_segments` is 0 afterwards. A frame that returns
before the stored counts are written leaves `num_segments` as it was. -/
theorem C7_mask_disabled (env : Env) (self : GstDsOsdCoord) (buf : GstBuffer)
    (hmask : self.draw_mask = false) :
    drawsOf Kind.segment (gst_ds_osdcoord_transform_ip env self buf).trace = [] ∧
    (∀ i, Event.write Buf.mask_rect_params i ∉ (gst_ds_osdcoord_transform_ip env self buf).trace
      ∧ Event.write Buf.mask_params i ∉ (gst_ds_osdcoord_transform_ip env self buf).trace) ∧
    (∀ v, Event.count Kind.segment v ∉ (gst_ds_osdcoord_transform_ip env self buf).trace) ∧
    (∀ m, env.gst_buffer_map = true → env.cudaSetDevice = true →
      scans env self buf = Flow.next m →
      (gst_ds_osdcoord_transform_ip env self buf).self.num_segments = 0) ∧
    ((gst_ds_osdcoord_transform_ip env self buf).ret = GstFlowReturn.GST_FLOW_OK →
      (gst_ds_osdcoord_transform_ip env self buf).self.num_segments = 0) := by
  have hnil := scanItems_segment env self buf hmask
  have hun := untouched_of_gate_off env self buf Kind.segment (gate_off_segment hmask) hnil
  have hscan : ∀ m, env.gst_buffer_map = true → env.cudaSetDevice = true →
      scans env self buf = Flow.next m →
      (gst_ds_osdcoord_transform_ip env self buf).self.num_segments = 0 := by
    intro m hmap hbind hs
    obtain ⟨hg, _, h2, _⟩ := stored_of_scans env self buf m hmap hbind hs
    rw [h2, hg.cnt_eq, hnil]
    rfl
  refine ⟨?_, ?_, ?_, hscan, ?_⟩
  · exact no_draws_of_gate_off env self buf Kind.segment (gate_off_segment hmask)
      (by rw [hnil]; decide)
  · intro i
    constructor
    · intro h
      have := hun _ h
      simp [Event.touches, paramsBuf] at this
    · intro h
      have := hun _ h
      simp [Event.touches, paramsBuf] at this
  · intro v h
    have := hun _ h
    simp [Event.touches] at this
  · intro hret
    obtain ⟨hmap, hbind, m, hs⟩ := scans_of_ok env self buf hret
    exact hscan m hmap hbind hs

/-- Claim C8, counterexample. With `draw_bbox` disabled and every call
succeeding, a frame with one display group carrying one rect writes that rect
into `rect_params[0]` and sets `rect_cnt` to 1; the stored `num_rect` is 1. -/
theorem C8_counterexample :
    selfNoBbox.draw_bbox = false ∧
    (gst_ds_osdcoord_transform_ip envOk selfNoBbox (frameOf [] [groupOneRect])).trace
      = [Event.write Buf.rect_params 0, Event.count Kind.rect 1] ∧
    (gst_ds_osdcoord_transform_ip envOk selfNoBbox
        (frameOf [] [groupOneRect])).self.num_rect = 1 := by
  decide

/-- Claim C8, amended. If `draw_bbox` is disabled before the frame is
processed, the object-annotation scan appends nothing to the rect accumulator:
in a frame without display-annotation rects nothing is written to
`rect_params`, `rect_cnt` is never assigned and no rectangle draw call is made,
whatever the object annotations. Rects of display-annotation groups are still
appended; when the groups carry fewer than 1024 rects in total, no call to the
rectangle draw entry point is made. -/
theorem C8_bbox_disabled (env : Env) (self : GstDsOsdCoord) (buf : GstBuffer)
    (hbbox : self.draw_bbox = false) :
    ((displayRects (displayList buf)).length < MAX_OSD_ELEMS →
      drawsOf Kind.rect (gst_ds_osdcoord_transform_ip env self buf).trace = []) ∧
    (displayRects (displayList buf) = [] →
      (∀ i, Event.write Buf.rect_params i ∉ (gst_ds_osdcoord_transform_ip env self buf).trace)
      ∧ (∀ v, Event.count Kind.rect v ∉ (gst_ds_osdcoord_transform_ip env self buf).trace)) := by
  have hit : scanItems env self buf Kind.rect
      = (displayRects (displayList buf)).map Prim.rect := by
    rw [scanItems_rect]; simp [hbbox]
  constructor
  · intro hlt
    exact no_draws_of_gate_off env self buf Kind.rect (gate_off_rect hbbox)
      (by rw [hit]; simpa using hlt)
  · intro hnil
    have hun := untouched_of_gate_off env self buf Kind.rect (gate_off_rect hbbox)
      (by rw [hit, hnil]; rfl)
    constructor
    · intro i h
      have := hun _ h
      simp [Event.touches, paramsBuf] at this
    · intro v h
      have := hun _ h
      simp [Event.touches] at this

/-- Claim C9, counterexample. With `draw_text` disabled and every call
succeeding, a frame with one object annotation that carries display text
writes the text into `text_params[0]` and sets `text_cnt` to 1; the stored
`num_strings` is 1. -/
theorem C9_counterexample :
    selfNoText.draw_text = false ∧
    (gst_ds_osdcoord_transform_ip envOk selfNoText (frameOf [objLabelled] [])).trace
      = [Event.write Buf.rect_params 0, Event.count Kind.rect 1,
         Event.write Buf.text_params 0, Event.count Kind.text 1,
         Event.draw { entry := Kind.rect, num := 1, params_list := [Prim.rect rectA],
                      mask_params_list := [], mode := NvOSD_Mode.MODE_GPU }] ∧
    (gst_ds_osdcoord_transform_ip envOk selfNoText
        (frameOf [objLabelled] [])).self.num_strings = 1 := by
  decide

/-- Claim C9, amended. If `draw_text` is disabled before the frame is
processed, text is still appended to the text accumulator (`text_cnt` counts
the object annotations and display labels that carry display text), but when
fewer than 1024 of them carry display text in total no call to the text draw
entry point is made, with or without the clock; and in a frame where none
carries display text nothing is written to `text_params` and `text_cnt` is
never assigned. -/
theorem C9_text_disabled (env : Env) (self : GstDsOsdCoord) (buf : GstBuffer)
    (htext : self.draw_text = false) :
    ((textObjects (objList buf)).length + (displayLabels (displayList buf)).length
        < MAX_OSD_ELEMS →
      drawsOf Kind.text (gst_ds_osdcoord_transform_ip env self buf).trace = []) ∧
    (textObjects (objList buf) = [] → displayLabels (displayList buf) = [] →
      (∀ i, Event.write Buf.text_params i ∉ (gst_ds_osdcoord_transform_ip env self buf).trace)
      ∧ (∀ v, Event.count Kind.text v ∉ (gst_ds_osdcoord_transform_ip env self buf).trace)) := by
  have hit := scanItems_text env self buf
  constructor
  · intro hlt
    exact no_draws_of_gate_off env self buf Kind.text (gate_off_text htext)
      (by rw [hit]; simpa using hlt)
  · intro h1 h2
    have hun := untouched_of_gate_off env self buf Kind.text (gate_off_text htext)
      (by rw [hit, h1, h2]; rfl)
    constructor
    · intro i h
      have := hun _ h
      simp [Event.touches, paramsBuf] at this
    · intro v h
      have := hun _ h
      simp [Event.touches] at this

/-! ## The capacity-triggered flush does not look at the enable flags -/

/-- With the tail block of kind `k` switched off and every call succeeding,
the draw calls of kind `k` are exactly the capacity-triggered ones: one call
carrying `MAX_OSD_ELEMS` primitives for every full `MAX_OSD_ELEMS` primitives
the scans appended. -/
theorem gate_off_capacity_calls (env : Env) (self : GstDsOsdCoord) (buf : GstBuffer) (k : Kind)
    (hok : AllOk env) (hmap : env.gst_buffer_map = true) (hbind : env.cudaSetDevice = true)
    (hgate : ∀ m : Exec, (∃ f, m.self = { self with bufs := f }) → tailGate m k = false) :
    (drawsOf k (gst_ds_osdcoord_transform_ip env self buf).trace).map DrawCall.num
      = List.replicate ((scanItems env self buf k).length / MAX_OSD_ELEMS) MAX_OSD_ELEMS := by
  obtain ⟨m, hs, hg, hret, hself, htr⟩ := run_allOk self buf hok hmap hbind
  rw [htr, nums_of_run hg k, hgate m hg.cfg]
  simp

/-- With `draw_bbox` disabled and every call succeeding, every full 1024
display-annotation rects still cause one rectangle draw call carrying 1024
rects; only the remainder is not drawn. -/
theorem bbox_disabled_capacity_dispatch (env : Env) (self : GstDsOsdCoord) (buf : GstBuffer)
    (hok : AllOk env) (hmap : env.gst_buffer_map = true) (hbind : env.cudaSetDevice = true)
    (hbbox : self.draw_bbox = false) :
    (drawsOf Kind.rect (gst_ds_osdcoord_transform_ip env self buf).trace).map DrawCall.num
      = List.replicate ((displayRects (displayList buf)).length / MAX_OSD_ELEMS)
          MAX_OSD_ELEMS := by
  rw [gate_off_capacity_calls env self buf Kind.rect hok hmap hbind (gate_off_rect hbbox),
    scanItems_rect]
  simp [hbbox]

/-- With `draw_text` disabled and every call succeeding, every full 1024
text-carrying object annotations and display labels still cause one text draw
call carrying 1024 strings; only the remainder is not drawn. -/
theorem text_disabled_capacity_dispatch (env : Env) (self : GstDsOsdCoord) (buf : GstBuffer)
    (hok : AllOk env) (hmap : env.gst_buffer_map = true) (hbind : env.cudaSetDevice = true)
    (htext : self.draw_text = false) :
    (drawsOf Kind.text (gst_ds_osdcoord_transform_ip env self buf).trace).map DrawCall.num
      = List.replicate (((textObjects (objList buf)).length
          + (displayLabels (displayList buf)).length) / MAX_OSD_ELEMS) MAX_OSD_ELEMS := by
  rw [gate_off_capacity_calls env self buf Kind.text hok hmap hbind (gate_off_text htext),
    scanItems_text]
  simp

/-! ## Instances of the theorems at concrete frames -/

theorem allOk_envOk : AllOk envOk := fun _ _ => rfl

theorem objList_frameOf (os : List NvDsObjectMeta) (ds : List NvDsDisplayMeta) :
    objList (frameOf os ds) = os := rfl

/-- Claim C1, instance: 1500 object annotations give two rectangle calls,
carrying 1024 and then 476 rects. -/
theorem C1_witness :
    AllOk envOk ∧ envOk.gst_buffer_map = true ∧ envOk.cudaSetDevice = true ∧
    (gst_ds_osdcoord_init false).draw_bbox = true ∧
    (objList (frameOf (List.replicate 1500 objBox) [])).length = 1500 ∧
    displayRects (displayList (frameOf (List.replicate 1500 objBox) [])) = [] ∧
    (drawsOf Kind.rect (gst_ds_osdcoord_transform_ip envOk (gst_ds_osdcoord_init false)
        (frameOf (List.replicate 1500 objBox) [])).trace).map DrawCall.num = [1024, 476] :=
  ⟨allOk_envOk, rfl, rfl, rfl, by rw [objList_frameOf]; exact List.length_replicate _ _, rfl,
    (C1_rect_dispatch_count envOk (gst_ds_osdcoord_init false)
      (frameOf (List.replicate 1500 objBox) []) 1500 allOk_envOk rfl rfl rfl
      (by rw [objList_frameOf]; exact List.length_replicate _ _) rfl).2.2 rfl⟩

/-- Claim C2, instance: a buffer whose only attached meta is a tagged batch
meta with one object rect and one display rect hands the backend exactly these
two rects, the object's first. -/
theorem C2_witness :
    AllOk envOk ∧ envOk.gst_buffer_map = true ∧ envOk.cudaSetDevice = true ∧
    (gst_ds_osdcoord_init false).draw_bbox = true ∧
    hwBlendActive envOk (gst_ds_osdcoord_init false) = false ∧
    (frameOf [objBox] [groupOneRect]).metas
      = [] ++ { has_tag := true, is_batch_gst_meta := true,
                meta_data := { obj_meta_list := [objBox],
                               display_meta_list := [groupOneRect] } } :: [] ∧
    payload Kind.rect (gst_ds_osdcoord_transform_ip envOk (gst_ds_osdcoord_init false)
        (frameOf [objBox] [groupOneRect])).trace
      = [Prim.rect objBox.rect_params, Prim.rect rectA] :=
  ⟨allOk_envOk, rfl, rfl, rfl, rfl, rfl,
    ((C2_rect_payload_complete envOk (gst_ds_osdcoord_init false)
      (frameOf [objBox] [groupOneRect]) allOk_envOk rfl rfl rfl rfl).2.1 []
      { has_tag := true, is_batch_gst_meta := true,
        meta_data := { obj_meta_list := [objBox], display_meta_list := [groupOneRect] } }
      [] rfl (by simp) rfl).trans rfl⟩

/-- Claim C5, instance: a mapped, bound frame in which no draw call fails
returns `GST_FLOW_OK`. -/
theorem C5_witness :
    envOk.gst_buffer_map = true ∧ envOk.cudaSetDevice = true ∧
    (gst_ds_osdcoord_transform_ip envOk (gst_ds_osdcoord_init false)
        (frameOf [objBox] [])).ret = GstFlowReturn.GST_FLOW_OK :=
  ⟨rfl, rfl,
    (C5_draw_failure_aborts envOk (gst_ds_osdcoord_init false) (frameOf [objBox] [])
      rfl rfl).2 (fun _ _ _ _ => rfl)⟩

/-- Claim C6, instance: the scans of a one-object frame complete and the frame
returns `GST_FLOW_OK`. -/
theorem C6_witness :
    AllOk envOk ∧ envOk.gst_buffer_map = true ∧ envOk.cudaSetDevice = true ∧
    ∃ m, scans envOk (gst_ds_osdcoord_init false) (frameOf [objBox] []) = Flow.next m ∧
      (gst_ds_osdcoord_transform_ip envOk (gst_ds_osdcoord_init false)
        (frameOf [objBox] [])).ret = GstFlowReturn.GST_FLOW_OK :=
  ⟨allOk_envOk, rfl, rfl,
    (C6_tail_flush_order envOk (gst_ds_osdcoord_init false) (frameOf [objBox] [])
      allOk_envOk rfl rfl).elim (fun m h => ⟨m, h.1, h.2.1⟩)⟩

/-- Claim C7, instance: with `draw_mask` disabled a masked object causes no
segment-mask call. -/
theorem C7_witness :
    (gst_ds_osdcoord_init false).draw_mask = false ∧
    drawsOf Kind.segment (gst_ds_osdcoord_transform_ip envOk (gst_ds_osdcoord_init false)
        (frameOf [objMasked] [])).trace = [] :=
  ⟨rfl, (C7_mask_disabled envOk (gst_ds_osdcoord_init false) (frameOf [objMasked] []) rfl).1⟩

/-- Claim C8, instance: with `draw_bbox` disabled one object and one display
rect cause no rectangle call. -/
theorem C8_witness :
    selfNoBbox.draw_bbox = false ∧
    (displayRects (displayList (frameOf [objBox] [groupOneRect]))).length < MAX_OSD_ELEMS ∧
    drawsOf Kind.rect (gst_ds_osdcoord_transform_ip envOk selfNoBbox
        (frameOf [objBox] [groupOneRect])).trace = [] :=
  ⟨rfl, by decide,
    (C8_bbox_disabled envOk selfNoBbox (frameOf [objBox] [groupOneRect]) rfl).1 (by decide)⟩

/-- Claim C9, instance: with `draw_text` disabled one labelled object causes
no text call. -/
theorem C9_witness :
    selfNoText.draw_text = false ∧
    (textObjects (objList (frameOf [objLabelled] []))).length
      + (displayLabels (displayList (frameOf [objLabelled] []))).length < MAX_OSD_ELEMS ∧
    drawsOf Kind.text (gst_ds_osdcoord_transform_ip envOk selfNoText
        (frameOf [objLabelled] [])).trace = [] :=
  ⟨rfl, by decide,
    (C9_text_disabled envOk selfNoText (frameOf [objLabelled] []) rfl).1 (by decide)⟩

/-! ## Reading one field of an attribute string -/

theorem isdigit_not_space {c : Char} (h : isdigit c = true) : isspace c = false := by
  cases hs : isspace c with
  | false => rfl
  | true =>
    exfalso
    simp only [isspace, Bool.or_eq_true, decide_eq_true_eq] at hs
    rcases hs with ((((hs | hs) | hs) | hs) | hs) | hs
    · subst hs; revert h; decide
    · subst hs; revert h; decide
    · subst hs; revert h; decide
    · subst hs; revert h; decide
    · simp [isdigit, hs] at h
    · simp [isdigit, hs] at h

theorem isdigit_ne {c d : Char} (h : isdigit c = true) (hd : isdigit d = false) : c ≠ d := by
  intro hcd
  subst hcd
  rw [h] at hd
  exact Bool.noConfusion hd

theorem scanDigits_digits (ds rest : List Char) (acc n : Nat)
    (h : ds.all isdigit = true) :
    scanDigits (ds ++ rest) acc n
      = scanDigits rest (ds.foldl (fun a c => a * 10 + digitVal c) acc) (n + ds.length) := by
  induction ds generalizing acc n with
  | nil => rfl
  | cons d ds ih =>
    simp only [List.all_cons, Bool.and_eq_true] at h
    have hstep : scanDigits (d :: (ds ++ rest)) acc n
        = scanDigits (ds ++ rest) (acc * 10 + digitVal d) (n + 1) := by
      simp [scanDigits, h.1]
    rw [List.cons_append, hstep, ih _ _ h.2, List.foldl_cons, List.length_cons]
    congr 1
    omega

theorem scanDigits_stop (c : Char) (rest : List Char) (acc n : Nat)
    (h : isdigit c = false) : scanDigits (c :: rest) acc n = (acc, n, c :: rest) := by
  simp [scanDigits, h]

theorem scanDigits_field {ds rest : List Char} (acc n : Nat) (h : ds.all isdigit = true)
    (hr : rest = [] ∨ ∃ c r, rest = c :: r ∧ isdigit c = false) :
    scanDigits (ds ++ rest) acc n
      = (ds.foldl (fun a c => a * 10 + digitVal c) acc, n + ds.length, rest) := by
  rw [scanDigits_digits ds rest acc n h]
  rcases hr with hr | ⟨c, r, hr, hc⟩
  · subst hr; rfl
  · subst hr; exact scanDigits_stop c r _ _ hc

theorem skipSpace_digit {d : Char} (r : List Char) (h : isdigit d = true) :
    skipSpace (d :: r) = d :: r := by
  simp [skipSpace, isdigit_not_space h]

theorem atoi_field {ds rest : List Char} (hne : ds ≠ []) (h : ds.all isdigit = true)
    (hr : rest = [] ∨ ∃ c r, rest = c :: r ∧ isdigit c = false) :
    atoi (ds ++ rest) = (natValue ds : Int) := by
  cases ds with
  | nil => exact (hne rfl).elim
  | cons d ds =>
    have hd : isdigit d = true := by
      simp only [List.all_cons, Bool.and_eq_true] at h; exact h.1
    have hval : (scanDigits (d :: ds ++ rest) 0 0).1 = natValue (d :: ds) := by
      rw [scanDigits_field 0 0 h hr]; rfl
    unfold atoi
    rw [List.cons_append, skipSpace_digit _ hd]
    split
    · rename_i r heq
      injection heq with h1 h2
      exact (isdigit_ne hd (by decide) h1).elim
    · rename_i r heq
      injection heq with h1 h2
      exact (isdigit_ne hd (by decide) h1).elim
    · rw [← List.cons_append, hval]

theorem atofUnsigned_field (t : ChannelText) {rest : List Char} (hwf : t.wf = true)
    (hr : rest = [] ∨ ∃ c r, rest = c :: r ∧ isdigit c = false ∧ c ≠ '.') :
    atofUnsigned (t.text ++ rest) = t.value := by
  obtain ⟨ip, fp⟩ := t
  simp only [ChannelText.wf, Bool.and_eq_true, Bool.not_eq_true'] at hwf
  obtain ⟨⟨_, hip⟩, hfp⟩ := hwf
  cases fp with
  | none =>
    have hr2 : rest = [] ∨ ∃ c r, rest = c :: r ∧ isdigit c = false := by
      rcases hr with h | ⟨c, r, h1, h2, _⟩
      · exact Or.inl h
      · exact Or.inr ⟨c, r, h1, h2⟩
    simp only [ChannelText.text, ChannelText.value]
    unfold atofUnsigned
    rw [scanDigits_field 0 0 hip hr2]
    rcases hr with h | ⟨c, r, h1, _, h3⟩
    · subst h; rfl
    · subst h1
      split
      · rename_i heq
        simp only [Prod.mk.injEq] at heq
        obtain ⟨_, _, h5⟩ := heq
        injection h5 with h6 _
        exact (h3 h6).elim
      · rename_i heq
        simp only [Prod.mk.injEq] at heq
        obtain ⟨h4, _, _⟩ := heq
        rw [← h4]; rfl
  | some f =>
    have hr2 : rest = [] ∨ ∃ c r, rest = c :: r ∧ isdigit c = false := by
      rcases hr with h | ⟨c, r, h1, h2, _⟩
      · exact Or.inl h
      · exact Or.inr ⟨c, r, h1, h2⟩
    simp only [ChannelText.text, ChannelText.value]
    unfold atofUnsigned
    have h1 : scanDigits (ip ++ '.' :: f ++ rest) 0 0
        = (natValue ip, 0 + ip.length, '.' :: (f ++ rest)) := by
      rw [List.append_assoc, List.cons_append]
      exact scanDigits_field 0 0 hip (Or.inr ⟨'.', f ++ rest, rfl, by decide⟩)
    rw [h1]
    simp only
    rw [scanDigits_field (natValue ip) 0 hfp hr2]
    simp only [natValue, List.foldl_append, Nat.zero_add]

theorem atof_field (t : ChannelText) {rest : List Char} (hwf : t.wf = true)
    (hr : rest = [] ∨ ∃ c r, rest = c :: r ∧ isdigit c = false ∧ c ≠ '.') :
    atof (t.text ++ rest) = t.value := by
  have hun := atofUnsigned_field t hwf hr
  obtain ⟨ip, fp⟩ := t
  have hwf2 := hwf
  simp only [ChannelText.wf, Bool.and_eq_true, Bool.not_eq_true'] at hwf2
  obtain ⟨⟨hne, hip⟩, _⟩ := hwf2
  cases ip with
  | nil => simp at hne
  | cons d ds =>
    have hd : isdigit d = true := by
      simp only [List.all_cons, Bool.and_eq_true] at hip; exact hip.1
    have htext : ∃ tl, (ChannelText.mk (d :: ds) fp).text ++ rest = d :: tl := by
      cases fp <;> simp [ChannelText.text]
    obtain ⟨tl, htl⟩ := htext
    rw [htl] at hun ⊢
    unfold atof
    rw [skipSpace_digit _ hd]
    split
    · rename_i r heq
      injection heq with h1 h2
      exact (isdigit_ne hd (by decide) h1).elim
    · rename_i r heq
      injection heq with h1 h2
      exact (isdigit_ne hd (by decide) h1).elim
    · exact hun

theorem strstrChar_skip (c : Char) (t rest : List Char) (h : ∀ x ∈ t, x ≠ c) :
    strstrChar c (t ++ rest) = strstrChar c rest := by
  induction t with
  | nil => rfl
  | cons x t ih =>
    have hx : x ≠ c := h x (by simp)
    rw [List.cons_append]
    simp only [strstrChar, hx, if_false]
    exact ih (fun y hy => h y (by simp [hy]))

theorem strstrChar_hit (c : Char) (rest : List Char) :
    strstrChar c (c :: rest) = some (c :: rest) := by
  simp [strstrChar]

theorem afterComma_field (t rest : List Char) (h : ∀ x ∈ t, x ≠ ',') :
    afterComma (t ++ ',' :: rest) = some rest := by
  unfold afterComma
  rw [strstrChar_skip ',' t _ h, strstrChar_hit]
  rfl

theorem digits_no_sep {ds : List Char} (h : ds.all isdigit = true) (c : Char)
    (hc : isdigit c = false) : ∀ x ∈ ds, x ≠ c := by
  intro x hx
  exact isdigit_ne (List.all_eq_true.mp h x hx) hc

theorem channel_no_sep (t : ChannelText) (hwf : t.wf = true) (c : Char)
    (hc : isdigit c = false) (hdot : c ≠ '.') : ∀ x ∈ t.text, x ≠ c := by
  obtain ⟨ip, fp⟩ := t
  simp only [ChannelText.wf, Bool.and_eq_true, Bool.not_eq_true'] at hwf
  obtain ⟨⟨_, hip⟩, hfp⟩ := hwf
  cases fp with
  | none =>
    simp only [ChannelText.text]
    exact digits_no_sep hip c hc
  | some f =>
    simp only [ChannelText.text]
    intro x hx
    rcases List.mem_append.mp hx with hx | hx
    · exact digits_no_sep hip c hc x hx
    · rcases List.mem_cons.mp hx with hx | hx
      · rw [hx]; exact fun h => hdot h.symm
      · exact digits_no_sep hfp c hc x hx

/-! ## One iteration of the parser loop and the whole loop -/

theorem parseLoop_step (MAX_BG_CLR fuel idx : Nat) (self : GstDsOsdCoord) (q : Quintuple)
    (tl : List Char) (hwf : q.wf = true) (hid : natValue q.id < MAX_BG_CLR)
    (htl : tl = [] ∨ ∃ r, tl = ':' :: r) :
    parseLoop MAX_BG_CLR (fuel + 1) (some (q.text ++ tl)) idx self
      = if MAX_BG_CLR ≤ idx + 1 then
          ParseResult.returned { storeEntry self idx q with num_class_entries := idx + 1 }
        else parseLoop MAX_BG_CLR fuel (restAfter tl)
          (idx + 1) (storeEntry self idx q) := by
  obtain ⟨id, r, g, b, a⟩ := q
  simp only [Quintuple.wf, Bool.and_eq_true, Bool.not_eq_true'] at hwf
  obtain ⟨⟨⟨⟨⟨hne, hidd⟩, hr⟩, hg⟩, hb⟩, ha⟩ := hwf
  cases id with
  | nil => simp at hne
  | cons d ds =>
    have htl2 : tl = [] ∨ ∃ c r, tl = c :: r ∧ isdigit c = false ∧ c ≠ '.' := by
      rcases htl with h | ⟨r, h⟩
      · exact Or.inl h
      · exact Or.inr ⟨':', r, h, by decide, by decide⟩
    have e0 : Quintuple.text ⟨d :: ds, r, g, b, a⟩ ++ tl
        = d :: (ds ++ ',' :: (r.text ++ ',' :: (g.text ++ ',' :: (b.text ++ ',' ::
            (a.text ++ tl))))) := by
      simp [Quintuple.text]
    have hatoi : atoi (d :: (ds ++ ',' :: (r.text ++ ',' :: (g.text ++ ',' :: (b.text ++ ',' ::
        (a.text ++ tl)))))) = (natValue (d :: ds) : Int) := by
      rw [← List.cons_append]
      exact atoi_field (by simp) hidd (Or.inr ⟨',', _, rfl, by decide⟩)
    have hc0 : afterComma (d :: (ds ++ ',' :: (r.text ++ ',' :: (g.text ++ ',' ::
        (b.text ++ ',' :: (a.text ++ tl))))))
        = some (r.text ++ ',' :: (g.text ++ ',' :: (b.text ++ ',' :: (a.text ++ tl)))) := by
      rw [← List.cons_append]
      exact afterComma_field _ _ (digits_no_sep hidd ',' (by decide))
    have hf1 : atof (r.text ++ ',' :: (g.text ++ ',' :: (b.text ++ ',' :: (a.text ++ tl))))
        = r.value := atof_field r hr (Or.inr ⟨',', _, rfl, by decide, by decide⟩)
    have hc1 : afterComma (r.text ++ ',' :: (g.text ++ ',' :: (b.text ++ ',' ::
        (a.text ++ tl)))) = some (g.text ++ ',' :: (b.text ++ ',' :: (a.text ++ tl))) :=
      afterComma_field _ _ (channel_no_sep r hr ',' (by decide) (by decide))
    have hf2 : atof (g.text ++ ',' :: (b.text ++ ',' :: (a.text ++ tl))) = g.value :=
      atof_field g hg (Or.inr ⟨',', _, rfl, by decide, by decide⟩)
    have hc2 : afterComma (g.text ++ ',' :: (b.text ++ ',' :: (a.text ++ tl)))
        = some (b.text ++ ',' :: (a.text ++ tl)) :=
      afterComma_field _ _ (channel_no_sep g hg ',' (by decide) (by decide))
    have hf3 : atof (b.text ++ ',' :: (a.text ++ tl)) = b.value :=
      atof_field b hb (Or.inr ⟨',', _, rfl, by decide, by decide⟩)
    have hc3 : afterComma (b.text ++ ',' :: (a.text ++ tl)) = some (a.text ++ tl) :=
      afterComma_field _ _ (channel_no_sep b hb ',' (by decide) (by decide))
    have hf4 : atof (a.text ++ tl) = a.value := atof_field a ha htl2
    have hcolon : (strstrChar ':' (a.text ++ tl)).map List.tail
        = (restAfter tl) := by
      rw [strstrChar_skip ':' a.text tl (channel_no_sep a ha ':' (by decide) (by decide))]
      rcases htl with h | ⟨r, h⟩
      · subst h; rfl
      · subst h; simp [strstrChar, restAfter]
    have hlt : ¬ ((MAX_BG_CLR : Int) ≤ (natValue (d :: ds) : Int)) := by
      simp only [Quintuple.id] at hid
      omega
    rw [e0, parseLoop]
    simp only [hatoi, hlt, if_false, hc0, hf1, hc1, hf2, hc2, hf3, hc3, hf4, hcolon]
    rfl

theorem attrString_cons (q : Quintuple) (qs : List Quintuple) :
    attrString (q :: qs) = q.text ++ sepTail qs := by
  cases qs with
  | nil => simp [attrString, sepTail]
  | cons q2 qs => rfl

theorem sepTail_shape (qs : List Quintuple) :
    sepTail qs = [] ∨ ∃ r, sepTail qs = ':' :: r := by
  cases qs with
  | nil => exact Or.inl rfl
  | cons q qs => exact Or.inr ⟨_, rfl⟩

theorem storeEntry_same (self : GstDsOsdCoord) (idx : Nat) (q : Quintuple) :
    (storeEntry self idx q).color_info idx = q.entry := by
  simp [storeEntry, setColorInfo, Quintuple.entry]

theorem storeEntry_other (self : GstDsOsdCoord) (idx : Nat) (q : Quintuple) {j : Nat}
    (h : j ≠ idx) : (storeEntry self idx q).color_info j = self.color_info j := by
  simp [storeEntry, setColorInfo, h]

theorem parseLoop_null (MAX_BG_CLR fuel idx : Nat) (self : GstDsOsdCoord) :
    parseLoop MAX_BG_CLR fuel none idx self
      = ParseResult.returned { self with num_class_entries := idx } := by
  cases fuel <;> rfl

theorem parseLoop_empty (MAX_BG_CLR fuel idx : Nat) (self : GstDsOsdCoord) :
    parseLoop MAX_BG_CLR fuel (some []) idx self
      = ParseResult.returned { self with num_class_entries := idx } := by
  cases fuel <;> rfl

theorem text_length_pos (q : Quintuple) : 0 < q.text.length := by
  simp [Quintuple.text]

theorem parseLoop_attr (MAX_BG_CLR : Nat) (qs : List Quintuple) :
    ∀ (fuel idx : Nat) (self : GstDsOsdCoord), qs ≠ [] → idx < MAX_BG_CLR →
      (∀ q ∈ qs, q.wf = true ∧ natValue q.id < MAX_BG_CLR) →
      (attrString qs).length ≤ fuel →
      ∃ st, parseLoop MAX_BG_CLR fuel (some (attrString qs)) idx self
          = ParseResult.returned st ∧
        st.num_class_entries = min (idx + qs.length) MAX_BG_CLR ∧
        (∀ j, j < idx → st.color_info j = self.color_info j) ∧
        (∀ i q, qs[i]? = some q → idx + i < MAX_BG_CLR →
          st.color_info (idx + i) = q.entry) := by
  induction qs with
  | nil => intro fuel idx self h; exact (h rfl).elim
  | cons q rest ih =>
    intro fuel idx self _ hidx hwf hfuel
    have hq := hwf q (by simp)
    rw [attrString_cons] at hfuel ⊢
    have hpos := text_length_pos q
    cases fuel with
    | zero =>
      simp only [List.length_append] at hfuel
      omega
    | succ fuel =>
      rw [parseLoop_step MAX_BG_CLR fuel idx self q (sepTail rest) hq.1 hq.2
        (sepTail_shape rest)]
      by_cases hfull : MAX_BG_CLR ≤ idx + 1
      · rw [if_pos hfull]
        refine ⟨_, rfl, ?_, ?_, ?_⟩
        · simp only [List.length_cons]; omega
        · intro j hj
          exact storeEntry_other self idx q (by omega)
        · intro i q2 hi hlt
          have hi0 : i = 0 := by omega
          subst hi0
          simp only [List.getElem?_cons_zero, Option.some.injEq] at hi
          subst hi
          exact storeEntry_same self idx q
      · rw [if_neg hfull]
        cases rest with
        | nil =>
          simp only [sepTail, restAfter]
          rw [parseLoop_null]
          refine ⟨_, rfl, ?_, ?_, ?_⟩
          · simp only [List.length_cons, List.length_nil]; omega
          · intro j hj
            exact storeEntry_other self idx q (by omega)
          · intro i q2 hi hlt
            cases i with
            | zero =>
              simp only [List.getElem?_cons_zero, Option.some.injEq] at hi
              subst hi
              exact storeEntry_same self idx q
            | succ i => simp at hi
        | cons q2 rs =>
          simp only [sepTail, restAfter]
          have hfuel2 : (attrString (q2 :: rs)).length ≤ fuel := by
            simp only [sepTail, List.length_append, List.length_cons] at hfuel
            omega
          obtain ⟨st, hst, hnum, hkeep, hent⟩ := ih fuel (idx + 1) (storeEntry self idx q)
            (by simp) (by omega) (fun x hx => hwf x (by simp [hx])) hfuel2
          refine ⟨st, hst, ?_, ?_, ?_⟩
          · rw [hnum]; simp only [List.length_cons]; omega
          · intro j hj
            rw [hkeep j (by omega)]
            exact storeEntry_other self idx q (by omega)
          · intro i q3 hi hlt
            cases i with
            | zero =>
              simp only [List.getElem?_cons_zero, Option.some.injEq] at hi
              subst hi
              rw [Nat.add_zero, hkeep idx (by omega)]
              exact storeEntry_same self idx q
            | succ i =>
              simp only [List.getElem?_cons_succ] at hi
              have := hent i q3 hi (by omega)
              rw [show idx + (i + 1) = idx + 1 + i by omega]
              exact this

/-- Claim C10. For every attribute string made of `N >= 0` well-formed
quintuples `id,r,g,b,a` separated by `:` in which every id is below
`MAX_BG_CLR`, the parser returns normally with
`num_class_entries = min N MAX_BG_CLR`, and for every `i` below that number
`color_info[i]` holds the id and the red, green, blue and alpha values of the
`i`-th quintuple; a string with more than `MAX_BG_CLR` quintuples is cut to
the first `MAX_BG_CLR` and is not a failure. Channel values are the exact
decimal values of the text. -/
theorem C10_parse_well_formed (MAX_BG_CLR : Nat) (self : GstDsOsdCoord) (qs : List Quintuple)
    (hwf : ∀ q ∈ qs, q.wf = true ∧ natValue q.id < MAX_BG_CLR) :
    ∃ st, gst_ds_osdcoord_parse_hw_blend_color_attrs MAX_BG_CLR self (some (attrString qs))
        = ParseResult.returned st ∧
      st.num_class_entries = min qs.length MAX_BG_CLR ∧
      (∀ i q, qs[i]? = some q → i < MAX_BG_CLR → st.color_info i = q.entry) := by
  unfold gst_ds_osdcoord_parse_hw_blend_color_attrs
  cases qs with
  | nil =>
    refine ⟨{ self with num_class_entries := 0 }, ?_, ?_, ?_⟩
    · simp only [attrString]
      exact parseLoop_empty MAX_BG_CLR _ 0 self
    · simp
    · intro i q hi; simp at hi
  | cons q rest =>
    have hq := hwf q (by simp)
    obtain ⟨st, hst, hnum, _, hent⟩ := parseLoop_attr MAX_BG_CLR (q :: rest)
      ((some (attrString (q :: rest))).getD []).length 0 self (by simp) (by omega) hwf
      (Nat.le_refl _)
    refine ⟨st, hst, ?_, ?_⟩
    · rw [hnum, Nat.zero_add]
    · intro i q2 hi hlt
      have := hent i q2 hi (by omega)
      rwa [Nat.zero_add] at this

/-- Claim C10, instance: the compiled-in default string has four well-formed
quintuples with ids below 20 and parses into four entries. -/
theorem C10_witness :
    (∀ q ∈ defaultQuintuples, q.wf = true ∧ natValue q.id < 20) ∧
    attrString defaultQuintuples = DEFAULT_CLR ∧
    ∃ st, gst_ds_osdcoord_parse_hw_blend_color_attrs 20 (gst_ds_osdcoord_init false)
        (some (attrString defaultQuintuples)) = ParseResult.returned st ∧
      st.num_class_entries = min defaultQuintuples.length 20 ∧
      (∀ i q, defaultQuintuples[i]? = some q → i < 20 → st.color_info i = q.entry) :=
  ⟨by decide, by decide,
    C10_parse_well_formed 20 (gst_ds_osdcoord_init false) defaultQuintuples (by decide)⟩

/-! ## The parser always ends -/

theorem strstrChar_length (ch : Char) : ∀ (s t : List Char),
    strstrChar ch s = some t → t.length ≤ s.length := by
  intro s
  induction s with
  | nil => intro t h; simp [strstrChar] at h
  | cons x xs ih =>
    intro t h
    by_cases hx : x = ch
    · simp only [strstrChar, hx, if_true, Option.some.injEq] at h
      rw [← h]
      simp
    · simp only [strstrChar, hx, if_false] at h
      have := ih t h
      simp only [List.length_cons]
      omega

theorem afterComma_length {s t : List Char} (h : afterComma s = some t) :
    t.length + 1 ≤ s.length := by
  unfold afterComma at h
  cases hs : strstrChar ',' s with
  | none => rw [hs] at h; simp at h
  | some u =>
    rw [hs] at h
    simp only [Option.map_some', Option.some.injEq] at h
    have hlen := strstrChar_length ',' s u hs
    have hne : u ≠ [] := by
      intro hu
      subst hu
      clear h hlen
      induction s with
      | nil => simp [strstrChar] at hs
      | cons x xs ih =>
        by_cases hx : x = ','
        · simp [strstrChar, hx] at hs
        · simp only [strstrChar, hx, if_false] at hs
          exact ih hs
    cases u with
    | nil => exact (hne rfl).elim
    | cons y ys =>
      simp only [List.tail_cons] at h
      rw [← h]
      simp only [List.length_cons] at hlen
      omega

theorem restColon_length (s : List Char) :
    (((strstrChar ':' s).map List.tail).getD []).length ≤ s.length := by
  cases hs : strstrChar ':' s with
  | none => simp
  | some u =>
    have hlen := strstrChar_length ':' s u hs
    simp only [Option.map_some', Option.getD_some]
    cases u with
    | nil => simp
    | cons y ys =>
      simp only [List.tail_cons]
      simp only [List.length_cons] at hlen
      omega

/-- With at least as much fuel as the string is long, the model of the parser
loop never runs out of fuel: every call returns, exits or crashes. -/
theorem parseLoop_total (MAX_BG_CLR : Nat) : ∀ (fuel : Nat) (str : Option (List Char))
    (idx : Nat) (self : GstDsOsdCoord), (str.getD []).length ≤ fuel →
    parseLoop MAX_BG_CLR fuel str idx self ≠ ParseResult.outOfFuel := by
  intro fuel
  induction fuel with
  | zero =>
    intro str idx self h
    cases str with
    | none => simp [parseLoop]
    | some s =>
      cases s with
      | nil => simp [parseLoop]
      | cons c cs => simp at h
  | succ n ih =>
    intro str idx self h
    cases str with
    | none => simp [parseLoop]
    | some s =>
      cases s with
      | nil => simp [parseLoop]
      | cons c cs =>
        simp only [Option.getD_some] at h
        rw [parseLoop]
        simp only
        by_cases h1 : (MAX_BG_CLR : Int) ≤ atoi (c :: cs)
        · simp only [h1, if_true]
          exact fun h => ParseResult.noConfusion h
        simp only [h1, if_false]
        cases e0 : afterComma (c :: cs) with
        | none => simp
        | some s1 =>
          simp only
          cases e1 : afterComma s1 with
          | none => simp
          | some s2 =>
            simp only
            cases e2 : afterComma s2 with
            | none => simp
            | some s3 =>
              simp only
              cases e3 : afterComma s3 with
              | none => simp
              | some s4 =>
                simp only
                by_cases h2 : MAX_BG_CLR ≤ idx + 1
                · simp only [h2, if_true]
                  exact fun h => ParseResult.noConfusion h
                · simp only [h2, if_false]
                  apply ih
                  have l0 := afterComma_length e0
                  have l1 := afterComma_length e1
                  have l2 := afterComma_length e2
                  have l3 := afterComma_length e3
                  have l4 := restColon_length s4
                  omega

/-- The parser never ends in the out-of-fuel state. -/
theorem parse_hw_blend_color_attrs_total (MAX_BG_CLR : Nat) (self : GstDsOsdCoord)
    (arr : Option (List Char)) :
    gst_ds_osdcoord_parse_hw_blend_color_attrs MAX_BG_CLR self arr
      ≠ ParseResult.outOfFuel :=
  parseLoop_total MAX_BG_CLR _ arr 0 self (Nat.le_refl _)

/-! ## Claim C11 -/

theorem parseLoop_step_exit (MAX_BG_CLR fuel idx : Nat) (self : GstDsOsdCoord)
    (q : Quintuple) (tl : List Char) (hwf : q.wf = true)
    (hid : MAX_BG_CLR ≤ natValue q.id) :
    parseLoop MAX_BG_CLR (fuel + 1) (some (q.text ++ tl)) idx self
      = ParseResult.exited (natValue q.id : Int) := by
  obtain ⟨id, r, g, b, a⟩ := q
  simp only [Quintuple.wf, Bool.and_eq_true, Bool.not_eq_true'] at hwf
  obtain ⟨⟨⟨⟨⟨hne, hidd⟩, _⟩, _⟩, _⟩, _⟩ := hwf
  cases id with
  | nil => simp at hne
  | cons d ds =>
    have e0 : Quintuple.text ⟨d :: ds, r, g, b, a⟩ ++ tl
        = d :: (ds ++ ',' :: (r.text ++ ',' :: (g.text ++ ',' :: (b.text ++ ',' ::
            (a.text ++ tl))))) := by
      simp [Quintuple.text]
    have hatoi : atoi (d :: (ds ++ ',' :: (r.text ++ ',' :: (g.text ++ ',' :: (b.text ++ ',' ::
        (a.text ++ tl)))))) = (natValue (d :: ds) : Int) := by
      rw [← List.cons_append]
      exact atoi_field (by simp) hidd (Or.inr ⟨',', _, rfl, by decide⟩)
    have hge : (MAX_BG_CLR : Int) ≤ (natValue (d :: ds) : Int) := by
      simp only [Quintuple.id] at hid
      omega
    rw [e0, parseLoop]
    simp only [hatoi, hge, if_true]

theorem contWith_shape (qs : List Quintuple) {tl : List Char}
    (h : tl = [] ∨ ∃ r, tl = ':' :: r) : contWith qs tl = [] ∨ ∃ r, contWith qs tl = ':' :: r := by
  cases qs with
  | nil => exact h
  | cons q qs => exact Or.inr ⟨_, rfl⟩

theorem contWith_append (a b : List Quintuple) (tl : List Char) :
    contWith (a ++ b) tl = contWith a (contWith b tl) := by
  induction a with
  | nil => rfl
  | cons q a ih => simp [contWith, ih]

theorem sepTail_eq_contWith (qs : List Quintuple) : sepTail qs = contWith qs [] := by
  induction qs with
  | nil => rfl
  | cons q qs ih =>
    show ':' :: attrString (q :: qs) = ':' :: (q.text ++ contWith qs [])
    rw [attrString_cons, ih]

theorem attrString_eq_contWith (q : Quintuple) (qs : List Quintuple) :
    attrString (q :: qs) = q.text ++ contWith qs [] := by
  rw [attrString_cons, sepTail_eq_contWith]

theorem contWith_length (qs : List Quintuple) (tl : List Char) :
    qs.length + tl.length ≤ (contWith qs tl).length := by
  induction qs with
  | nil => simp [contWith]
  | cons q qs ih =>
    simp only [contWith, List.length_cons, List.length_append]
    omega

theorem storeAll_cons (self : GstDsOsdCoord) (idx : Nat) (q : Quintuple)
    (qs : List Quintuple) :
    storeAll self idx (q :: qs) = storeAll (storeEntry self idx q) (idx + 1) qs := by
  rw [storeAll]

theorem parseLoop_run (MAX_BG_CLR : Nat) (qs : List Quintuple) :
    ∀ (q : Quintuple) (tl : List Char) (n idx : Nat) (self : GstDsOsdCoord),
      (∀ x ∈ q :: qs, x.wf = true ∧ natValue x.id < MAX_BG_CLR) →
      (tl = [] ∨ ∃ r, tl = ':' :: r) → idx + (qs.length + 1) ≤ MAX_BG_CLR →
      parseLoop MAX_BG_CLR (n + (qs.length + 1)) (some (q.text ++ contWith qs tl)) idx self
        = if MAX_BG_CLR ≤ idx + (qs.length + 1) then
            ParseResult.returned
              { storeAll self idx (q :: qs) with num_class_entries := idx + (qs.length + 1) }
          else parseLoop MAX_BG_CLR n (restAfter tl) (idx + (qs.length + 1))
            (storeAll self idx (q :: qs)) := by
  induction qs with
  | nil =>
    intro q tl n idx self hwf htl hle
    have hq := hwf q (by simp)
    simp only [List.length_nil, Nat.zero_add, contWith, storeAll]
    exact parseLoop_step MAX_BG_CLR n idx self q tl hq.1 hq.2 htl
  | cons q2 rest ih =>
    intro q tl n idx self hwf htl hle
    have hq := hwf q (by simp)
    simp only [List.length_cons] at hle ⊢
    have hstep := parseLoop_step MAX_BG_CLR (n + (rest.length + 1)) idx self q
      (contWith (q2 :: rest) tl) hq.1 hq.2 (contWith_shape _ htl)
    have hfuel : n + (rest.length + 1 + 1) = n + (rest.length + 1) + 1 := by omega
    rw [hfuel, hstep]
    have hnot : ¬ MAX_BG_CLR ≤ idx + 1 := by omega
    rw [if_neg hnot]
    have hr : restAfter (contWith (q2 :: rest) tl) = some (q2.text ++ contWith rest tl) := rfl
    rw [hr]
    rw [ih q2 tl n (idx + 1) (storeEntry self idx q)
      (fun x hx => hwf x (by simp at hx ⊢; exact Or.inr hx)) htl (by omega)]
    have e1 : idx + 1 + (rest.length + 1) = idx + (rest.length + 1 + 1) := by omega
    rw [e1, storeAll_cons self idx q (q2 :: rest)]

theorem text_length_ge (q : Quintuple) : 1 ≤ q.text.length := text_length_pos q

theorem storeAll_keep (qs : List Quintuple) : ∀ (self : GstDsOsdCoord) (idx j : Nat),
    j < idx → (storeAll self idx qs).color_info j = self.color_info j := by
  induction qs with
  | nil => intro self idx j _; rfl
  | cons q qs ih =>
    intro self idx j hj
    simp only [storeAll]
    rw [ih _ _ j (by omega)]
    exact storeEntry_other self idx q (by omega)

theorem storeAll_get (qs : List Quintuple) : ∀ (self : GstDsOsdCoord) (idx i : Nat)
    (q : Quintuple), qs[i]? = some q → (storeAll self idx qs).color_info (idx + i) = q.entry := by
  induction qs with
  | nil => intro self idx i q h; simp at h
  | cons q0 qs ih =>
    intro self idx i q h
    cases i with
    | zero =>
      simp only [List.getElem?_cons_zero, Option.some.injEq] at h
      subst h
      simp only [storeAll, Nat.add_zero]
      rw [storeAll_keep qs _ (idx + 1) idx (by omega)]
      exact storeEntry_same self idx q0
    | succ i =>
      simp only [List.getElem?_cons_succ] at h
      simp only [storeAll]
      have := ih (storeEntry self idx q0) (idx + 1) i q h
      rw [show idx + (i + 1) = idx + 1 + i by omega]
      exact this

/-- A class id at or above `MAX_BG_CLR` among the first `MAX_BG_CLR`
quintuples makes the parser exit. -/
theorem parse_exits_on_bad_id (MAX_BG_CLR : Nat) (self : GstDsOsdCoord)
    (pre post : List Quintuple) (q : Quintuple)
    (hpre : ∀ x ∈ pre, x.wf = true ∧ natValue x.id < MAX_BG_CLR)
    (hlen : pre.length < MAX_BG_CLR) (hwf : q.wf = true)
    (hbad : MAX_BG_CLR ≤ natValue q.id) :
    gst_ds_osdcoord_parse_hw_blend_color_attrs MAX_BG_CLR self
        (some (attrString (pre ++ q :: post)))
      = ParseResult.exited (natValue q.id : Int) := by
  unfold gst_ds_osdcoord_parse_hw_blend_color_attrs
  simp only [Option.getD_some]
  cases pre with
  | nil =>
    simp only [List.nil_append]
    rw [attrString_eq_contWith]
    have hpos := text_length_ge q
    obtain ⟨fuel, hfuel⟩ : ∃ fuel, (q.text ++ contWith post []).length = fuel + 1 :=
      ⟨(q.text ++ contWith post []).length - 1, by
        simp only [List.length_append]; omega⟩
    rw [hfuel]
    exact parseLoop_step_exit MAX_BG_CLR fuel 0 self q _ hwf hbad
  | cons p ps =>
    simp only [List.cons_append]
    rw [attrString_eq_contWith, contWith_append]
    have hl1 := contWith_length ps (contWith (q :: post) [])
    have hl2 : 2 ≤ (contWith (q :: post) []).length := by
      have := text_length_ge q
      simp only [contWith, List.length_cons, List.length_append]
      omega
    have hp := text_length_ge p
    obtain ⟨n, hn⟩ : ∃ n, (p.text ++ contWith ps (contWith (q :: post) [])).length
        = (n + 1) + (ps.length + 1) :=
      ⟨(p.text ++ contWith ps (contWith (q :: post) [])).length - (ps.length + 1) - 1, by
        simp only [List.length_append]; omega⟩
    rw [hn]
    simp only [List.length_cons] at hlen
    rw [parseLoop_run MAX_BG_CLR ps p (contWith (q :: post) []) (n + 1) 0 self hpre
      (Or.inr ⟨_, rfl⟩) (by omega)]
    have hnot : ¬ MAX_BG_CLR ≤ 0 + (ps.length + 1) := by omega
    rw [if_neg hnot]
    have hr : restAfter (contWith (q :: post) []) = some (q.text ++ contWith post []) := rfl
    rw [hr]
    exact parseLoop_step_exit MAX_BG_CLR n _ _ q _ hwf hbad

/-- Quintuples after the first `MAX_BG_CLR` are never read. -/
theorem parse_truncates (MAX_BG_CLR : Nat) (self : GstDsOsdCoord)
    (first rest : List Quintuple)
    (hfirst : ∀ x ∈ first, x.wf = true ∧ natValue x.id < MAX_BG_CLR)
    (hlen : first.length = MAX_BG_CLR) (hpos : 0 < MAX_BG_CLR) :
    gst_ds_osdcoord_parse_hw_blend_color_attrs MAX_BG_CLR self
        (some (attrString (first ++ rest)))
      = ParseResult.returned
          { storeAll self 0 first with num_class_entries := MAX_BG_CLR } := by
  unfold gst_ds_osdcoord_parse_hw_blend_color_attrs
  simp only [Option.getD_some]
  cases first with
  | nil => simp at hlen; omega
  | cons p ps =>
    simp only [List.cons_append]
    rw [attrString_eq_contWith, contWith_append]
    have hl1 := contWith_length ps (contWith rest [])
    have hp := text_length_ge p
    obtain ⟨n, hn⟩ : ∃ n, (p.text ++ contWith ps (contWith rest [])).length
        = n + (ps.length + 1) :=
      ⟨(p.text ++ contWith ps (contWith rest [])).length - (ps.length + 1), by
        simp only [List.length_append]; omega⟩
    rw [hn]
    simp only [List.length_cons] at hlen
    rw [parseLoop_run MAX_BG_CLR ps p (contWith rest []) n 0 self hfirst
      (contWith_shape rest (Or.inl rfl)) (by omega)]
    have hyes : MAX_BG_CLR ≤ 0 + (ps.length + 1) := by omega
    rw [if_pos hyes]
    simp only [Nat.zero_add, hlen]

/-- Claim C11, counterexample. With `MAX_BG_CLR = 20`, the well-formed string of
twenty quintuples with class id 0 followed by one quintuple with class id 99
contains a class id at or above `MAX_BG_CLR`, and the parser returns normally
with a table of twenty entries: the loop leaves after the twentieth entry and
never reads the id 99. -/
theorem C11_counterexample :
    (∀ q ∈ overlongQuintuples, q.wf = true) ∧
    qBad ∈ overlongQuintuples ∧ 20 ≤ natValue qBad.id ∧
    (gst_ds_osdcoord_parse_hw_blend_color_attrs 20 (gst_ds_osdcoord_init false)
        (some (attrString overlongQuintuples))).table
      = some (List.replicate 20
          { id := 0, color := { red := 0, green := 0, blue := 0, alpha := 0 } }) := by
  decide!

/-- Claim C11, amended. When one of the first `MAX_BG_CLR` quintuples of an
attribute string is well formed with a class id at or above `MAX_BG_CLR` (and
within the range of `int`), and the quintuples before it are well formed with
ids below `MAX_BG_CLR`, the parser ends in `exit` with that id and does not
return, whatever follows. Quintuples after the first `MAX_BG_CLR` are never
read: when the first `MAX_BG_CLR` quintuples are well formed with ids below
`MAX_BG_CLR`, the parser returns normally with `num_class_entries = MAX_BG_CLR`
and these entries stored, whatever class ids follow. -/
theorem C11_bad_id_exits (MAX_BG_CLR : Nat) (self : GstDsOsdCoord)
    (pre post : List Quintuple) (q : Quintuple)
    (hpre : ∀ x ∈ pre, x.wf = true ∧ natValue x.id < MAX_BG_CLR)
    (hlen : pre.length < MAX_BG_CLR) (hwf : q.wf = true)
    (hbad : MAX_BG_CLR ≤ natValue q.id) (_hint : natValue q.id < 2 ^ 31) :
    gst_ds_osdcoord_parse_hw_blend_color_attrs MAX_BG_CLR self
        (some (attrString (pre ++ q :: post)))
      = ParseResult.exited (natValue q.id : Int) ∧
    (∀ st, gst_ds_osdcoord_parse_hw_blend_color_attrs MAX_BG_CLR self
        (some (attrString (pre ++ q :: post))) ≠ ParseResult.returned st) ∧
    (∀ first rest : List Quintuple,
      (∀ x ∈ first, x.wf = true ∧ natValue x.id < MAX_BG_CLR) →
      first.length = MAX_BG_CLR →
      ∃ st, gst_ds_osdcoord_parse_hw_blend_color_attrs MAX_BG_CLR self
          (some (attrString (first ++ rest))) = ParseResult.returned st ∧
        st.num_class_entries = MAX_BG_CLR ∧
        (∀ i x, first[i]? = some x → st.color_info i = x.entry)) := by
  have hexit := parse_exits_on_bad_id MAX_BG_CLR self pre post q hpre hlen hwf hbad
  refine ⟨hexit, ?_, ?_⟩
  · intro st h
    rw [hexit] at h
    cases h
  · intro first rest hfirst hfl
    refine ⟨_, parse_truncates MAX_BG_CLR self first rest hfirst hfl (by omega), rfl, ?_⟩
    intro i x hi
    have := storeAll_get first self 0 i x hi
    rw [Nat.zero_add] at this
    exact this

/-- Claim C11, instance: with `MAX_BG_CLR = 20`, the string "0,0.0,0.0,0.0,0.0:"
followed by "99,0.0,0.0,0.0,0.0:0,0.0,0.0,0.0,0.0" makes the parser exit with
id 99. -/
theorem C11_witness :
    attrString ([qZero] ++ qBad :: [qZero])
      = "0,0.0,0.0,0.0,0.0:99,0.0,0.0,0.0,0.0:0,0.0,0.0,0.0,0.0".toList ∧
    gst_ds_osdcoord_parse_hw_blend_color_attrs 20 (gst_ds_osdcoord_init false)
        (some (attrString ([qZero] ++ qBad :: [qZero])))
      = ParseResult.exited 99 :=
  ⟨by decide,
    (C11_bad_id_exits 20 (gst_ds_osdcoord_init false) [qZero] [qZero] qBad (by decide)
      (by decide) (by decide) (by decide) (by decide)).1⟩

/-! ## Claims C12 and C13: the serializer -/

theorem getLoop_idx (self : GstDsOsdCoord) (n : Nat) : ∀ (idx : Nat) (arr : List Char),
    (getLoop self n idx arr).1 = idx + n := by
  induction n with
  | zero => intro idx arr; rfl
  | succ n ih =>
    intro idx arr
    rw [getLoop, ih]
    omega

/-- The serializer stores the text of the last entry alone, followed by a
colon: each `sprintf` writes to the start of `arr`. -/
theorem get_hw_blend_color_attrs_last (self : GstDsOsdCoord) :
    gst_ds_osdcoord_get_hw_blend_color_attrs self
      = entryText (self.color_info (self.num_class_entries - 1)) ++ [':'] := by
  unfold gst_ds_osdcoord_get_hw_blend_color_attrs
  simp only [getLoop_idx, Nat.zero_add, entryString, entryText, List.append_assoc,
    List.cons_append]

/-- Claim C12, failing input. With `MAX_BG_CLR = 20`, the string
"0,0.0,1.0,0.0,0.3:2,0.0,0.0,1.0,0.3" is made of two well-formed quintuples
and parses into the two entries (0; 0, 1, 0, 0.3) and (2; 0, 0, 1, 0.3). The
serializer turns that table into "2,0.000000,0.000000,1.000000,0.300000:",
and parsing this string yields one entry, (2; 0, 0, 1, 0.3), not the two
entries of the first parse. -/
theorem C12_round_trip_two_entries :
    attrString twoQuintuples = twoEntryString ∧
    (∀ q ∈ twoQuintuples, q.wf = true ∧ natValue q.id < 20) ∧
    (gst_ds_osdcoord_parse_hw_blend_color_attrs 20 (gst_ds_osdcoord_init false)
        (some twoEntryString)).table = some [entryGreen, entryBlue] ∧
    ((gst_ds_osdcoord_parse_hw_blend_color_attrs 20 (gst_ds_osdcoord_init false)
        (some twoEntryString)).self?.map gst_ds_osdcoord_get_hw_blend_color_attrs)
      = some "2,0.000000,0.000000,1.000000,0.300000:".toList ∧
    roundTrip 20 (gst_ds_osdcoord_init false) twoEntryString = some [entryBlue] := by
  decide!

/-- Claim C13, failing input. For the table of the two entries
(0; 0, 1, 0, 0.3) and (2; 0, 0, 1, 0.3) the serializer produces
"2,0.000000,0.000000,1.000000,0.300000:": the first entry is missing and a
colon follows the last one, where the specification describes
"0,0.000000,1.000000,0.000000,0.300000:2,0.000000,0.000000,1.000000,0.300000".
For the table of the single entry (2; 0, 0, 1, 0.3) it produces the same
string, with a colon after the last entry. -/
theorem C13_serializer_last_entry_only :
    tableOf selfTwoEntries = [entryGreen, entryBlue] ∧
    gst_ds_osdcoord_get_hw_blend_color_attrs selfTwoEntries
      = "2,0.000000,0.000000,1.000000,0.300000:".toList ∧
    serializeSpec (tableOf selfTwoEntries)
      = "0,0.000000,1.000000,0.000000,0.300000:2,0.000000,0.000000,1.000000,0.300000".toList ∧
    tableOf selfOneEntry = [entryBlue] ∧
    gst_ds_osdcoord_get_hw_blend_color_attrs selfOneEntry
      = "2,0.000000,0.000000,1.000000,0.300000:".toList ∧
    serializeSpec (tableOf selfOneEntry) = "2,0.000000,0.000000,1.000000,0.300000".toList := by
  decide!

/-! ## Claim C20: the clock colour -/

theorem byte_extract (c k : Nat) : (c &&& (255 <<< k)) >>> k = (c >>> k) % 256 := by
  have h256 : (256 : Nat) = 2 ^ 8 := by norm_num
  have h255 : (255 : Nat) = 2 ^ 8 - 1 := by norm_num
  rw [h256, ← Nat.and_pow_two_sub_one_eq_mod, ← h255]
  apply Nat.eq_of_testBit_eq
  intro i
  simp only [Nat.testBit_shiftRight, Nat.testBit_and, Nat.testBit_shiftLeft]
  have : k + i ≥ k := by omega
  simp [this]

theorem byte_low (c : Nat) : c &&& 0x000000ff = c % 256 := by
  have h := byte_extract c 0
  simpa using h

/-- For each of the 256 byte values the `gfloat` quotient lies in [0, 1] and
within half a unit in the last place (2^-25) of the exact quotient. -/
theorem gfloatDiv255_byte : ∀ b : Nat, b < 256 →
    0 ≤ gfloatDiv255 b ∧ gfloatDiv255 b ≤ 1 ∧
      |gfloatDiv255 b - (b : ℚ) / 255| ≤ 1 / 2 ^ 25 := by
  decide!

/-- Claim C20, counterexample. For the 32-bit colour 0xFF8000FF the green byte
is 128; the division is carried out in `gfloat`, so the stored green channel
is 8421505/16777216, the `gfloat` nearest to 128/255, and not the exact
rational 128/255. -/
theorem C20_counterexample :
    (0xFF8000FF : Nat) < 2 ^ 32 ∧ (0xFF8000FF >>> 16) % 256 = 128 ∧
    (gst_ds_osdcoord_parse_color (gst_ds_osdcoord_init false)
        0xFF8000FF).2.clock_text_params.font_color.green = 8421505 / 16777216 ∧
    (gst_ds_osdcoord_parse_color (gst_ds_osdcoord_init false)
        0xFF8000FF).2.clock_text_params.font_color.green
      ≠ (((0xFF8000FF >>> 16) % 256 : Nat) : ℚ) / 255 := by
  decide!

/-- Claim C20, amended. For every 32-bit unsigned `clock_color` `c`,
`gst_ds_osdcoord_parse_color` returns TRUE and leaves the instance as it was
except for the clock font colour, whose channels become the `gfloat` values
nearest to ((c >> 24) mod 256) / 255 for red, ((c >> 16) mod 256) / 255 for
green, ((c >> 8) mod 256) / 255 for blue and (c mod 256) / 255 for alpha; each
channel lies in [0, 1] and differs from the exact quotient by at most 2^-25;
the four bytes are those of `c`; `0xFFFFFFFF` gives (1, 1, 1, 1) and 0 gives
(0, 0, 0, 0); setting the property `PROP_CLOCK_COLOR` does exactly this. -/
theorem C20_parse_color (MAX_BG_CLR : Nat) (self : GstDsOsdCoord) (c : Nat)
    (hc : c < 2 ^ 32) :
    (gst_ds_osdcoord_parse_color self c).1 = true ∧
    (gst_ds_osdcoord_parse_color self c).2 =
      { self with
        clock_text_params :=
          { self.clock_text_params with
            font_color :=
              { red := gfloatRound ((((c >>> 24) % 256 : Nat) : ℚ) / 255)
                green := gfloatRound ((((c >>> 16) % 256 : Nat) : ℚ) / 255)
                blue := gfloatRound ((((c >>> 8) % 256 : Nat) : ℚ) / 255)
                alpha := gfloatRound (((c % 256 : Nat) : ℚ) / 255) } } } ∧
    (0 ≤ (gst_ds_osdcoord_parse_color self c).2.clock_text_params.font_color.red ∧
      (gst_ds_osdcoord_parse_color self c).2.clock_text_params.font_color.red ≤ 1 ∧
      0 ≤ (gst_ds_osdcoord_parse_color self c).2.clock_text_params.font_color.green ∧
      (gst_ds_osdcoord_parse_color self c).2.clock_text_params.font_color.green ≤ 1 ∧
      0 ≤ (gst_ds_osdcoord_parse_color self c).2.clock_text_params.font_color.blue ∧
      (gst_ds_osdcoord_parse_color self c).2.clock_text_params.font_color.blue ≤ 1 ∧
      0 ≤ (gst_ds_osdcoord_parse_color self c).2.clock_text_params.font_color.alpha ∧
      (gst_ds_osdcoord_parse_color self c).2.clock_text_params.font_color.alpha ≤ 1) ∧
    (|(gst_ds_osdcoord_parse_color self c).2.clock_text_params.font_color.red
        - (((c >>> 24) % 256 : Nat) : ℚ) / 255| ≤ 1 / 2 ^ 25 ∧
      |(gst_ds_osdcoord_parse_color self c).2.clock_text_params.font_color.green
        - (((c >>> 16) % 256 : Nat) : ℚ) / 255| ≤ 1 / 2 ^ 25 ∧
      |(gst_ds_osdcoord_parse_color self c).2.clock_text_params.font_color.blue
        - (((c >>> 8) % 256 : Nat) : ℚ) / 255| ≤ 1 / 2 ^ 25 ∧
      |(gst_ds_osdcoord_parse_color self c).2.clock_text_params.font_color.alpha
        - ((c % 256 : Nat) : ℚ) / 255| ≤ 1 / 2 ^ 25) ∧
    c = (c >>> 24) % 256 * 2 ^ 24 + (c >>> 16) % 256 * 2 ^ 16 + (c >>> 8) % 256 * 2 ^ 8
          + c % 256 ∧
    (gst_ds_osdcoord_parse_color self 0xFFFFFFFF).2.clock_text_params.font_color
      = { red := 1, green := 1, blue := 1, alpha := 1 } ∧
    (gst_ds_osdcoord_parse_color self 0).2.clock_text_params.font_color
      = { red := 0, green := 0, blue := 0, alpha := 0 } ∧
    gst_ds_osdcoord_set_property MAX_BG_CLR self (Property.PROP_CLOCK_COLOR c)
      = ParseResult.returned (gst_ds_osdcoord_parse_color self c).2 := by
  have e24 : (0xff000000 : Nat) = 255 <<< 24 := by decide
  have e16 : (0x00ff0000 : Nat) = 255 <<< 16 := by decide
  have e8 : (0x0000ff00 : Nat) = 255 <<< 8 := by decide
  have hr : (c &&& 0xff000000) >>> 24 = (c >>> 24) % 256 := by rw [e24]; exact byte_extract c 24
  have hg : (c &&& 0x00ff0000) >>> 16 = (c >>> 16) % 256 := by rw [e16]; exact byte_extract c 16
  have hb : (c &&& 0x0000ff00) >>> 8 = (c >>> 8) % 256 := by rw [e8]; exact byte_extract c 8
  have ha : c &&& 0x000000ff = c % 256 := byte_low c
  have hval : (gst_ds_osdcoord_parse_color self c).2 =
      { self with
        clock_text_params :=
          { self.clock_text_params with
            font_color :=
              { red := gfloatRound ((((c >>> 24) % 256 : Nat) : ℚ) / 255)
                green := gfloatRound ((((c >>> 16) % 256 : Nat) : ℚ) / 255)
                blue := gfloatRound ((((c >>> 8) % 256 : Nat) : ℚ) / 255)
                alpha := gfloatRound (((c % 256 : Nat) : ℚ) / 255) } } } := by
    unfold gst_ds_osdcoord_parse_color gfloatDiv255
    simp only [hr, hg, hb, ha]
  have hbyte : ∀ n : Nat,
      0 ≤ gfloatRound (((n % 256 : Nat) : ℚ) / 255) ∧
      gfloatRound (((n % 256 : Nat) : ℚ) / 255) ≤ 1 ∧
      |gfloatRound (((n % 256 : Nat) : ℚ) / 255) - ((n % 256 : Nat) : ℚ) / 255|
        ≤ 1 / 2 ^ 25 := fun n => gfloatDiv255_byte (n % 256) (Nat.mod_lt n (by decide))
  refine ⟨rfl, hval, ?_, ?_, ?_, ?_, ?_, rfl⟩
  · rw [hval]
    exact ⟨(hbyte _).1, (hbyte _).2.1, (hbyte _).1, (hbyte _).2.1, (hbyte _).1, (hbyte _).2.1,
      (hbyte _).1, (hbyte _).2.1⟩
  · rw [hval]
    exact ⟨(hbyte _).2.2, (hbyte _).2.2, (hbyte _).2.2, (hbyte _).2.2⟩
  · simp only [Nat.shiftRight_eq_div_pow]
    norm_num at hc ⊢
    omega
  · have k1 : ((0xFFFFFFFF : Nat) &&& 0xff000000) >>> 24 = 255 := by decide
    have k2 : ((0xFFFFFFFF : Nat) &&& 0x00ff0000) >>> 16 = 255 := by decide
    have k3 : ((0xFFFFFFFF : Nat) &&& 0x0000ff00) >>> 8 = 255 := by decide
    have k4 : (0xFFFFFFFF : Nat) &&& 0x000000ff = 255 := by decide
    have one : gfloatDiv255 255 = 1 := by decide!
    simp only [gst_ds_osdcoord_parse_color, k1, k2, k3, k4, one]
  · have k1 : ((0 : Nat) &&& 0xff000000) >>> 24 = 0 := by decide
    have k2 : ((0 : Nat) &&& 0x00ff0000) >>> 16 = 0 := by decide
    have k3 : ((0 : Nat) &&& 0x0000ff00) >>> 8 = 0 := by decide
    have k4 : (0 : Nat) &&& 0x000000ff = 0 := by decide
    have zero : gfloatDiv255 0 = 0 := by decide!
    simp only [gst_ds_osdcoord_parse_color, k1, k2, k3, k4, zero]

/-- Claim C20, instance: the colour 0xFF8000FF gives red 1, green
8421505/16777216 (the `gfloat` nearest to 128/255), blue 0 and alpha 1. -/
theorem C20_witness :
    (0xFF8000FF : Nat) < 2 ^ 32 ∧
    (gst_ds_osdcoord_parse_color (gst_ds_osdcoord_init false)
        0xFF8000FF).2.clock_text_params.font_color
      = { red := 1, green := 8421505 / 16777216, blue := 0, alpha := 1 } :=
  ⟨by decide, by
    rw [(C20_parse_color 20 (gst_ds_osdcoord_init false) 0xFF8000FF (by decide)).2.1]
    decide!⟩

/-! ## Claim C18: caps negotiation -/

/-- Claim C18, counterexample. An instance with a drawing context, negotiated
for 1920x1080, has `frame_num = 1` after it processed one frame. A call of
`gst_ds_osdcoord_set_caps` with caps of 1920x1080 then returns TRUE and makes
no call, but leaves `frame_num = 0`: not every field is unchanged. -/
theorem C18_counterexample :
    selfAfterOneFrame.dsosdcoord_context.isSome = true ∧
    selfAfterOneFrame.width = 1920 ∧ selfAfterOneFrame.height = 1080 ∧
    selfAfterOneFrame.frame_num = 1 ∧
    (gst_ds_osdcoord_set_caps capsEnvOk selfAfterOneFrame caps1080).ret = true ∧
    (gst_ds_osdcoord_set_caps capsEnvOk selfAfterOneFrame caps1080).calls = [] ∧
    (gst_ds_osdcoord_set_caps capsEnvOk selfAfterOneFrame caps1080).self.frame_num = 0 := by
  decide

/-- Claim C18, amended. For an instance whose drawing context exists and whose
stored width and height equal those of the negotiated caps,
`gst_ds_osdcoord_set_caps` returns TRUE, makes no device-bind or backend call
and leaves every field unchanged except `frame_num`, which it resets to 0.
When the context is missing or the negotiated geometry differs from the
stored one, and the device binds, it returns TRUE, binds the device once,
asks the backend to configure exactly once, with the new width and height
(after setting the clock parameters when the clock is shown), and stores the
new width and height and the conversion buffer the backend returns; a call
that follows with the same caps makes no call when the context exists. -/
theorem C18_set_caps (env : CapsEnv) (self : GstDsOsdCoord) (w h : Int) :
    (self.dsosdcoord_context.isSome = true → self.width = w → self.height = h →
      (gst_ds_osdcoord_set_caps env self { width := some w, height := some h }).ret = true ∧
      (gst_ds_osdcoord_set_caps env self { width := some w, height := some h }).calls = [] ∧
      (gst_ds_osdcoord_set_caps env self { width := some w, height := some h }).self
        = { self with frame_num := 0 }) ∧
    ((self.dsosdcoord_context = none ∨ self.width ≠ w ∨ self.height ≠ h) →
      env.cudaSetDevice = true →
      (gst_ds_osdcoord_set_caps env self { width := some w, height := some h }).ret = true ∧
      (gst_ds_osdcoord_set_caps env self { width := some w, height := some h }).calls
        = [LifeCall.cudaSetDevice self.gpu_id]
          ++ (if self.show_clock then
                [LifeCall.nvll_osd_set_clock_params self.dsosdcoord_context
                  self.clock_text_params]
              else [])
          ++ [LifeCall.nvll_osd_set_params self.dsosdcoord_context w h] ∧
      ((gst_ds_osdcoord_set_caps env self { width := some w, height := some h }).calls.filter
          LifeCall.isSetParams) = [LifeCall.nvll_osd_set_params self.dsosdcoord_context w h] ∧
      (gst_ds_osdcoord_set_caps env self { width := some w, height := some h }).self
        = { self with frame_num := 0, width := w, height := h,
                      conv_buf := env.nvll_osd_set_params } ∧
      (self.dsosdcoord_context.isSome = true →
        (gst_ds_osdcoord_set_caps env
          (gst_ds_osdcoord_set_caps env self { width := some w, height := some h }).self
          { width := some w, height := some h }).calls = [])) := by
  constructor
  · intro hctx hw hh
    simp [gst_ds_osdcoord_set_caps, hctx, hw, hh]
  · intro hne hbind
    have hcond : ¬ (self.dsosdcoord_context.isSome = true ∧ self.width = w ∧ self.height = h) := by
      rintro ⟨h1, h2, h3⟩
      rcases hne with h0 | h0 | h0
      · rw [h0] at h1; simp at h1
      · exact h0 h2
      · exact h0 h3
    refine ⟨?_, ?_, ?_, ?_, ?_⟩
    · simp [gst_ds_osdcoord_set_caps, hcond, hbind]
    · simp [gst_ds_osdcoord_set_caps, hcond, hbind]
    · simp only [gst_ds_osdcoord_set_caps, hcond, hbind, if_false]
      cases self.show_clock <;> simp [LifeCall.isSetParams]
    · simp [gst_ds_osdcoord_set_caps, hcond, hbind]
    · intro hctx
      have hs : (gst_ds_osdcoord_set_caps env self { width := some w, height := some h }).self
          = { self with frame_num := 0, width := w, height := h,
                        conv_buf := env.nvll_osd_set_params } := by
        simp [gst_ds_osdcoord_set_caps, hcond, hbind]
      rw [hs]
      simp [gst_ds_osdcoord_set_caps, hctx]

/-- Claim C18, instance: the geometry changes from 1920x1080 to 1280x720 and
the device binds: one device bind, one request to configure for 1280x720, and
the new geometry is stored. -/
theorem C18_witness :
    (selfNegotiated.dsosdcoord_context = none ∨ selfNegotiated.width ≠ 1280 ∨
      selfNegotiated.height ≠ 720) ∧
    capsEnvOk.cudaSetDevice = true ∧
    (gst_ds_osdcoord_set_caps capsEnvOk selfNegotiated caps720).calls
      = [LifeCall.cudaSetDevice 0, LifeCall.nvll_osd_set_params (some 1) 1280 720] ∧
    (gst_ds_osdcoord_set_caps capsEnvOk selfNegotiated caps720).self.width = 1280 ∧
    (gst_ds_osdcoord_set_caps capsEnvOk selfNegotiated caps720).self.height = 720 ∧
    (gst_ds_osdcoord_set_caps capsEnvOk selfNegotiated caps1080).calls = [] :=
  ⟨by decide, by decide,
    ((C18_set_caps capsEnvOk selfNegotiated 1280 720).2 (by decide) (by decide)).2.1,
    by decide, by decide,
    ((C18_set_caps capsEnvOk selfNegotiated 1920 1080).1 (by decide) (by decide)
      (by decide)).2.1⟩

/-! ## Claim C19: a frame without batch metadata -/

/-- Claim C19, counterexample. The buffer maps, the device binds, the frame
carries no batch metadata, the clock overlay and text drawing are enabled and
the text draw call reports failure: the frame returns `GST_FLOW_ERROR`. -/
theorem C19_counterexample :
    envDrawFails.gst_buffer_map = true ∧ envDrawFails.cudaSetDevice = true ∧
    findBatchMeta noMetaBuffer.metas = none ∧
    draws (gst_ds_osdcoord_transform_ip envDrawFails selfClock noMetaBuffer).trace
      = [clockTextCall selfClock] ∧
    (gst_ds_osdcoord_transform_ip envDrawFails selfClock noMetaBuffer).ret
      = GstFlowReturn.GST_FLOW_ERROR := by
  decide

/-- Claim C19, amended. For a frame whose buffer maps and whose device bind
succeeds but which carries no batch metadata: no rectangle, mask, line, arrow
or circle draw call is issued; a text draw call is issued exactly when both the
clock overlay and text drawing are enabled, once and with zero strings; the
frame returns `GST_FLOW_OK` unless that text call reports failure, in which
case it returns `GST_FLOW_ERROR`. -/
theorem C19_no_batch_meta (env : Env) (self : GstDsOsdCoord) (buf : GstBuffer)
    (hmap : env.gst_buffer_map = true) (hbind : env.cudaSetDevice = true)
    (hno : findBatchMeta buf.metas = none) :
    draws (gst_ds_osdcoord_transform_ip env self buf).trace
      = (if self.show_clock = true ∧ self.draw_text = true then [clockTextCall self]
         else []) ∧
    (∀ c ∈ draws (gst_ds_osdcoord_transform_ip env self buf).trace, c.entry = Kind.text) ∧
    (gst_ds_osdcoord_transform_ip env self buf).ret
      = (if self.show_clock = true ∧ self.draw_text = true ∧
            env.draw_ok [] (clockTextCall self) = false
         then GstFlowReturn.GST_FLOW_ERROR else GstFlowReturn.GST_FLOW_OK) := by
  have hobj : objList buf = [] := by simp [objList, hno]
  have hdisp : displayList buf = [] := by simp [displayList, hno]
  have htrace : draws (gst_ds_osdcoord_transform_ip env self buf).trace
      = (if self.show_clock = true ∧ self.draw_text = true then [clockTextCall self]
         else []) := by
    by_cases hc : self.show_clock = true <;> by_cases ht : self.draw_text = true <;>
      by_cases hd : env.draw_ok [] (clockTextCall self) = true <;>
      simp [gst_ds_osdcoord_transform_ip, hmap, hbind, scans, hobj, hdisp, forEach, Flow.bind,
        tailFlush, tailRect, tailMask, tailText, tailLine, tailArrow, tailCircle, storeCounts,
        startExec, dispatch, request, readFirst, draws, clockTextCall, hc, ht] <;>
      simp [clockTextCall, draws] at hd <;> simp [hd, draws]
  refine ⟨htrace, ?_, ?_⟩
  · intro c hc
    rw [htrace] at hc
    split at hc
    · simp at hc; rw [hc]; rfl
    · simp at hc
  · by_cases hc : self.show_clock = true <;> by_cases ht : self.draw_text = true <;>
      by_cases hd : env.draw_ok [] (clockTextCall self) = true <;>
      simp [gst_ds_osdcoord_transform_ip, hmap, hbind, scans, hobj, hdisp, forEach, Flow.bind,
        tailFlush, tailRect, tailMask, tailText, tailLine, tailArrow, tailCircle, storeCounts,
        startExec, dispatch, request, readFirst, draws, clockTextCall, hc, ht] <;>
      simp [clockTextCall, draws] at hd <;> simp [hd, draws]

/-- Claim C19, instance: with every call succeeding, the default instance and
a buffer without metas, the frame returns `GST_FLOW_OK` and, with the clock
overlay enabled, issues one text call with zero strings. -/
theorem C19_witness :
    envOk.gst_buffer_map = true ∧ envOk.cudaSetDevice = true ∧
    findBatchMeta noMetaBuffer.metas = none ∧
    (gst_ds_osdcoord_transform_ip envOk selfClock noMetaBuffer).ret
      = GstFlowReturn.GST_FLOW_OK ∧
    draws (gst_ds_osdcoord_transform_ip envOk selfClock noMetaBuffer).trace
      = [clockTextCall selfClock] :=
  ⟨by decide, by decide, by decide,
    (C19_no_batch_meta envOk selfClock noMetaBuffer (by decide) (by decide)
      (by decide)).2.2.trans (by decide),
    (C19_no_batch_meta envOk selfClock noMetaBuffer (by decide) (by decide)
      (by decide)).1.trans (by decide)⟩

/-! ## The mode of the draw calls of a frame -/

theorem mem_tailCalls_mode {m : Exec} {c : DrawCall} (h : c ∈ tailCalls m) :
    c.mode = m.self.dsosdcoord_mode := by
  unfold tailCalls at h
  rw [List.mem_map] at h
  obtain ⟨k, _, hk⟩ := h
  rw [← hk]
  rfl

theorem cfg_mode {self0 st : GstDsOsdCoord} (h : ∃ f, st = { self0 with bufs := f }) :
    st.dsosdcoord_mode = self0.dsosdcoord_mode := by
  obtain ⟨f, hf⟩ := h
  rw [hf]

/-- Every draw call of a frame carries the mode the instance had when the
frame began. -/
theorem run_modes (env : Env) (self : GstDsOsdCoord) (buf : GstBuffer) :
    ∀ c ∈ draws (gst_ds_osdcoord_transform_ip env self buf).trace,
      c.mode = self.dsosdcoord_mode := by
  intro c hc
  rcases run_early_or_shape env self buf with ⟨htr, _, _, _⟩ | ⟨_, _, hshape⟩
  · rw [htr] at hc
    simp [draws] at hc
  · cases hshape with
    | scanFail m hs hb hret hself htr =>
      rw [htr] at hc
      exact hb.modes c hc
    | tailFail m pre c0 rest hs hg hcalls hret hself htr hok hfail =>
      rw [htr, draws_append, draws_append, draws_map_draw] at hc
      simp only [draws, List.mem_append, List.mem_singleton] at hc
      have hm := cfg_mode hg.cfg
      rcases hc with (h1 | h1) | h1
      · exact hg.modes c h1
      · rw [← hm]
        apply mem_tailCalls_mode
        rw [hcalls]
        simp [h1]
      · rw [← hm]
        apply mem_tailCalls_mode
        rw [hcalls, h1]
        simp
    | done m hs hg hret hself htr hok =>
      rw [htr, draws_append, draws_map_draw] at hc
      simp only [List.mem_append] at hc
      rcases hc with h1 | h1
      · exact hg.modes c h1
      · rw [← cfg_mode hg.cfg]
        exact mem_tailCalls_mode h1

/-- A frame leaves the mode of the instance as it was. -/
theorem run_keeps_mode (env : Env) (self : GstDsOsdCoord) (buf : GstBuffer) :
    (gst_ds_osdcoord_transform_ip env self buf).self.dsosdcoord_mode
      = self.dsosdcoord_mode := by
  rcases run_early_or_shape env self buf with ⟨_, hself, _, _⟩ | ⟨_, _, hshape⟩
  · rw [hself]
  · cases hshape with
    | scanFail m hs hb hret hself htr =>
      rw [hself]
      exact cfg_mode hb.cfg
    | tailFail m pre c0 rest hs hg hcalls hret hself htr hok hfail =>
      rw [hself]
      show m.self.dsosdcoord_mode = self.dsosdcoord_mode
      exact cfg_mode hg.cfg
    | done m hs hg hret hself htr hok =>
      rw [hself]
      show m.self.dsosdcoord_mode = self.dsosdcoord_mode
      exact cfg_mode hg.cfg

/-! ## The parser changes the colour table only -/

theorem sameButTable_num (self : GstDsOsdCoord) (idx : Nat) :
    SameButTable self { self with num_class_entries := idx } :=
  ⟨self.color_info, idx, rfl⟩

theorem sameButTable_set {self st : GstDsOsdCoord} (idx : Nat)
    (f : NvOSD_Color_info → NvOSD_Color_info) (h : SameButTable (setColorInfo self idx f) st) :
    SameButTable self st := by
  obtain ⟨ci, n, hst⟩ := h
  exact ⟨ci, n, by rw [hst]; rfl⟩

theorem parseLoop_frame (MAX_BG_CLR : Nat) : ∀ (fuel : Nat) (str : Option (List Char))
    (idx : Nat) (self st : GstDsOsdCoord),
    parseLoop MAX_BG_CLR fuel str idx self = ParseResult.returned st →
    SameButTable self st := by
  intro fuel
  induction fuel with
  | zero =>
    intro str idx self st h
    cases str with
    | none =>
      simp only [parseLoop, ParseResult.returned.injEq] at h
      rw [← h]; exact sameButTable_num self idx
    | some s =>
      cases s with
      | nil =>
        simp only [parseLoop, ParseResult.returned.injEq] at h
        rw [← h]; exact sameButTable_num self idx
      | cons c cs => simp [parseLoop] at h
  | succ n ih =>
    intro str idx self st h
    cases str with
    | none =>
      simp only [parseLoop, ParseResult.returned.injEq] at h
      rw [← h]; exact sameButTable_num self idx
    | some s =>
      cases s with
      | nil =>
        simp only [parseLoop, ParseResult.returned.injEq] at h
        rw [← h]; exact sameButTable_num self idx
      | cons c cs =>
        rw [parseLoop] at h
        simp only at h
        by_cases h1 : (MAX_BG_CLR : Int) ≤ atoi (c :: cs)
        · simp only [h1, if_true] at h
          exact ParseResult.noConfusion h
        simp only [h1, if_false] at h
        cases e0 : afterComma (c :: cs) with
        | none => rw [e0] at h; exact ParseResult.noConfusion h
        | some s1 =>
          rw [e0] at h
          simp only at h
          cases e1 : afterComma s1 with
          | none => rw [e1] at h; exact ParseResult.noConfusion h
          | some s2 =>
            rw [e1] at h
            simp only at h
            cases e2 : afterComma s2 with
            | none => rw [e2] at h; exact ParseResult.noConfusion h
            | some s3 =>
              rw [e2] at h
              simp only at h
              cases e3 : afterComma s3 with
              | none => rw [e3] at h; exact ParseResult.noConfusion h
              | some s4 =>
                rw [e3] at h
                simp only at h
                apply sameButTable_set idx (fun e => { e with id := atoi (c :: cs) })
                apply sameButTable_set idx
                  (fun e => { e with color := { e.color with red := atof s1 } })
                apply sameButTable_set idx
                  (fun e => { e with color := { e.color with green := atof s2 } })
                apply sameButTable_set idx
                  (fun e => { e with color := { e.color with blue := atof s3 } })
                apply sameButTable_set idx
                  (fun e => { e with color := { e.color with alpha := atof s4 } })
                by_cases h2 : MAX_BG_CLR ≤ idx + 1
                · simp only [h2, if_true, ParseResult.returned.injEq] at h
                  rw [← h]
                  exact sameButTable_num _ (idx + 1)
                · simp only [h2, if_false] at h
                  exact ih _ _ _ _ h

/-- A returning parser call changes the colour table only. -/
theorem parse_frame (MAX_BG_CLR : Nat) (self st : GstDsOsdCoord) (arr : Option (List Char))
    (h : gst_ds_osdcoord_parse_hw_blend_color_attrs MAX_BG_CLR self arr
      = ParseResult.returned st) : SameButTable self st :=
  parseLoop_frame MAX_BG_CLR _ arr 0 self st h

/-! ## Start -/

theorem parse_all (MAX_BG_CLR : Nat) (self : GstDsOsdCoord) (q : Quintuple)
    (qs : List Quintuple) (hwf : ∀ x ∈ q :: qs, x.wf = true ∧ natValue x.id < MAX_BG_CLR)
    (hlen : qs.length + 1 ≤ MAX_BG_CLR) :
    gst_ds_osdcoord_parse_hw_blend_color_attrs MAX_BG_CLR self (some (attrString (q :: qs)))
      = ParseResult.returned
          { storeAll self 0 (q :: qs) with num_class_entries := qs.length + 1 } := by
  unfold gst_ds_osdcoord_parse_hw_blend_color_attrs
  simp only [Option.getD_some]
  rw [attrString_eq_contWith]
  have hl1 := contWith_length qs []
  have hp := text_length_ge q
  obtain ⟨n, hn⟩ : ∃ n, (q.text ++ contWith qs []).length = n + (qs.length + 1) :=
    ⟨(q.text ++ contWith qs []).length - (qs.length + 1), by
      simp only [List.length_append]; omega⟩
  rw [hn, parseLoop_run MAX_BG_CLR qs q [] n 0 self hwf (Or.inl rfl) (by omega)]
  simp only [Nat.zero_add]
  by_cases hfull : MAX_BG_CLR ≤ qs.length + 1
  · rw [if_pos hfull]
  · rw [if_neg hfull]
    exact parseLoop_null MAX_BG_CLR n _ _

theorem tableOf_storeAll (self : GstDsOsdCoord) (qs : List Quintuple) :
    tableOf { storeAll self 0 qs with num_class_entries := qs.length }
      = qs.map Quintuple.entry := by
  unfold tableOf
  apply List.ext_getElem
  · simp
  · intro i h1 h2
    simp only [List.length_map, List.length_range] at h1
    simp only [List.getElem_map, List.getElem_range]
    have := storeAll_get qs self 0 i qs[i] (List.getElem?_eq_getElem h1)
    rw [Nat.zero_add] at this
    exact this

/-- The default string parses into the four default entries, for every
instance, when `MAX_BG_CLR` exceeds 3. -/
theorem parse_default (MAX_BG_CLR : Nat) (h3 : 3 < MAX_BG_CLR) (self st : GstDsOsdCoord)
    (h : gst_ds_osdcoord_parse_hw_blend_color_attrs MAX_BG_CLR self (some DEFAULT_CLR)
      = ParseResult.returned st) :
    tableOf st = defaultEntries ∧ st.num_class_entries = 4 := by
  have hstr : DEFAULT_CLR = attrString defaultQuintuples := by decide
  have hwf : ∀ x ∈ defaultQuintuples, x.wf = true ∧ natValue x.id < 4 := by decide
  have hent : defaultQuintuples.map Quintuple.entry = defaultEntries := by decide!
  have hq : defaultQuintuples = defaultQuintuples.head (by decide) :: defaultQuintuples.tail := by
    decide
  have hall := parse_all MAX_BG_CLR self (defaultQuintuples.head (by decide))
    defaultQuintuples.tail
    (by
      rw [← hq]
      intro x hx
      exact ⟨(hwf x hx).1, by have := (hwf x hx).2; omega⟩)
    (by
      have : defaultQuintuples.tail.length = 3 := by decide
      omega)
  rw [← hq, ← hstr, h] at hall
  simp only [ParseResult.returned.injEq] at hall
  have hlen : defaultQuintuples.tail.length + 1 = defaultQuintuples.length := by decide
  rw [hlen] at hall
  rw [hall, tableOf_storeAll, hent]
  exact ⟨rfl, rfl⟩

theorem parse_default_returns (MAX_BG_CLR : Nat) (h3 : 3 < MAX_BG_CLR) (self : GstDsOsdCoord) :
    ∃ st, gst_ds_osdcoord_parse_hw_blend_color_attrs MAX_BG_CLR self (some DEFAULT_CLR)
      = ParseResult.returned st := by
  have hstr : DEFAULT_CLR = attrString defaultQuintuples := by decide
  have hwf : ∀ x ∈ defaultQuintuples, x.wf = true ∧ natValue x.id < 4 := by decide
  have hq : defaultQuintuples = defaultQuintuples.head (by decide) :: defaultQuintuples.tail := by
    decide
  have hall := parse_all MAX_BG_CLR self (defaultQuintuples.head (by decide))
    defaultQuintuples.tail
    (by
      rw [← hq]
      intro x hx
      exact ⟨(hwf x hx).1, by have := (hwf x hx).2; omega⟩)
    (by
      have : defaultQuintuples.tail.length = 3 := by decide
      omega)
  rw [← hq, ← hstr] at hall
  exact ⟨_, hall⟩

theorem start_true_env (MAX_BG_CLR : Nat) (env : StartEnv) (self st : GstDsOsdCoord)
    (calls : List LifeCall)
    (h : gst_ds_osdcoord_start MAX_BG_CLR env self = StartResult.returned true st calls) :
    env.cudaSetDevice = true ∧ ∃ ctx, env.nvll_osd_create_context = some ctx := by
  unfold gst_ds_osdcoord_start at h
  by_cases hdev : env.cudaSetDevice = false
  · rw [if_pos hdev] at h
    simp at h
  · rw [if_neg hdev] at h
    cases hc : env.nvll_osd_create_context with
    | none =>
      simp only [hc] at h
      simp at h
    | some ctx =>
      exact ⟨by simpa using hdev, ctx, rfl⟩

theorem start_unfold (MAX_BG_CLR : Nat) (env : StartEnv) (self : GstDsOsdCoord) (ctx : Nat)
    (hdev : env.cudaSetDevice = true) (hc : env.nvll_osd_create_context = some ctx) :
    ∃ s2 : GstDsOsdCoord,
      s2 = { self with
             dsosdcoord_context := some ctx
             dsosdcoord_mode :=
               if env.flag_integrated = 0 ∧ self.dsosdcoord_mode = NvOSD_Mode.MODE_HW then
                 NvOSD_Mode.MODE_GPU
               else self.dsosdcoord_mode } ∧
      (∀ s3, (if s2.num_class_entries = 0 then
            gst_ds_osdcoord_parse_hw_blend_color_attrs MAX_BG_CLR s2 (some DEFAULT_CLR)
          else ParseResult.returned s2) = ParseResult.returned s3 →
        ∃ calls, gst_ds_osdcoord_start MAX_BG_CLR env self
          = StartResult.returned true s3 calls) ∧
      (∀ s3 calls, gst_ds_osdcoord_start MAX_BG_CLR env self
          = StartResult.returned true s3 calls →
        (if s2.num_class_entries = 0 then
            gst_ds_osdcoord_parse_hw_blend_color_attrs MAX_BG_CLR s2 (some DEFAULT_CLR)
          else ParseResult.returned s2) = ParseResult.returned s3) := by
  by_cases hcond : env.flag_integrated = 0 ∧ self.dsosdcoord_mode = NvOSD_Mode.MODE_HW
  · refine ⟨_, rfl, ?_, ?_⟩
    · intro s3 hp
      simp only [hcond, and_self, if_true] at hp
      simp only [gst_ds_osdcoord_start, hdev, hc, hcond, and_self, if_true]
      simp only [Bool.true_eq_false, if_false]
      rw [hp]
      exact ⟨_, rfl⟩
    · intro s3 calls h
      simp only [hcond, and_self, if_true]
      simp only [gst_ds_osdcoord_start, hdev, hc, hcond, and_self, if_true] at h
      simp only [Bool.true_eq_false, if_false] at h
      split at h
      · rename_i s4 heq
        rw [heq]
        simp only [StartResult.returned.injEq] at h
        rw [h.2.1]
      · exact StartResult.noConfusion h
      · exact StartResult.noConfusion h
      · exact StartResult.noConfusion h
  · refine ⟨_, rfl, ?_, ?_⟩
    · intro s3 hp
      simp only [hcond, if_false] at hp
      simp only [gst_ds_osdcoord_start, hdev, hc, hcond, if_false]
      simp only [Bool.true_eq_false, if_false]
      rw [hp]
      exact ⟨_, rfl⟩
    · intro s3 calls h
      simp only [hcond, if_false]
      simp only [gst_ds_osdcoord_start, hdev, hc, hcond, if_false] at h
      simp only [Bool.true_eq_false, if_false] at h
      split at h
      · rename_i s4 heq
        rw [heq]
        simp only [StartResult.returned.injEq] at h
        rw [h.2.1]
      · exact StartResult.noConfusion h
      · exact StartResult.noConfusion h
      · exact StartResult.noConfusion h

/-! ## Claims C16 and C17 -/

theorem start_result (MAX_BG_CLR : Nat) (env : StartEnv) (self st : GstDsOsdCoord)
    (calls : List LifeCall)
    (h : gst_ds_osdcoord_start MAX_BG_CLR env self = StartResult.returned true st calls) :
    st.dsosdcoord_mode
      = (if env.flag_integrated = 0 ∧ self.dsosdcoord_mode = NvOSD_Mode.MODE_HW then
           NvOSD_Mode.MODE_GPU
         else self.dsosdcoord_mode) ∧
    (self.num_class_entries ≠ 0 →
      st.color_info = self.color_info ∧ st.num_class_entries = self.num_class_entries) ∧
    (self.num_class_entries = 0 →
      ∃ s2, gst_ds_osdcoord_parse_hw_blend_color_attrs MAX_BG_CLR s2 (some DEFAULT_CLR)
        = ParseResult.returned st) := by
  obtain ⟨hdev, ctx, hc⟩ := start_true_env MAX_BG_CLR env self st calls h
  obtain ⟨s2, hs2, _, hback⟩ := start_unfold MAX_BG_CLR env self ctx hdev hc
  have hp := hback st calls h
  have hnum : s2.num_class_entries = self.num_class_entries := by rw [hs2]
  have hmode : s2.dsosdcoord_mode
      = (if env.flag_integrated = 0 ∧ self.dsosdcoord_mode = NvOSD_Mode.MODE_HW then
           NvOSD_Mode.MODE_GPU
         else self.dsosdcoord_mode) := by rw [hs2]
  have hci : s2.color_info = self.color_info := by rw [hs2]
  by_cases h0 : self.num_class_entries = 0
  · rw [hnum, if_pos h0] at hp
    obtain ⟨ci, n, hst⟩ := parse_frame MAX_BG_CLR s2 st _ hp
    refine ⟨?_, fun hne => (hne h0).elim, fun _ => ⟨s2, hp⟩⟩
    rw [← hmode, hst]
  · rw [hnum, if_neg h0] at hp
    simp only [ParseResult.returned.injEq] at hp
    refine ⟨?_, fun _ => ?_, fun h1 => (h0 h1).elim⟩
    · rw [← hp, hmode]
    · rw [← hp]
      exact ⟨hci, hnum⟩

theorem start_succeeds (MAX_BG_CLR : Nat) (env : StartEnv) (self : GstDsOsdCoord)
    (hdev : env.cudaSetDevice = true) (hctx : env.nvll_osd_create_context.isSome = true)
    (htab : 3 < MAX_BG_CLR ∨ self.num_class_entries ≠ 0) :
    ∃ st calls, gst_ds_osdcoord_start MAX_BG_CLR env self
      = StartResult.returned true st calls := by
  obtain ⟨ctx, hc⟩ := Option.isSome_iff_exists.mp hctx
  obtain ⟨s2, hs2, hfwd, _⟩ := start_unfold MAX_BG_CLR env self ctx hdev hc
  have hnum : s2.num_class_entries = self.num_class_entries := by rw [hs2]
  by_cases h0 : self.num_class_entries = 0
  · rcases htab with h3 | hne
    · obtain ⟨st, hst⟩ := parse_default_returns MAX_BG_CLR h3 s2
      obtain ⟨calls, hcalls⟩ := hfwd st (by rw [hnum, if_pos h0]; exact hst)
      exact ⟨st, calls, hcalls⟩
    · exact (hne h0).elim
  · obtain ⟨calls, hcalls⟩ := hfwd s2 (by rw [hnum, if_neg h0])
    exact ⟨s2, calls, hcalls⟩

/-- Claim C16. When the device binds, the context is created and the default
table can be loaded (`MAX_BG_CLR > 3`, or entries are configured),
`gst_ds_osdcoord_start` returns TRUE. Whenever it returns TRUE: if the mode was
`MODE_HW` and the device reports attribute value 0 (not integrated), the mode
after start is `MODE_GPU`, and for every later frame processed by an instance
whose mode is still the one start left, every draw request of
`gst_ds_osdcoord_transform_ip` carries `MODE_GPU` and the frame leaves the mode
at `MODE_GPU`; if the mode was not `MODE_HW`, or the reported attribute is not
0, the mode after start is the mode before. -/
theorem C16_start_mode (MAX_BG_CLR : Nat) (env : StartEnv) (self : GstDsOsdCoord) :
    (env.cudaSetDevice = true → env.nvll_osd_create_context.isSome = true →
      (3 < MAX_BG_CLR ∨ self.num_class_entries ≠ 0) →
      ∃ st calls, gst_ds_osdcoord_start MAX_BG_CLR env self
        = StartResult.returned true st calls) ∧
    (∀ st calls,
      gst_ds_osdcoord_start MAX_BG_CLR env self = StartResult.returned true st calls →
      (self.dsosdcoord_mode = NvOSD_Mode.MODE_HW → env.flag_integrated = 0 →
        st.dsosdcoord_mode = NvOSD_Mode.MODE_GPU ∧
        ∀ (fenv : Env) (self2 : GstDsOsdCoord) (buf : GstBuffer),
          self2.dsosdcoord_mode = st.dsosdcoord_mode →
          (∀ c ∈ draws (gst_ds_osdcoord_transform_ip fenv self2 buf).trace,
            c.mode = NvOSD_Mode.MODE_GPU) ∧
          (gst_ds_osdcoord_transform_ip fenv self2 buf).self.dsosdcoord_mode
            = NvOSD_Mode.MODE_GPU) ∧
      ((self.dsosdcoord_mode ≠ NvOSD_Mode.MODE_HW ∨ env.flag_integrated ≠ 0) →
        st.dsosdcoord_mode = self.dsosdcoord_mode)) := by
  refine ⟨start_succeeds MAX_BG_CLR env self, ?_⟩
  intro st calls h
  obtain ⟨hmode, _, _⟩ := start_result MAX_BG_CLR env self st calls h
  constructor
  · intro hhw hflag
    have hgpu : st.dsosdcoord_mode = NvOSD_Mode.MODE_GPU := by
      rw [hmode, if_pos ⟨hflag, hhw⟩]
    refine ⟨hgpu, ?_⟩
    intro fenv self2 buf hsame
    constructor
    · intro c hc
      rw [run_modes fenv self2 buf c hc, hsame, hgpu]
    · rw [run_keeps_mode, hsame, hgpu]
  · intro hne
    rw [hmode, if_neg]
    rintro ⟨h1, h2⟩
    rcases hne with h0 | h0
    · exact h0 h2
    · exact h0 h1

/-- Claim C16, instance: the instance created for `PLATFORM_TEGRA` has mode
`MODE_HW`; started on a device that is not integrated, with `MAX_BG_CLR = 20`,
it has mode `MODE_GPU`. -/
theorem C16_witness :
    (gst_ds_osdcoord_init true).dsosdcoord_mode = NvOSD_Mode.MODE_HW ∧
    ∃ st calls, gst_ds_osdcoord_start 20 startEnvDiscrete (gst_ds_osdcoord_init true)
        = StartResult.returned true st calls ∧
      st.dsosdcoord_mode = NvOSD_Mode.MODE_GPU := by
  refine ⟨by decide, ?_⟩
  obtain ⟨st, calls, h⟩ := (C16_start_mode 20 startEnvDiscrete (gst_ds_osdcoord_init true)).1
    (by decide) (by decide) (by decide)
  exact ⟨st, calls, h,
    (((C16_start_mode 20 startEnvDiscrete (gst_ds_osdcoord_init true)).2 st calls h).1
      (by decide) (by decide)).1⟩

/-- Claim C17. Assume `MAX_BG_CLR > 3`. When the device binds and the context
is created, `gst_ds_osdcoord_start` returns TRUE. Whenever it returns TRUE: if
no class colour entry was configured (`num_class_entries = 0`), the table
afterwards is exactly the four default entries (0; 0, 1, 0, 0.3),
(1; 0, 1, 1, 0.3), (2; 0, 0, 1, 0.3), (3; 1, 1, 0, 0.3), in this order, and
`num_class_entries = 4`; if at least one entry was configured, `color_info`
and `num_class_entries` are as before. -/
theorem C17_start_default_table (MAX_BG_CLR : Nat) (h3 : 3 < MAX_BG_CLR) (env : StartEnv)
    (self : GstDsOsdCoord) :
    (env.cudaSetDevice = true → env.nvll_osd_create_context.isSome = true →
      ∃ st calls, gst_ds_osdcoord_start MAX_BG_CLR env self
        = StartResult.returned true st calls) ∧
    (∀ st calls,
      gst_ds_osdcoord_start MAX_BG_CLR env self = StartResult.returned true st calls →
      (self.num_class_entries = 0 →
        tableOf st = defaultEntries ∧ st.num_class_entries = 4) ∧
      (self.num_class_entries ≠ 0 →
        st.color_info = self.color_info ∧
        st.num_class_entries = self.num_class_entries ∧ tableOf st = tableOf self)) := by
  refine ⟨fun hdev hctx => start_succeeds MAX_BG_CLR env self hdev hctx (Or.inl h3), ?_⟩
  intro st calls h
  obtain ⟨_, hkeep, hdef⟩ := start_result MAX_BG_CLR env self st calls h
  constructor
  · intro h0
    obtain ⟨s2, hs2⟩ := hdef h0
    exact parse_default MAX_BG_CLR h3 s2 st hs2
  · intro hne
    obtain ⟨h1, h2⟩ := hkeep hne
    exact ⟨h1, h2, by unfold tableOf; rw [h1, h2]⟩

/-- Claim C17, instance: with `MAX_BG_CLR = 20`, the fresh instance (no entry
configured) started on a device that binds holds the four default entries. -/
theorem C17_witness :
    (3 : Nat) < 20 ∧ (gst_ds_osdcoord_init false).num_class_entries = 0 ∧
    ∃ st calls, gst_ds_osdcoord_start 20 startEnvDiscrete (gst_ds_osdcoord_init false)
        = StartResult.returned true st calls ∧
      tableOf st = defaultEntries ∧ st.num_class_entries = 4 := by
  refine ⟨by decide, by decide, ?_⟩
  obtain ⟨st, calls, h⟩ :=
    (C17_start_default_table 20 (by decide) startEnvDiscrete (gst_ds_osdcoord_init false)).1
      (by decide) (by decide)
  exact ⟨st, calls, h,
    ((C17_start_default_table 20 (by decide) startEnvDiscrete
      (gst_ds_osdcoord_init false)).2 st calls h).1 (by decide)⟩

/-! ## Hardware-blend colour resolution -/

theorem findColor_first (ci : Nat → NvOSD_Color_info) (cid : Int) : ∀ (n start idx : Nat),
    start ≤ idx → idx < start + n → (ci idx).id = cid →
    (∀ j, start ≤ j → j < idx → (ci j).id ≠ cid) →
    findColor ci cid start n = some idx := by
  intro n
  induction n with
  | zero => intro start idx h1 h2; omega
  | succ n ih =>
    intro start idx h1 h2 hid hbefore
    unfold findColor
    by_cases hs : (ci start).id = cid
    · rw [if_pos hs]
      by_cases he : start = idx
      · rw [he]
      · exact (hbefore start (Nat.le_refl _) (by omega) hs).elim
    · rw [if_neg hs]
      have hne : start ≠ idx := by
        intro he; rw [he] at hs; exact hs hid
      exact ih (start + 1) idx (by omega) (by omega) hid
        (fun j hj1 hj2 => hbefore j (by omega) hj2)

theorem findColor_none (ci : Nat → NvOSD_Color_info) (cid : Int) : ∀ (n start : Nat),
    (∀ j, start ≤ j → j < start + n → (ci j).id ≠ cid) →
    findColor ci cid start n = none := by
  intro n
  induction n with
  | zero => intro start _; rfl
  | succ n ih =>
    intro start h
    unfold findColor
    rw [if_neg (h start (Nat.le_refl _) (by omega))]
    exact ih (start + 1) (fun j hj1 hj2 => h j (by omega) (by omega))

theorem hwBlendRect_first {self : GstDsOsdCoord} {o : NvDsObjectMeta} {idx : Nat}
    (h : IsFirstMatch self o idx) :
    hwBlendRect self o
      = { o.rect_params with
          color_id := idx, has_bg_color := true, bg_color := (self.color_info idx).color } := by
  obtain ⟨h1, h2, h3⟩ := h
  unfold hwBlendRect
  rw [findColor_first self.color_info o.class_id self.num_class_entries 0 idx (Nat.zero_le _)
    (by omega) h2 (fun j _ hj => h3 j hj)]

theorem hwBlendRect_noMatch {self : GstDsOsdCoord} {o : NvDsObjectMeta}
    (h : NoMatch self o) : hwBlendRect self o = o.rect_params := by
  unfold hwBlendRect
  rw [findColor_none self.color_info o.class_id self.num_class_entries 0
    (fun j _ hj => h j (by omega))]

theorem flushIfFull_self (env : Env) (m m1 : Exec) (k : Kind)
    (h : flushIfFull env m k = Flow.next m1 ∨ flushIfFull env m k = Flow.ret m1) :
    m1.self = m.self := by
  unfold flushIfFull dispatch at h
  by_cases hfull : m.cnt k = MAX_OSD_ELEMS
  · rw [if_pos hfull] at h
    by_cases hd : env.draw_ok (draws m.trace) (request m k (m.cnt k)) = true
    · simp only [hd, if_true, Flow.bind, Flow.next.injEq] at h
      rcases h with h | h
      · rw [← h]; rfl
      · exact Flow.noConfusion h
    · simp only [hd, Flow.bind] at h
      rcases h with h | h
      · simp at h
      · simp only [Bool.false_eq_true, if_false, Flow.ret.injEq] at h
        rw [← h]
  · rw [if_neg hfull] at h
    rcases h with h | h
    · simp only [Flow.next.injEq] at h
      rw [← h]
    · exact Flow.noConfusion h

/-- The cell an object's rect is appended to holds, after the rect block of
the object scan, the object's rect with the colour resolution applied, when
the resolution is active. -/
theorem objRect_cell (env : Env) (m : Exec) (o : NvDsObjectMeta)
    (hb : m.self.draw_bbox = true) (hhw : hwBlendActive env m.self = true) (m1 : Exec)
    (h : objRect env m o = Flow.next m1 ∨ objRect env m o = Flow.ret m1) :
    m1.self.bufs Buf.rect_params (m.cnt Kind.rect) = Prim.rect (hwBlendRect m.self o) := by
  unfold objRect at h
  simp only [hb, if_true] at h
  have hself := flushIfFull_self env _ m1 Kind.rect h
  rw [hself]
  have hact : hwBlendActive env
      (m.write Buf.rect_params (m.cnt Kind.rect) (Prim.rect o.rect_params)).self = true := hhw
  simp only [hact, if_true]
  unfold hwBlendResolve
  have hfc : findColor
      (m.write Buf.rect_params (m.cnt Kind.rect) (Prim.rect o.rect_params)).self.color_info
      o.class_id 0
      (m.write Buf.rect_params (m.cnt Kind.rect) (Prim.rect o.rect_params)).self.num_class_entries
      = findColor m.self.color_info o.class_id 0 m.self.num_class_entries := rfl
  have hrect : hwBlendRect
      (m.write Buf.rect_params (m.cnt Kind.rect) (Prim.rect o.rect_params)).self o
      = hwBlendRect m.self o := rfl
  rw [hfc, hrect]
  by_cases hsome : (findColor m.self.color_info o.class_id 0 m.self.num_class_entries).isSome
      = true
  · simp [hsome, Exec.write, Exec.setCnt]
  · have hn : (findColor m.self.color_info o.class_id 0 m.self.num_class_entries).isSome
        = false := by simpa using hsome
    rw [hwBlendRect_none hn]
    simp [hn, Exec.write, Exec.setCnt]

/-! ## Claims C14 and C15 -/

theorem allOk_envTegra : AllOk envTegra := fun _ _ => rfl

theorem parse_two_entries (MAX_BG_CLR : Nat) (h2 : 2 < MAX_BG_CLR) (s : GstDsOsdCoord) :
    ∃ st, gst_ds_osdcoord_parse_hw_blend_color_attrs MAX_BG_CLR s (some twoEntryString)
        = ParseResult.returned st ∧
      st.num_class_entries = 2 ∧ st.color_info 0 = entryGreen ∧
      st.color_info 1 = entryBlue ∧ SameButTable s st := by
  have hstr : twoEntryString = attrString twoQuintuples := by decide
  have hwf : ∀ x ∈ twoQuintuples, x.wf = true ∧ natValue x.id < 3 := by decide
  have hq : twoQuintuples = twoQuintuples.head (by decide) :: twoQuintuples.tail := by decide
  have hall := parse_all MAX_BG_CLR s (twoQuintuples.head (by decide)) twoQuintuples.tail
    (by
      rw [← hq]
      intro x hx
      exact ⟨(hwf x hx).1, by have := (hwf x hx).2; omega⟩)
    (by
      have : twoQuintuples.tail.length = 1 := by decide
      omega)
  rw [← hq, ← hstr] at hall
  refine ⟨_, hall, ?_, ?_, ?_, parse_frame MAX_BG_CLR s _ _ hall⟩
  · show twoQuintuples.tail.length + 1 = 2
    decide
  · have h0 := storeAll_get twoQuintuples s 0 0 (twoQuintuples.head (by decide)) (by decide)
    have he : (twoQuintuples.head (by decide)).entry = entryGreen := by decide!
    rw [← he]
    exact h0
  · have h1 := storeAll_get twoQuintuples s 0 1 (twoQuintuples.tail.head (by decide))
      (by decide)
    have he : (twoQuintuples.tail.head (by decide)).entry = entryBlue := by decide!
    rw [← he]
    exact h1

theorem cfg_cell (env : Env) (self : GstDsOsdCoord) (m m1 : Exec) (o : NvDsObjectMeta)
    (hcfg : ∃ f, m.self = { self with bufs := f }) (hbbox : self.draw_bbox = true)
    (hhw : hwBlendActive env self = true)
    (h : objRect env m o = Flow.next m1 ∨ objRect env m o = Flow.ret m1) :
    m1.self.bufs Buf.rect_params (m.cnt Kind.rect) = Prim.rect (hwBlendRect self o) := by
  obtain ⟨f, hf⟩ := hcfg
  have hb : m.self.draw_bbox = true := by rw [hf]; exact hbbox
  have ha : hwBlendActive env m.self = true := by rw [hf]; exact hhw
  have hr : hwBlendRect m.self o = hwBlendRect self o := by rw [hf]; rfl
  rw [← hr]
  exact objRect_cell env m o hb ha m1 h

theorem hwBlendActive_of (env : Env) (self : GstDsOsdCoord)
    (htegra : env.PLATFORM_TEGRA = true)
    (hmode : self.dsosdcoord_mode = NvOSD_Mode.MODE_HW) (hblend : self.hw_blend = true) :
    hwBlendActive env self = true := by
  simp [hwBlendActive, htegra, hmode, hblend]

theorem payload_hw_blend (env : Env) (self : GstDsOsdCoord) (buf : GstBuffer)
    (hok : AllOk env) (hmap : env.gst_buffer_map = true) (hbind : env.cudaSetDevice = true)
    (hbbox : self.draw_bbox = true) (hhw : hwBlendActive env self = true) :
    payload Kind.rect (gst_ds_osdcoord_transform_ip env self buf).trace
      = (objList buf).map (fun o => Prim.rect (hwBlendRect self o))
        ++ (displayRects (displayList buf)).map Prim.rect := by
  obtain ⟨m, hs, hg, hret, hself, htr⟩ := run_allOk self buf hok hmap hbind
  obtain ⟨f, hf⟩ := hg.cfg
  have hb : m.self.draw_bbox = true := by rw [hf]; exact hbbox
  have hgate : m.cnt Kind.rect ≠ 0 → tailGate m Kind.rect = true := by
    intro h
    simp [tailGate, hb, h]
  rw [htr, payload_of_run hg Kind.rect hgate, scanItems_rect]
  simp [hbbox, objRectValue, hhw]

/-- Claim C14. In the `PLATFORM_TEGRA` build, with mode `MODE_HW`, `hw_blend`
set and `draw_bbox` enabled, for every colour table and every object annotation
whose class id equals the id of some table entry, `idx` being the smallest
such index: the cell the object's rect is appended to holds the object's rect
with `color_id = idx`, `has_bg_color` set and `bg_color` equal to the colour of
entry `idx`, whether or not a capacity dispatch follows; with every call
succeeding, the rects handed to the backend are these resolved rects of the
objects, in order, followed by the display rects. In particular, after the
property `hw-blend-color-attr` is set to "0,0.0,1.0,0.0,0.3:2,0.0,0.0,1.0,0.3"
(with `MAX_BG_CLR > 2`), `hw_blend` is set and an object of class id 2 gets
`color_id = 1` and `bg_color = (0, 0, 1, 0.3)`. -/
theorem C14_hw_blend_color (env : Env) (self : GstDsOsdCoord)
    (htegra : env.PLATFORM_TEGRA = true)
    (hmode : self.dsosdcoord_mode = NvOSD_Mode.MODE_HW) (hblend : self.hw_blend = true)
    (hbbox : self.draw_bbox = true) :
    (∀ (o : NvDsObjectMeta) (idx : Nat), IsFirstMatch self o idx →
      hwBlendRect self o
        = { o.rect_params with
            color_id := idx, has_bg_color := true,
            bg_color := (self.color_info idx).color } ∧
      ∀ m m1 : Exec, (∃ f, m.self = { self with bufs := f }) →
        (objRect env m o = Flow.next m1 ∨ objRect env m o = Flow.ret m1) →
        m1.self.bufs Buf.rect_params (m.cnt Kind.rect)
          = Prim.rect { o.rect_params with
              color_id := idx, has_bg_color := true,
              bg_color := (self.color_info idx).color }) ∧
    (∀ buf : GstBuffer, AllOk env → env.gst_buffer_map = true → env.cudaSetDevice = true →
      payload Kind.rect (gst_ds_osdcoord_transform_ip env self buf).trace
        = (objList buf).map (fun o => Prim.rect (hwBlendRect self o))
          ++ (displayRects (displayList buf)).map Prim.rect) ∧
    (∀ (MAX_BG_CLR : Nat), 2 < MAX_BG_CLR → ∀ self0 : GstDsOsdCoord,
      ∃ st, gst_ds_osdcoord_set_property MAX_BG_CLR self0
          (Property.PROP_HW_BLEND_COLOR_ATTRS (some twoEntryString))
          = ParseResult.returned st ∧
        st.hw_blend = true ∧
        ∀ o : NvDsObjectMeta, o.class_id = 2 →
          hwBlendRect st o
            = { o.rect_params with
                color_id := 1, has_bg_color := true,
                bg_color := { red := 0, green := 0, blue := 1, alpha := 3 / 10 } }) := by
  have hhw := hwBlendActive_of env self htegra hmode hblend
  refine ⟨?_, ?_, ?_⟩
  · intro o idx hfirst
    refine ⟨hwBlendRect_first hfirst, ?_⟩
    intro m m1 hcfg h
    rw [← hwBlendRect_first hfirst]
    exact cfg_cell env self m m1 o hcfg hbbox hhw h
  · intro buf hok hmap hbind
    exact payload_hw_blend env self buf hok hmap hbind hbbox hhw
  · intro MAX_BG_CLR h2 self0
    obtain ⟨st, hst, hnum, h0, h1, ci, n, hsame⟩ :=
      parse_two_entries MAX_BG_CLR h2 { self0 with hw_blend := true }
    refine ⟨st, hst, by rw [hsame], ?_⟩
    intro o ho
    have hfirst : IsFirstMatch st o 1 := by
      refine ⟨by omega, by rw [h1, ho]; rfl, ?_⟩
      intro j hj
      have hj0 : j = 0 := by omega
      rw [hj0, h0, ho]
      decide
    rw [hwBlendRect_first hfirst, h1]
    rfl

/-- Claim C14, instance: in a `PLATFORM_TEGRA` build with mode `MODE_HW`,
`hw_blend` set and the table of the two-entry string, a frame with one object
of class id 2 hands the backend that object's rect with `color_id = 1`,
`has_bg_color` set and `bg_color = (0, 0, 1, 0.3)`. -/
theorem C14_witness :
    envTegra.PLATFORM_TEGRA = true ∧ selfHwBlend.dsosdcoord_mode = NvOSD_Mode.MODE_HW ∧
    selfHwBlend.hw_blend = true ∧ selfHwBlend.draw_bbox = true ∧
    tableOf selfHwBlend = [entryGreen, entryBlue] ∧ objBox.class_id = 2 ∧
    payload Kind.rect (gst_ds_osdcoord_transform_ip envTegra selfHwBlend
        (frameOf [objBox] [])).trace
      = [Prim.rect { rectA with
          color_id := 1, has_bg_color := true,
          bg_color := { red := 0, green := 0, blue := 1, alpha := 3 / 10 } }] :=
  ⟨rfl, rfl, rfl, rfl, rfl, rfl,
    ((C14_hw_blend_color envTegra selfHwBlend rfl rfl rfl rfl).2.1 (frameOf [objBox] [])
      allOk_envTegra rfl rfl).trans rfl⟩

/-- Claim C15, counterexample. In a `PLATFORM_TEGRA` build with mode `MODE_HW`,
`hw_blend` set, `draw_bbox` enabled and a table with entries for class ids 0
and 2, an object of class id 5 whose rect has `has_bg_color` set matches no
entry, and the rect handed to the backend is the object's rect as it is, with
`has_bg_color` set. -/
theorem C15_counterexample :
    envTegra.PLATFORM_TEGRA = true ∧ selfHwBlend.dsosdcoord_mode = NvOSD_Mode.MODE_HW ∧
    selfHwBlend.hw_blend = true ∧ selfHwBlend.draw_bbox = true ∧
    (tableOf selfHwBlend).map (fun e => e.id) = [0, 2] ∧ objClass5.class_id = 5 ∧
    payload Kind.rect (gst_ds_osdcoord_transform_ip envTegra selfHwBlend
        (frameOf [objClass5] [])).trace = [Prim.rect rectBg] ∧
    rectBg.has_bg_color = true := by
  decide

/-- Claim C15, amended. In the `PLATFORM_TEGRA` build, with mode `MODE_HW`,
`hw_blend` set and `draw_bbox` enabled, for every object annotation whose class
id matches the id of no table entry, the rect appended for that object is the
annotation's rect unchanged: `color_id`, `has_bg_color` and `bg_color` are
those the annotation carries, so the rect has no background colour exactly
when the annotation's rect has none. With every call succeeding and no object
matching, the rects handed to the backend are the objects' rects followed by
the display rects. -/
theorem C15_no_match_keeps_rect (env : Env) (self : GstDsOsdCoord)
    (htegra : env.PLATFORM_TEGRA = true)
    (hmode : self.dsosdcoord_mode = NvOSD_Mode.MODE_HW) (hblend : self.hw_blend = true)
    (hbbox : self.draw_bbox = true) :
    (∀ o : NvDsObjectMeta, NoMatch self o →
      hwBlendRect self o = o.rect_params ∧
      (hwBlendRect self o).has_bg_color = o.rect_params.has_bg_color ∧
      ∀ m m1 : Exec, (∃ f, m.self = { self with bufs := f }) →
        (objRect env m o = Flow.next m1 ∨ objRect env m o = Flow.ret m1) →
        m1.self.bufs Buf.rect_params (m.cnt Kind.rect) = Prim.rect o.rect_params) ∧
    (∀ buf : GstBuffer, (∀ o ∈ objList buf, NoMatch self o) →
      AllOk env → env.gst_buffer_map = true → env.cudaSetDevice = true →
      payload Kind.rect (gst_ds_osdcoord_transform_ip env self buf).trace
        = (objList buf).map (fun o => Prim.rect o.rect_params)
          ++ (displayRects (displayList buf)).map Prim.rect) := by
  have hhw := hwBlendActive_of env self htegra hmode hblend
  constructor
  · intro o hno
    have hr := @hwBlendRect_noMatch self o hno
    refine ⟨hr, by rw [hr], ?_⟩
    intro m m1 hcfg h
    rw [← hr]
    exact cfg_cell env self m m1 o hcfg hbbox hhw h
  · intro buf hall hok hmap hbind
    rw [payload_hw_blend env self buf hok hmap hbind hbbox hhw]
    congr 1
    apply List.map_congr_left
    intro o ho
    rw [@hwBlendRect_noMatch self o (hall o ho)]

/-- Claim C15, instance: the object of class id 5 matches no entry of the
two-entry table and its rect is appended unchanged. -/
theorem C15_witness :
    envTegra.PLATFORM_TEGRA = true ∧ selfHwBlend.dsosdcoord_mode = NvOSD_Mode.MODE_HW ∧
    selfHwBlend.hw_blend = true ∧ selfHwBlend.draw_bbox = true ∧
    NoMatch selfHwBlend objClass5 ∧ hwBlendRect selfHwBlend objClass5 = rectBg :=
  ⟨rfl, rfl, rfl, rfl, by unfold NoMatch; decide,
    ((C15_no_match_keeps_rect envTegra selfHwBlend rfl rfl rfl rfl).1 objClass5
      (by unfold NoMatch; decide)).1⟩

end DsOsdCoord
